import Mathlib

/-!
# Player server core: message queue, driver subscriptions and messages, XDR function table

A shallow embedding of

* `Message::Compare`, `MessageQueue::MessageQueue`, `MessageQueue::Push`, `MessageQueue::Pop`,
  `MessageQueue::Remove` and `MessageQueue::DataAvailable` of `libplayercore/message.cc`;
* the two constructors of `Message`, its destructor and `Message::DecRef` of
  `libplayercore/message.cc`, over a store of allocated blocks;
* `Driver::Subscribe`, `Driver::Unsubscribe`, `Driver::PutMsg` and `Driver::ProcessMessages` of
  `server/driver.cc`, and `Driver::Subscribe` as the steps of two threads;
* `playerxdr_ftable_init`, `playerxdr_ftable_add` and `playerxdr_get_func` of
  `libplayerxdr/functiontable.c`.

The intrusive doubly linked list `head … tail` of a `MessageQueue` is represented by the list of
the queued messages in head-to-tail order; an element pointer is represented by its position in
that list.  The `Length` counter is kept as a field of its own, exactly as the code keeps it, so
that its agreement with the number of linked elements is a theorem and not a definition.
-/

namespace Player

/-! ## Messages -/

/-- The fields of `struct player_msghdr` that the sources read or write. -/
structure player_msghdr where
  stx : Nat
  type : Nat
  subtype : Nat
  device : Nat
  device_index : Nat
  timestamp_sec : Nat
  timestamp_usec : Nat
  size : Nat
  deriving DecidableEq, Repr

/-- A `Message`: the header and the payload bytes held in its `Data` buffer. -/
structure Message where
  Header : player_msghdr
  Payload : List Nat
  deriving DecidableEq, Repr

/-- Method `Message::GetHeader`: the header at the start of the `Data` buffer. -/
def Message.GetHeader (m : Message) : player_msghdr := m.Header

/-- Method `Message::Compare`: the conjunction of four header field comparisons. -/
def Message.Compare (this other : Message) : Bool :=
  let thishdr := this.GetHeader
  let otherhdr := other.GetHeader
  (thishdr.type == otherhdr.type) &&
  (thishdr.subtype == otherhdr.subtype) &&
  (thishdr.device == otherhdr.device) &&
  (thishdr.device_index == otherhdr.device_index)

/-! ## Message queues -/

/-- A `MessageQueue`: the two policy fields, the linked elements (head first) and the `Length`
counter. -/
structure MessageQueue where
  Replace : Bool
  Maxlen : Nat
  elems : List Message
  Length : Nat
  deriving DecidableEq, Repr

namespace MessageQueue

/-- Constructor `MessageQueue::MessageQueue(_Replace, _Maxlen)`: `head = tail = NULL` and
`Length = 0`. -/
def new (_Replace : Bool) (_Maxlen : Nat) : MessageQueue :=
  { Replace := _Replace, Maxlen := _Maxlen, elems := [], Length := 0 }

/-- Modelled from the spec: `MessageQueue::Empty()` is declared in `message.h`, which is not among
the sources; the queue "reports empty" when it has no head element. -/
def Empty (q : MessageQueue) : Bool := q.elems.isEmpty

/-- Method `MessageQueue::Remove(el)`, `el` being the element at position `i`: it is unlinked
and `Length` is decremented.  In every state reached from a new queue the counter is the number
of linked elements (`run_Wf`), so the decrement is executed with `Length ≥ 1` only and its
behaviour at zero (a wrap-around in the source, truncation here) is never reached. -/
def Remove (q : MessageQueue) (i : Nat) : MessageQueue :=
  { q with elems := q.elems.eraseIdx i, Length := q.Length - 1 }

/-- The replace loop of `Push`: `for (el = tail; el != NULL; el = el->prev)`.  The argument `n`
is one more than the position of `el` (`0` stands for `el == NULL`); on the first element that
compares equal to `msg` the element is removed and the loop is left. -/
def replaceScan (q : MessageQueue) (msg : Message) : Nat → MessageQueue
  | 0 => q
  | i + 1 =>
    match q.elems[i]? with
    | some el => if el.Compare msg then q.Remove i else replaceScan q msg i
    | none => replaceScan q msg i

section Push

variable (PLAYER_MSGTYPE_DATA PLAYER_MSGTYPE_CMD : Nat)

/-- The first half of `MessageQueue::Push`: the guarded replace loop, started at the tail.
The two message type tags come from `player.h`, which is not among the sources, and are
parameters. -/
def pushReplace (q : MessageQueue) (msg : Message) : MessageQueue :=
  let hdr := msg.GetHeader
  if q.Replace && ((hdr.type == PLAYER_MSGTYPE_DATA) || (hdr.type == PLAYER_MSGTYPE_CMD)) then
    q.replaceScan msg q.elems.length
  else q

/-- Method `MessageQueue::Push`: the new state and the returned element (`none` for `NULL`),
which is represented by the message it holds. -/
def Push (q : MessageQueue) (msg : Message) : MessageQueue × Option Message :=
  let q1 := pushReplace PLAYER_MSGTYPE_DATA PLAYER_MSGTYPE_CMD q msg
  if q1.Length ≥ q1.Maxlen then
    (q1, none)
  else
    ({ q1 with elems := q1.elems ++ [msg], Length := q1.Length + 1 }, some msg)

end Push

/-- Method `MessageQueue::Pop`: `NULL` on an empty queue; otherwise `el = head`, `Remove(el)`,
and the message of `el` is returned. -/
def Pop (q : MessageQueue) : MessageQueue × Option Message :=
  if q.Empty then (q, none)
  else (q.Remove 0, q.elems.head?)

/-- One call on a queue, as a client issues it. -/
inductive Call where
  | Push (msg : Message)
  | Pop
  deriving DecidableEq, Repr

section Run

variable (PLAYER_MSGTYPE_DATA PLAYER_MSGTYPE_CMD : Nat)

/-- The state after one call. -/
def step (q : MessageQueue) : Call → MessageQueue
  | Call.Push msg => (Push PLAYER_MSGTYPE_DATA PLAYER_MSGTYPE_CMD q msg).1
  | Call.Pop => q.Pop.1

/-- The state after a sequence of calls, executed one after the other. -/
def run (q : MessageQueue) (cs : List Call) : MessageQueue :=
  cs.foldl (step PLAYER_MSGTYPE_DATA PLAYER_MSGTYPE_CMD) q

/-- Consecutive `Push` calls of the given messages: the final state and the results returned. -/
def pushAll (q : MessageQueue) : List Message → MessageQueue × List (Option Message)
  | [] => (q, [])
  | msg :: rest =>
    let r := Push PLAYER_MSGTYPE_DATA PLAYER_MSGTYPE_CMD q msg
    let t := pushAll r.1 rest
    (t.1, r.2 :: t.2)

/-- Bookkeeping over a sequence of calls: the final state, the number of accepted pushes
(non-`NULL` results) and the number of successful pops (non-`NULL` results). -/
def runCount (q : MessageQueue) : List Call → MessageQueue × Nat × Nat
  | [] => (q, 0, 0)
  | Call.Push msg :: rest =>
    let r := Push PLAYER_MSGTYPE_DATA PLAYER_MSGTYPE_CMD q msg
    let t := runCount r.1 rest
    (t.1, t.2.1 + (if r.2.isSome then 1 else 0), t.2.2)
  | Call.Pop :: rest =>
    let r := q.Pop
    let t := runCount r.1 rest
    (t.1, t.2.1, t.2.2 + (if r.2.isSome then 1 else 0))

end Run

/-- Consecutive `Pop` calls: the final state and the results returned, first call first. -/
def popN (q : MessageQueue) : Nat → MessageQueue × List (Option Message)
  | 0 => (q, [])
  | n + 1 =>
    let r := q.Pop
    let t := popN r.1 n
    (t.1, r.2 :: t.2)

/-- The counter agrees with the linked elements and respects the bound. -/
def Wf (q : MessageQueue) : Prop :=
  q.Length = q.elems.length ∧ q.Length ≤ q.Maxlen

/-- At most one queued message for each `DATA` or `CMD` signature. -/
def Coalesced (PLAYER_MSGTYPE_DATA PLAYER_MSGTYPE_CMD : Nat) (q : MessageQueue) : Prop :=
  ∀ m : Message, (m.Header.type = PLAYER_MSGTYPE_DATA ∨ m.Header.type = PLAYER_MSGTYPE_CMD) →
    q.elems.countP (fun x => x.Compare m) ≤ 1

end MessageQueue

/-! ## Driver subscription counting -/

/-- The largest value of an `int`, which is 32 bits wide on the platforms the server is built
for. -/
def INT_MAX : Int := 2147483647

/-- The smallest value of an `int`. -/
def INT_MIN : Int := -2147483648

/-- The statement `x++` on an `int`.  At `INT_MAX` the result `INT_MAX + 1` is no value of an
`int`: the language leaves the overflow undefined, and the compiled code wraps around to
`INT_MIN`, which is what this function returns. -/
def int_incr (x : Int) : Int := if x = INT_MAX then INT_MIN else x + 1

/-- The statement `x--` on an `int`, which wraps around from `INT_MIN` to `INT_MAX`. -/
def int_decr (x : Int) : Int := if x = INT_MIN then INT_MAX else x - 1

/-- The calls that `Subscribe` and `Unsubscribe` make on the driver, in the order made. -/
inductive DriverEvent where
  | Setup
  | Shutdown
  | DataAvailable
  deriving DecidableEq, Repr

/-- The two pure virtual methods `Setup()` and `Shutdown()` of `driver.h`, supplied by the
concrete driver: each returns an `int` and may change the concrete driver's own state `σ`. -/
structure DriverImpl (σ : Type) where
  Setup : σ → Int × σ
  Shutdown : σ → Int × σ

/-- The part of a `Driver` that `Subscribe` and `Unsubscribe` touch: the `int subscriptions`
counter (its values lie between `INT_MIN` and `INT_MAX`, and it is changed by `int_incr` and
`int_decr` only), the state of the concrete driver, and the record of the calls made so far. -/
structure Driver (σ : Type) where
  subscriptions : Int
  impl : σ
  calls : List DriverEvent

namespace Driver

variable {σ : Type}

/-- The constructors `Driver::Driver`: `subscriptions = 0`. -/
def init (s : σ) : Driver σ :=
  { subscriptions := 0, impl := s, calls := [] }

/-- A call of `Setup()`. -/
def callSetup (I : DriverImpl σ) (d : Driver σ) : Int × Driver σ :=
  ((I.Setup d.impl).1, { d with impl := (I.Setup d.impl).2, calls := d.calls ++ [DriverEvent.Setup] })

/-- A call of `Shutdown()`. -/
def callShutdown (I : DriverImpl σ) (d : Driver σ) : Int × Driver σ :=
  ((I.Shutdown d.impl).1,
    { d with impl := (I.Shutdown d.impl).2, calls := d.calls ++ [DriverEvent.Shutdown] })

/-- A call of `Driver::DataAvailable()`, which broadcasts on the driver's condition variable. -/
def DataAvailable (d : Driver σ) : Driver σ :=
  { d with calls := d.calls ++ [DriverEvent.DataAvailable] }

/-- Method `Driver::Subscribe` (its argument is not read): the returned `setupResult` and the
new state. -/
def Subscribe (I : DriverImpl σ) (d : Driver σ) : Int × Driver σ :=
  if d.subscriptions = 0 then
    let r := callSetup I d
    if r.1 = 0 then (r.1, { r.2 with subscriptions := int_incr r.2.subscriptions })
    else (r.1, r.2)
  else
    (0, { d with subscriptions := int_incr d.subscriptions })

/-- Method `Driver::Unsubscribe` (its argument is not read): the returned `shutdownResult` and
the new state. -/
def Unsubscribe (I : DriverImpl σ) (d : Driver σ) : Int × Driver σ :=
  if d.subscriptions = 0 then
    (-1, d)
  else if d.subscriptions = 1 then
    let r := callShutdown I d
    let d1 := r.2.DataAvailable
    if r.1 = 0 then (r.1, { d1 with subscriptions := int_decr d1.subscriptions })
    else (r.1, d1)
  else
    (0, { d with subscriptions := int_decr d.subscriptions })

/-- One call on a driver. -/
inductive Call where
  | Subscribe
  | Unsubscribe
  deriving DecidableEq, Repr

/-- The state after one call. -/
def step (I : DriverImpl σ) (d : Driver σ) : Call → Driver σ
  | Call.Subscribe => (Subscribe I d).2
  | Call.Unsubscribe => (Unsubscribe I d).2

/-- The state after a sequence of calls, executed one after the other. -/
def run (I : DriverImpl σ) (d : Driver σ) (cs : List Call) : Driver σ :=
  cs.foldl (step I) d

/-- The calls that one `Subscribe` or `Unsubscribe` makes: what it adds to the record. -/
def emitted (I : DriverImpl σ) (d : Driver σ) (c : Call) : List DriverEvent :=
  (step I d c).calls.drop d.calls.length

end Driver

/-! ### `Driver::PutMsg` and `Driver::ProcessMessages` -/

/-- The record `player_device_id_t`. -/
structure player_device_id where
  code : Nat
  index : Nat
  port : Nat
  deriving DecidableEq, Repr

/-- The record `struct timeval`. -/
structure timeval where
  tv_sec : Int
  tv_usec : Int
  deriving DecidableEq, Repr

/-- A `ClientData` object as `driver.cc` uses it: where it lives (`addr`, which stands for the
pointer) and its `port` member, the only member read. -/
structure ClientData where
  addr : Nat
  port : Nat
  deriving DecidableEq, Repr

/-- What a call of `Driver::PutMsg` does besides returning: `Lock()`, `Unlock()`, the call
`clientmanager->PutMsg(type, code, index, tv_sec, tv_usec, len, src, client)` and a call of
`DataAvailable()`. -/
inductive PutMsgEvent where
  | Lock
  | Unlock
  | ClientManagerPutMsg (type code index : Nat) (tv_sec tv_usec : Int) (len : Nat)
      (src : List Nat) (client : Option ClientData)
  | DataAvailable
  deriving DecidableEq, Repr

namespace Driver

/-- Method `Driver::PutMsg(player_device_id_t id, ClientData* client, unsigned short type,
void* src, size_t len, struct timeval* timestamp)`: the value returned and the calls made, in
order.  The device table behind `deviceTable->GetDevice` and the clock behind
`GlobalTime->GetTime` are not among the sources: `GetDevice` (`none` for `NULL`) and the time
`GetTime` that the clock reports are parameters.  A `NULL` `client` or `timestamp` is `none`;
`src` is the content of the buffer pointed to. -/
def PutMsg (GetDevice : player_device_id → Option Nat) (GetTime : timeval)
    (id : player_device_id) (client : Option ClientData) (type : Nat) (src : List Nat)
    (len : Nat) (timestamp : Option timeval) : Int × List PutMsgEvent :=
  let retval : Int := 0
  let ts : timeval :=
    match timestamp with
    | some t => t
    | none => GetTime
  match GetDevice id with
  | none => (0, [])
  | some _ =>
    let calls :=
      [PutMsgEvent.Lock,
        PutMsgEvent.ClientManagerPutMsg type id.code id.index ts.tv_sec ts.tv_usec len src client,
        PutMsgEvent.Unlock]
    if retval < 0 then (retval, calls) else (0, calls)

/-- Method `Driver::PutMsg(player_msghdr* hdr, ClientData* client, unsigned short type,
void* src, size_t len, struct timeval* timestamp)`, the second overload: the identity looked up
is made of `hdr->device`, `hdr->device_index` and `client->port`. -/
def PutMsg_hdr (GetDevice : player_device_id → Option Nat) (GetTime : timeval)
    (hdr : player_msghdr) (client : ClientData) (type : Nat) (src : List Nat)
    (len : Nat) (timestamp : Option timeval) : Int × List PutMsgEvent :=
  let id : player_device_id := { code := hdr.device, index := hdr.device_index, port := client.port }
  let retval : Int := 0
  let ts : timeval :=
    match timestamp with
    | some t => t
    | none => GetTime
  match GetDevice id with
  | none => (0, [])
  | some _ =>
    let calls :=
      [PutMsgEvent.Lock,
        PutMsgEvent.ClientManagerPutMsg type id.code id.index ts.tv_sec ts.tv_usec len src
          (some client),
        PutMsgEvent.Unlock]
    if retval < 0 then (retval, calls) else (0, calls)

end Driver

/-- An element as `Driver::ProcessMessages` reads it: the message `el->msg` and the member
`el->msg.Client`. -/
structure InElement where
  msg : Message
  Client : ClientData
  deriving DecidableEq, Repr

/-- Modelled from the spec: `Pop` of the queue class of `InQueue` in this revision of
`driver.cc`, which returns the element and is not among the sources: it removes and returns
the head element, or reports empty (`none` for `NULL`), as `MessageQueue::Pop` does. -/
def InQueue_Pop : List InElement → List InElement × Option InElement
  | [] => ([], none)
  | el :: rest => (rest, some el)

/-- What `Driver::ProcessMessages` does, in order: the warning `PLAYER_WARN2` on a payload size
that differs from the header's, the call of the virtual `ProcessMessage(client, hdr, data, ..)`,
the call `PutMsg(hdr, client, ret, RespData, RespLen, NULL)` (the argument values as the caller
writes them), the warning `PLAYER_WARN5` with the five values it prints, and
`pthread_testcancel()`. -/
inductive ProcessEvent where
  | SizeWarn (payloadSize hdrSize : Nat)
  | ProcessMessage (client : ClientData) (hdr : player_msghdr) (data : List Nat)
  | PutMsg (hdr : player_msghdr) (client : ClientData) (type : Int) (src : List Nat) (len : Int)
  | UnhandledWarn (device device_index type size first : Nat)
  | testcancel
  deriving DecidableEq, Repr

/-- What a call of the virtual `ProcessMessage` hands back: its return value, the content of
`resp_data` and the value of `*resp_len` afterwards, and the concrete driver's state. -/
structure HandlerResult (σ : Type) where
  ret : Int
  RespData : List Nat
  RespLen : Int
  impl : σ

/-- The state that `Driver::ProcessMessages` works on: the inbound queue, the local buffer
`RespData`, the concrete driver's state and the record of what was done. -/
structure ProcessState (σ : Type) where
  InQueue : List InElement
  RespData : List Nat
  impl : σ
  events : List ProcessEvent

namespace Driver

variable {σ : Type}

/-- The body of the `while` loop of `Driver::ProcessMessages` for the popped element `el`.
The virtual `ProcessMessage` is the parameter: it gets the concrete driver's state, the client,
the header, the payload, the current content of `RespData` and `RespLen`, which is reset to
`PLAYER_MAX_MESSAGE_SIZE` (a parameter, `player.h` is not among the sources) for every message.
`GetPayload` and `GetPayloadSize` of the absent `message.h` are the payload bytes and their
number. -/
def ProcessMessages_body
    (ProcessMessage : σ → ClientData → player_msghdr → List Nat → List Nat → Int → HandlerResult σ)
    (PLAYER_MAX_MESSAGE_SIZE : Int) (st : ProcessState σ) (el : InElement) : ProcessState σ :=
  let RespLen : Int := PLAYER_MAX_MESSAGE_SIZE
  let hdr := el.msg.GetHeader
  let data := el.msg.Payload
  let warn1 :=
    if el.msg.Payload.length ≠ hdr.size then
      [ProcessEvent.SizeWarn el.msg.Payload.length hdr.size]
    else []
  let r := ProcessMessage st.impl el.Client hdr data st.RespData RespLen
  let call := [ProcessEvent.ProcessMessage el.Client hdr data]
  let after :=
    if r.ret > 0 then
      [ProcessEvent.PutMsg hdr el.Client r.ret r.RespData r.RespLen]
    else if r.ret < 0 then
      [ProcessEvent.UnhandledWarn hdr.device hdr.device_index hdr.type hdr.size
        (if hdr.size ≠ 0 then data.getD 0 0 else 0)]
    else []
  { st with
    RespData := r.RespData
    impl := r.impl
    events := st.events ++ warn1 ++ call ++ after ++ [ProcessEvent.testcancel] }

/-- Method `Driver::ProcessMessages`: `while ((el = InQueue.Pop())) { .. }`, with a bound on the
number of `Pop` calls (one more than the queue length is enough, and from there on the result
no longer depends on the bound). -/
def ProcessMessages
    (ProcessMessage : σ → ClientData → player_msghdr → List Nat → List Nat → Int → HandlerResult σ)
    (PLAYER_MAX_MESSAGE_SIZE : Int) : Nat → ProcessState σ → ProcessState σ
  | 0, st => st
  | fuel + 1, st =>
    match (InQueue_Pop st.InQueue).2 with
    | none => { st with InQueue := (InQueue_Pop st.InQueue).1 }
    | some el =>
      ProcessMessages ProcessMessage PLAYER_MAX_MESSAGE_SIZE fuel
        (ProcessMessages_body ProcessMessage PLAYER_MAX_MESSAGE_SIZE
          { st with InQueue := (InQueue_Pop st.InQueue).1 } el)

/-- The arguments of the `ProcessMessage` calls in a record, in order. -/
def handlerCalls : List ProcessEvent → List (ClientData × player_msghdr × List Nat)
  | [] => []
  | ProcessEvent.ProcessMessage client hdr data :: rest => (client, hdr, data) :: handlerCalls rest
  | _ :: rest => handlerCalls rest

end Driver

/-! ## The XDR function table (`libplayerxdr/functiontable.c`) -/

/-- An entry `playerxdr_function_t`; `func` is `none` for a `NULL` function pointer and
otherwise names the pack function pointed to. -/
structure playerxdr_function_t where
  interf : Nat
  type : Nat
  subtype : Nat
  func : Option Nat
  deriving DecidableEq, Repr

/-- The interface codes, message types and subtypes of `player.h` and the pack functions of
`playerxdr.h` that `init_ftable` names.  Neither header is among the sources, so each is a
parameter (the codes and tags are taken to fit the `uint16_t` and `uint8_t` fields). -/
structure XdrNames where
  PLAYER_PLAYER_CODE : Nat
  PLAYER_LASER_CODE : Nat
  PLAYER_SONAR_CODE : Nat
  PLAYER_POSITION2D_CODE : Nat
  PLAYER_MSGTYPE_DATA : Nat
  PLAYER_MSGTYPE_CMD : Nat
  PLAYER_MSGTYPE_REQ : Nat
  PLAYER_MSGTYPE_RESP_ACK : Nat
  PLAYER_PLAYER_REQ_DEVLIST : Nat
  PLAYER_PLAYER_REQ_DRIVERINFO : Nat
  PLAYER_PLAYER_REQ_DEV : Nat
  PLAYER_PLAYER_REQ_DATA : Nat
  PLAYER_PLAYER_REQ_DATAMODE : Nat
  PLAYER_PLAYER_REQ_DATAFREQ : Nat
  PLAYER_PLAYER_REQ_AUTH : Nat
  PLAYER_PLAYER_REQ_NAMESERVICE : Nat
  PLAYER_LASER_DATA_SCAN : Nat
  PLAYER_SONAR_DATA_RANGES : Nat
  PLAYER_SONAR_REQ_GET_GEOM : Nat
  PLAYER_POSITION2D_DATA_STATE : Nat
  PLAYER_POSITION2D_CMD_STATE : Nat
  player_device_devlist_pack : Nat
  player_device_driverinfo_pack : Nat
  player_device_req_pack : Nat
  player_device_data_req_pack : Nat
  player_device_datamode_req_pack : Nat
  player_device_datafreq_req_pack : Nat
  player_device_auth_req_pack : Nat
  player_device_nameservice_req_pack : Nat
  player_laser_data_pack : Nat
  player_sonar_data_pack : Nat
  player_sonar_geom_pack : Nat
  player_position2d_data_pack : Nat
  player_position2d_cmd_pack : Nat

/-- The static array `init_ftable`, the sentinel `{0,0,0,NULL}` included. -/
def init_ftable (K : XdrNames) : List playerxdr_function_t :=
  [ ⟨K.PLAYER_PLAYER_CODE, K.PLAYER_MSGTYPE_REQ, K.PLAYER_PLAYER_REQ_DEVLIST,
      some K.player_device_devlist_pack⟩,
    ⟨K.PLAYER_PLAYER_CODE, K.PLAYER_MSGTYPE_REQ, K.PLAYER_PLAYER_REQ_DRIVERINFO,
      some K.player_device_driverinfo_pack⟩,
    ⟨K.PLAYER_PLAYER_CODE, K.PLAYER_MSGTYPE_REQ, K.PLAYER_PLAYER_REQ_DEV,
      some K.player_device_req_pack⟩,
    ⟨K.PLAYER_PLAYER_CODE, K.PLAYER_MSGTYPE_REQ, K.PLAYER_PLAYER_REQ_DATA,
      some K.player_device_data_req_pack⟩,
    ⟨K.PLAYER_PLAYER_CODE, K.PLAYER_MSGTYPE_REQ, K.PLAYER_PLAYER_REQ_DATAMODE,
      some K.player_device_datamode_req_pack⟩,
    ⟨K.PLAYER_PLAYER_CODE, K.PLAYER_MSGTYPE_REQ, K.PLAYER_PLAYER_REQ_DATAFREQ,
      some K.player_device_datafreq_req_pack⟩,
    ⟨K.PLAYER_PLAYER_CODE, K.PLAYER_MSGTYPE_REQ, K.PLAYER_PLAYER_REQ_AUTH,
      some K.player_device_auth_req_pack⟩,
    ⟨K.PLAYER_PLAYER_CODE, K.PLAYER_MSGTYPE_REQ, K.PLAYER_PLAYER_REQ_NAMESERVICE,
      some K.player_device_nameservice_req_pack⟩,
    ⟨K.PLAYER_LASER_CODE, K.PLAYER_MSGTYPE_DATA, K.PLAYER_LASER_DATA_SCAN,
      some K.player_laser_data_pack⟩,
    ⟨K.PLAYER_SONAR_CODE, K.PLAYER_MSGTYPE_DATA, K.PLAYER_SONAR_DATA_RANGES,
      some K.player_sonar_data_pack⟩,
    ⟨K.PLAYER_SONAR_CODE, K.PLAYER_MSGTYPE_REQ, K.PLAYER_SONAR_REQ_GET_GEOM,
      some K.player_sonar_geom_pack⟩,
    ⟨K.PLAYER_POSITION2D_CODE, K.PLAYER_MSGTYPE_DATA, K.PLAYER_POSITION2D_DATA_STATE,
      some K.player_position2d_data_pack⟩,
    ⟨K.PLAYER_POSITION2D_CODE, K.PLAYER_MSGTYPE_CMD, K.PLAYER_POSITION2D_CMD_STATE,
      some K.player_position2d_cmd_pack⟩,
    ⟨0, 0, 0, none⟩ ]

/-- The counting loop of `playerxdr_ftable_init`: `for (f = init_ftable; f->func; f++)
ftable_len++`. -/
def ftable_count : List playerxdr_function_t → Nat
  | [] => 0
  | f :: rest => if f.func.isSome then ftable_count rest + 1 else 0

/-- Function `playerxdr_ftable_init`: the table `ftable` afterwards, an array of `ftable_len`
entries copied from the start of `init_ftable`; `ftable_len` is the length of the list. -/
def playerxdr_ftable_init (K : XdrNames) : List playerxdr_function_t :=
  (init_ftable K).take (ftable_count (init_ftable K))

/-- Function `playerxdr_ftable_add`: the array grows by one slot, which gets `f`. -/
def playerxdr_ftable_add (ftable : List playerxdr_function_t) (f : playerxdr_function_t) :
    List playerxdr_function_t :=
  ftable ++ [f]

section GetFunc

variable (PLAYER_MSGTYPE_REQ PLAYER_MSGTYPE_RESP_ACK : Nat)

/-- The condition of the `if` in the loop of `playerxdr_get_func`, evaluated left to right with
the short circuits of `&&` and `||`: its truth value and the value of the local `type`
afterwards.  The third operand of the inner `&&` is the assignment
`type = PLAYER_MSGTYPE_RESP_ACK`: it stores the tag in the `uint8_t` variable and is true when
the stored value is not zero. -/
def entry_test (curr : playerxdr_function_t) (interf type subtype : Nat) : Bool × Nat :=
  if curr.interf == interf then
    if curr.type == type then
      (curr.subtype == subtype, type)
    else if curr.type == PLAYER_MSGTYPE_REQ then
      ((PLAYER_MSGTYPE_RESP_ACK % 256 != 0) && (curr.subtype == subtype),
        PLAYER_MSGTYPE_RESP_ACK % 256)
    else (false, type)
  else (false, type)

/-- The loop of `playerxdr_get_func` over the entries still to visit, `type` being the current
value of the local variable. -/
def get_func_loop (interf subtype : Nat) : Nat → List playerxdr_function_t → Option Nat
  | _, [] => none
  | type, curr :: rest =>
    if (entry_test PLAYER_MSGTYPE_REQ PLAYER_MSGTYPE_RESP_ACK curr interf type subtype).1 then
      curr.func
    else
      get_func_loop interf subtype
        (entry_test PLAYER_MSGTYPE_REQ PLAYER_MSGTYPE_RESP_ACK curr interf type subtype).2 rest

/-- Function `playerxdr_get_func(interf, type, subtype)` on the table `ftable`; `none` is
`NULL`. -/
def playerxdr_get_func (ftable : List playerxdr_function_t) (interf type subtype : Nat) :
    Option Nat :=
  get_func_loop PLAYER_MSGTYPE_REQ PLAYER_MSGTYPE_RESP_ACK interf subtype type ftable

end GetFunc

/-- An entry matches the arguments of a lookup as the comment in `playerxdr_get_func` and the
specification put it: same interface, same subtype, and the registered type is the supplied
one or is `REQ` while the supplied one is `RESP_ACK`. -/
def entry_matches (PLAYER_MSGTYPE_REQ PLAYER_MSGTYPE_RESP_ACK : Nat)
    (curr : playerxdr_function_t) (interf type subtype : Nat) : Prop :=
  curr.interf = interf ∧ curr.subtype = subtype ∧
    (curr.type = type ∨ (curr.type = PLAYER_MSGTYPE_REQ ∧ type = PLAYER_MSGTYPE_RESP_ACK))

/-- An assignment of values to the names of `XdrNames` (the interface codes differ from one
another, and so do the type tags, the subtypes within an interface and the functions), at
which the statements on the function table are instantiated. -/
def XdrNames.sample : XdrNames :=
  { PLAYER_PLAYER_CODE := 1, PLAYER_LASER_CODE := 6, PLAYER_SONAR_CODE := 5,
    PLAYER_POSITION2D_CODE := 4,
    PLAYER_MSGTYPE_DATA := 1, PLAYER_MSGTYPE_CMD := 2, PLAYER_MSGTYPE_REQ := 3,
    PLAYER_MSGTYPE_RESP_ACK := 4,
    PLAYER_PLAYER_REQ_DEVLIST := 1, PLAYER_PLAYER_REQ_DRIVERINFO := 2,
    PLAYER_PLAYER_REQ_DEV := 3, PLAYER_PLAYER_REQ_DATA := 4, PLAYER_PLAYER_REQ_DATAMODE := 5,
    PLAYER_PLAYER_REQ_DATAFREQ := 6, PLAYER_PLAYER_REQ_AUTH := 7,
    PLAYER_PLAYER_REQ_NAMESERVICE := 8,
    PLAYER_LASER_DATA_SCAN := 1, PLAYER_SONAR_DATA_RANGES := 1, PLAYER_SONAR_REQ_GET_GEOM := 2,
    PLAYER_POSITION2D_DATA_STATE := 1, PLAYER_POSITION2D_CMD_STATE := 2,
    player_device_devlist_pack := 101, player_device_driverinfo_pack := 102,
    player_device_req_pack := 103, player_device_data_req_pack := 104,
    player_device_datamode_req_pack := 105, player_device_datafreq_req_pack := 106,
    player_device_auth_req_pack := 107, player_device_nameservice_req_pack := 108,
    player_laser_data_pack := 109, player_sonar_data_pack := 110, player_sonar_geom_pack := 111,
    player_position2d_data_pack := 112, player_position2d_cmd_pack := 113 }

/-! ## Calls made by `MessageQueue::Push` -/

/-- The calls that `MessageQueue::Push`, `MessageQueue::DataAvailable` and `MessageQueue::Wait`
make on the lock and the condition variable of the queue, and the warning macro:
`this->Lock()`, `this->Unlock()`, `PLAYER_WARN(..)`, `pthread_mutex_lock(&condMutex)`,
`pthread_cond_broadcast(&cond)`, `pthread_cond_wait(&cond, &condMutex)` and
`pthread_mutex_unlock(&condMutex)`. -/
inductive QueueEvent where
  | Lock
  | Unlock
  | PLAYER_WARN
  | condMutex_lock
  | cond_broadcast
  | cond_wait
  | condMutex_unlock
  deriving DecidableEq, Repr

namespace MessageQueue

/-- Method `MessageQueue::DataAvailable`: the calls it makes, in order. -/
def DataAvailable : List QueueEvent :=
  [QueueEvent.condMutex_lock, QueueEvent.cond_broadcast, QueueEvent.condMutex_unlock]

/-- Method `MessageQueue::Push` together with the calls it makes, in order: `Lock()` before the
replace loop, then in the full branch the warning, `Unlock()`, `DataAvailable()` and
`return(NULL)`, in the other branch the linking of the new element, `Unlock()`,
`DataAvailable()` and `return(newelt)`. -/
def Push_traced (PLAYER_MSGTYPE_DATA PLAYER_MSGTYPE_CMD : Nat) (q : MessageQueue)
    (msg : Message) : (MessageQueue × Option Message) × List QueueEvent :=
  let calls := [QueueEvent.Lock]
  let q1 := pushReplace PLAYER_MSGTYPE_DATA PLAYER_MSGTYPE_CMD q msg
  if q1.Length ≥ q1.Maxlen then
    ((q1, none), calls ++ [QueueEvent.PLAYER_WARN] ++ [QueueEvent.Unlock] ++ DataAvailable)
  else
    (({ q1 with elems := q1.elems ++ [msg], Length := q1.Length + 1 }, some msg),
      calls ++ [QueueEvent.Unlock] ++ DataAvailable)

end MessageQueue

/-! ## The lookup that never modifies the supplied type -/

/-- The search that the specification compares `playerxdr_get_func` with: the same linear
first-match loop over the table, in which every entry is tested, by the condition of the source
(`entry_test`), against the type that was supplied; the value that the condition leaves in the
local variable is dropped. -/
def get_func_unmodified (PLAYER_MSGTYPE_REQ PLAYER_MSGTYPE_RESP_ACK : Nat)
    (interf type subtype : Nat) : List playerxdr_function_t → Option Nat
  | [] => none
  | curr :: rest =>
    if (entry_test PLAYER_MSGTYPE_REQ PLAYER_MSGTYPE_RESP_ACK curr interf type subtype).1 then
      curr.func
    else
      get_func_unmodified PLAYER_MSGTYPE_REQ PLAYER_MSGTYPE_RESP_ACK interf type subtype rest

/-! ## Two threads in `Driver::Subscribe` -/

/-- Where a thread stands inside `Driver::Subscribe`: before the test `subscriptions == 0`,
before the call `Setup()`, before the statement `if (setupResult == 0) subscriptions++` (with
the value that `Setup()` returned), before the statements of the `else` branch, or returned
with `setupResult`. -/
inductive SubscribePc where
  | test
  | setup
  | count (setupResult : Int)
  | other
  | returned (setupResult : Int)
  deriving DecidableEq, Repr

namespace Driver

variable {σ : Type}

/-- One step of a thread that executes `Driver::Subscribe`.  The method takes no lock
(`setupMutex` of `driver.h` is neither initialised nor locked anywhere in `driver.cc`), so
another thread may take steps between any two steps of this one. -/
def Subscribe_step (I : DriverImpl σ) (d : Driver σ) : SubscribePc → Driver σ × SubscribePc
  | SubscribePc.test =>
    if d.subscriptions = 0 then (d, SubscribePc.setup) else (d, SubscribePc.other)
  | SubscribePc.setup => ((callSetup I d).2, SubscribePc.count (callSetup I d).1)
  | SubscribePc.count setupResult =>
    if setupResult = 0 then
      ({ d with subscriptions := int_incr d.subscriptions }, SubscribePc.returned setupResult)
    else (d, SubscribePc.returned setupResult)
  | SubscribePc.other =>
    ({ d with subscriptions := int_incr d.subscriptions }, SubscribePc.returned 0)
  | SubscribePc.returned setupResult => (d, SubscribePc.returned setupResult)

/-- The given number of steps of one thread, no other thread running. -/
def Subscribe_steps (I : DriverImpl σ) : Nat → Driver σ × SubscribePc → Driver σ × SubscribePc
  | 0, s => s
  | n + 1, s => Subscribe_steps I n (Subscribe_step I s.1 s.2)

/-- Two threads that each execute `Subscribe` on one driver: the schedule names the thread that
takes the next step (`false` the first thread, `true` the second). -/
def Subscribe_interleaved (I : DriverImpl σ) :
    List Bool → Driver σ × SubscribePc × SubscribePc → Driver σ × SubscribePc × SubscribePc
  | [], s => s
  | false :: rest, s =>
    Subscribe_interleaved I rest
      ((Subscribe_step I s.1 s.2.1).1, (Subscribe_step I s.1 s.2.1).2, s.2.2)
  | true :: rest, s =>
    Subscribe_interleaved I rest
      ((Subscribe_step I s.1 s.2.2).1, s.2.1, (Subscribe_step I s.1 s.2.2).2)

end Driver

/-! ## Message objects in memory (`Message::Message`, `Message::~Message`, `Message::DecRef`) -/

/-- The largest value of an `unsigned int`, which is 32 bits wide on the platforms the server
is built for; an `unsigned int` computes modulo `UINT_MAX + 1`. -/
def UINT_MAX : Nat := 4294967295

/-- The store that `new` and `delete` manage: the blocks handed out so far, in the order of
allocation, each block being the list of its cells (the bytes of a buffer, or the one value of
an `unsigned int` or of a mutex); a block that was deleted is `none`.  A block is named by its
position, so a block that `new` returns is one that no earlier pointer names. -/
structure Memory where
  blocks : List (Option (List Nat))
  deriving DecidableEq, Repr

/-- A pointer: a block and an offset into it. -/
structure Ptr where
  block : Nat
  off : Nat
  deriving DecidableEq, Repr

namespace Memory

/-- Operator `new`: the store with a fresh block of the given content, and the name of the
block.  (`new` throws instead of returning `NULL`, so the `assert`s on its result pass.) -/
def alloc (M : Memory) (cells : List Nat) : Memory × Nat :=
  (⟨M.blocks ++ [some cells]⟩, M.blocks.length)

/-- The `n` cells at `p`; `none` when they do not all lie inside a live block (the behaviour
of such an access is undefined). -/
def read (M : Memory) (p : Ptr) (n : Nat) : Option (List Nat) :=
  match M.blocks[p.block]? with
  | some (some cells) =>
    if p.off + n ≤ cells.length then some ((cells.drop p.off).take n) else none
  | _ => none

/-- The store after `vals` are stored at `p`; `none` when they do not all lie inside a live
block. -/
def write (M : Memory) (p : Ptr) (vals : List Nat) : Option Memory :=
  match M.blocks[p.block]? with
  | some (some cells) =>
    if p.off + vals.length ≤ cells.length then
      some ⟨M.blocks.set p.block
        (some (cells.take p.off ++ vals ++ cells.drop (p.off + vals.length)))⟩
    else none
  | _ => none

/-- Function `memcpy(dst, src, n)`. -/
def memcpy (M : Memory) (dst src : Ptr) (n : Nat) : Option Memory :=
  match M.read src n with
  | some vals => M.write dst vals
  | none => none

/-- Operator `delete` on the block `b`; `none` when the block is not live (a second `delete`
of it). -/
def delete (M : Memory) (b : Nat) : Option Memory :=
  match M.blocks[b]? with
  | some (some _) => some ⟨M.blocks.set b none⟩
  | _ => none

end Memory

/-- The calls that the constructors of `Message` and `Message::DecRef` make, and the warning
macro `PLAYER_WARN` with which `message.cc` reports: the three `new` expressions (for `Lock`,
for `Data` with its size, for `RefCount`), `memcpy` with its length, the `pthread_mutex_*`
calls on `Lock`, and the three `delete` expressions. -/
inductive MessageEvent where
  | new_Lock
  | pthread_mutex_init
  | new_Data (size : Nat)
  | memcpy (n : Nat)
  | new_RefCount
  | pthread_mutex_lock
  | pthread_mutex_unlock
  | pthread_mutex_destroy
  | delete_Data
  | delete_RefCount
  | delete_Lock
  | PLAYER_WARN
  deriving DecidableEq, Repr

/-- The members of an object of class `Message`: `Queue` (`none` for `NULL`), the pointers
`Lock`, `Data` and `RefCount`, each the name of a block, and `Size`. -/
structure MessageObject where
  Queue : Option Nat
  Lock : Nat
  Data : Nat
  Size : Nat
  RefCount : Nat
  deriving DecidableEq, Repr

namespace MessageObject

/-- Constructor `Message::Message(const struct player_msghdr & Header, const void * data,
unsigned int data_size, MessageQueue* _queue)`: the store afterwards, the object and the calls
made; `none` when an `assert` fails or a `memcpy` leaves its buffers.
`SIZEOF_HDR` is `sizeof(struct player_msghdr)` (`player.h` is not among the sources).  The sum
`sizeof(struct player_msghdr)+data_size` is stored in the member `Size`, whose type is declared
in `message.h`, not among the sources: `SIZE_MOD` is the number of values of that type.  The
content of the new buffer before the two `memcpy` calls is arbitrary: `junk` gives it. -/
def Message (SIZEOF_HDR SIZE_MOD : Nat) (junk : Nat → Nat) (M : Memory) (Header data : Ptr)
    (data_size : Nat) (_queue : Option Nat) :
    Option (Memory × MessageObject × List MessageEvent) :=
  let Lock := M.alloc [0]
  let Size := (SIZEOF_HDR + data_size) % SIZE_MOD
  if Size = 0 then none
  else
    let Data := Lock.1.alloc ((List.range Size).map junk)
    match Data.1.memcpy ⟨Data.2, 0⟩ Header SIZEOF_HDR with
    | none => none
    | some M1 =>
      match M1.memcpy ⟨Data.2, SIZEOF_HDR⟩ data data_size with
      | none => none
      | some M2 =>
        let RefCount := M2.alloc [1]
        some (RefCount.1,
          { Queue := _queue, Lock := Lock.2, Data := Data.2, Size := Size,
            RefCount := RefCount.2 },
          [MessageEvent.new_Lock, MessageEvent.pthread_mutex_init, MessageEvent.new_Data Size,
            MessageEvent.memcpy SIZEOF_HDR, MessageEvent.memcpy data_size,
            MessageEvent.new_RefCount])

/-- Modelled from the spec: `Message::GetHeader()` of `message.h`, which is not among the
sources: the header is read back from the start of the owned buffer. -/
def GetHeader (SIZEOF_HDR : Nat) (M : Memory) (this : MessageObject) : Option (List Nat) :=
  M.read ⟨this.Data, 0⟩ SIZEOF_HDR

/-- Modelled from the spec: `Message::GetPayloadSize()` of `message.h`, which is not among the
sources: the bytes of the owned buffer that follow the header (`driver.cc` prints this size as
`GetSize() - sizeof(player_msghdr)`). -/
def GetPayloadSize (SIZEOF_HDR : Nat) (this : MessageObject) : Nat :=
  this.Size - SIZEOF_HDR

/-- Modelled from the spec: `Message::GetPayload()` of `message.h`, which is not among the
sources: the payload is read back from the owned buffer, behind the header. -/
def GetPayload (SIZEOF_HDR : Nat) (M : Memory) (this : MessageObject) : Option (List Nat) :=
  M.read ⟨this.Data, SIZEOF_HDR⟩ (GetPayloadSize SIZEOF_HDR this)

/-- Copy constructor `Message::Message(const Message & rhs)`: the store afterwards, the new
object and the calls made; `none` when the mutex or the count of `rhs` is no longer there or
`assert(*(rhs.RefCount))` fails.  The pointers themselves are never `NULL`. -/
def Message_copy (M : Memory) (rhs : MessageObject) :
    Option (Memory × MessageObject × List MessageEvent) :=
  match M.read ⟨rhs.Lock, 0⟩ 1 with
  | none => none
  | some _ =>
    match M.read ⟨rhs.RefCount, 0⟩ 1 with
    | some [c] =>
      if c = 0 then none
      else
        match M.write ⟨rhs.RefCount, 0⟩ [(c + 1) % (UINT_MAX + 1)] with
        | none => none
        | some M1 =>
          some (M1,
            { Queue := rhs.Queue, Lock := rhs.Lock, Data := rhs.Data, Size := rhs.Size,
              RefCount := rhs.RefCount },
            [MessageEvent.pthread_mutex_lock, MessageEvent.pthread_mutex_unlock])
    | _ => none

/-- Method `Message::DecRef`: the store afterwards and the calls made; `none` when the mutex or
the count is no longer there.  `(*RefCount)--` is computed modulo `UINT_MAX + 1`, and
`assert((*RefCount) >= 0)` holds for every `unsigned int`. -/
def DecRef (M : Memory) (this : MessageObject) : Option (Memory × List MessageEvent) :=
  match M.read ⟨this.Lock, 0⟩ 1 with
  | none => none
  | some _ =>
    match M.read ⟨this.RefCount, 0⟩ 1 with
    | some [c] =>
      match M.write ⟨this.RefCount, 0⟩ [(c + UINT_MAX) % (UINT_MAX + 1)] with
      | none => none
      | some M1 =>
        if (c + UINT_MAX) % (UINT_MAX + 1) = 0 then
          match M1.delete this.Data with
          | none => none
          | some M2 =>
            match M2.delete this.RefCount with
            | none => none
            | some M3 =>
              match M3.delete this.Lock with
              | none => none
              | some M4 =>
                some (M4,
                  [MessageEvent.pthread_mutex_lock, MessageEvent.delete_Data,
                    MessageEvent.delete_RefCount, MessageEvent.pthread_mutex_unlock,
                    MessageEvent.pthread_mutex_destroy, MessageEvent.delete_Lock])
        else
          some (M1, [MessageEvent.pthread_mutex_lock, MessageEvent.pthread_mutex_unlock])
    | _ => none

/-- Destructor `Message::~Message`, which calls `DecRef()`. -/
def Message_destructor (M : Memory) (this : MessageObject) :
    Option (Memory × List MessageEvent) :=
  DecRef M this

end MessageObject

/-- A step on the handles to one message: a new handle is copy-constructed from handle `i`, or
handle `i` is released (destroyed).  Handles are numbered in the order of their construction. -/
inductive HandleOp where
  | Copy (i : Nat)
  | Release (i : Nat)
  deriving DecidableEq, Repr

/-- Why a sequence of steps on handles stops: a step names a handle that does not exist or was
released already (`deadHandle`), or the code fails (`fault`: an `assert` fails or freed storage
is used). -/
inductive HandleError where
  | deadHandle
  | fault
  deriving DecidableEq, Repr

/-- The store, the handles constructed so far (`none` for one that was released) and the calls
made so far. -/
structure HandleState where
  mem : Memory
  handles : List (Option MessageObject)
  calls : List MessageEvent
  deriving DecidableEq, Repr

namespace HandleState

/-- The number of live handles. -/
def live (s : HandleState) : Nat := s.handles.countP Option.isSome

/-- One step: the copy constructor makes a new handle from handle `i`, or the destructor is run
on handle `i`. -/
def step (s : HandleState) : HandleOp → Except HandleError HandleState
  | HandleOp.Copy i =>
    match s.handles[i]? with
    | some (some rhs) =>
      match MessageObject.Message_copy s.mem rhs with
      | some r =>
        Except.ok { mem := r.1, handles := s.handles ++ [some r.2.1], calls := s.calls ++ r.2.2 }
      | none => Except.error HandleError.fault
    | _ => Except.error HandleError.deadHandle
  | HandleOp.Release i =>
    match s.handles[i]? with
    | some (some this) =>
      match MessageObject.Message_destructor s.mem this with
      | some r =>
        Except.ok { mem := r.1, handles := s.handles.set i none, calls := s.calls ++ r.2 }
      | none => Except.error HandleError.fault
    | _ => Except.error HandleError.deadHandle

/-- The steps of a sequence, one after the other. -/
def run (s : HandleState) : List HandleOp → Except HandleError HandleState
  | [] => Except.ok s
  | op :: rest =>
    match s.step op with
    | Except.ok s1 => run s1 rest
    | Except.error e => Except.error e

end HandleState

/-- A layout of `struct player_msghdr` at which statements on header bytes are instantiated:
eight bytes, one for each member in the order of `player_msghdr`, `size` being the last. -/
def sample_hdr_size (hdr : List Nat) : Nat := hdr.getD 7 0

/-- The handles and the store agree on the message `msg` with buffer content `data`: every
handle still live has the members of `msg`; while a handle is live the count holds the number
of live handles, the buffer holds `data`, the mutex is there and `delete [] Data` was never
executed; once no handle is live the count, the buffer and the mutex are deleted and
`delete [] Data` was executed once. -/
def HandleState.Agrees (msg : MessageObject) (data : List Nat) (s : HandleState) : Prop :=
  (∀ x ∈ s.handles, x = none ∨ x = some msg) ∧
    (0 < s.live →
      s.mem.blocks[msg.RefCount]? = some (some [s.live]) ∧
        s.mem.blocks[msg.Data]? = some (some data) ∧
        (∃ l, s.mem.blocks[msg.Lock]? = some (some [l])) ∧
        s.calls.count MessageEvent.delete_Data = 0) ∧
    (s.live = 0 →
      s.mem.blocks[msg.RefCount]? = some none ∧
        s.mem.blocks[msg.Data]? = some none ∧
        s.mem.blocks[msg.Lock]? = some none ∧
        s.calls.count MessageEvent.delete_Data = 1)

/-! ## Lemmas on the message queue -/

theorem Message.Compare_eq_true_iff (a b : Message) :
    a.Compare b = true ↔
      a.Header.type = b.Header.type ∧ a.Header.subtype = b.Header.subtype ∧
        a.Header.device = b.Header.device ∧ a.Header.device_index = b.Header.device_index := by
  simp [Message.Compare, Message.GetHeader, and_assoc]

theorem Message.Compare_self (a : Message) : a.Compare a = true := by
  simp [Message.Compare_eq_true_iff]

theorem Message.Compare_congr_right {a b : Message} (h : a.Compare b = true) (x : Message) :
    x.Compare a = x.Compare b := by
  rw [Message.Compare_eq_true_iff] at h
  obtain ⟨h1, h2, h3, h4⟩ := h
  rw [Bool.eq_iff_iff]
  simp only [Message.Compare_eq_true_iff, h1, h2, h3, h4]

theorem Message.Compare_type {a b : Message} (h : a.Compare b = true) :
    a.Header.type = b.Header.type :=
  ((Message.Compare_eq_true_iff a b).1 h).1

namespace MessageQueue

theorem replaceScan_of_no_match (q : MessageQueue) (msg : Message)
    (h : ∀ el ∈ q.elems, el.Compare msg = false) (n : Nat) : q.replaceScan msg n = q := by
  induction n with
  | zero => rfl
  | succ i ih =>
    unfold replaceScan
    cases hi : q.elems[i]? with
    | none => simpa using ih
    | some el =>
      have hel : el ∈ q.elems := List.getElem?_mem hi
      simp [h el hel, ih]

theorem replaceScan_of_match (q : MessageQueue) (msg : Message) (pre post : List Message)
    (x : Message) (hq : q.elems = pre ++ x :: post) (hx : x.Compare msg = true)
    (hpost : ∀ el ∈ post, el.Compare msg = false) (k : Nat) (hk : k ≤ post.length) :
    q.replaceScan msg (pre.length + 1 + k) = q.Remove pre.length := by
  induction k with
  | zero =>
    show q.replaceScan msg (pre.length + 1) = _
    unfold replaceScan
    have : q.elems[pre.length]? = some x := by
      rw [hq, List.getElem?_append_right (le_refl _)]
      simp
    simp [this, hx]
  | succ k ih =>
    show q.replaceScan msg ((pre.length + 1 + k) + 1) = _
    unfold replaceScan
    have hk1 : k < post.length := hk
    have : q.elems[pre.length + 1 + k]? = some post[k] := by
      rw [hq, List.getElem?_append_right (by omega)]
      have e : pre.length + 1 + k - pre.length = k + 1 := by omega
      rw [e]
      simp [List.getElem?_eq_getElem hk1]
    have hne : (post[k]).Compare msg = false := hpost _ (List.getElem_mem _)
    simp [this, hne, ih (Nat.le_of_lt hk1)]

theorem exists_last_match (p : Message → Bool) (l : List Message) :
    (∀ el ∈ l, p el = false) ∨
      ∃ pre x post, l = pre ++ x :: post ∧ p x = true ∧ ∀ el ∈ post, p el = false := by
  induction l with
  | nil => left; simp
  | cons a t ih =>
    rcases ih with h | ⟨pre, x, post, rfl, hx, hpost⟩
    · cases hpa : p a
      · left
        intro el hel
        rcases List.mem_cons.1 hel with rfl | hel
        · exact hpa
        · exact h el hel
      · right
        exact ⟨[], a, t, rfl, hpa, h⟩
    · right
      exact ⟨a :: pre, x, post, rfl, hx, hpost⟩

section PushLemmas

variable (D C : Nat)

/-- The two ways the first half of `Push` can end: nothing is removed, or the matching element
nearest the tail is unlinked and `Length` decremented. -/
theorem pushReplace_cases (q : MessageQueue) (m : Message) :
    (pushReplace D C q m = q ∧
        (q.Replace = false ∨ (m.Header.type ≠ D ∧ m.Header.type ≠ C) ∨
          ∀ el ∈ q.elems, el.Compare m = false)) ∨
      (q.Replace = true ∧ (m.Header.type = D ∨ m.Header.type = C) ∧
        ∃ pre x post, q.elems = pre ++ x :: post ∧ x.Compare m = true ∧
          (∀ el ∈ post, el.Compare m = false) ∧
          pushReplace D C q m = { q with elems := pre ++ post, Length := q.Length - 1 }) := by
  by_cases hR : q.Replace = true
  · by_cases hT : m.Header.type = D ∨ m.Header.type = C
    · have hcond : (q.Replace && ((m.GetHeader.type == D) || (m.GetHeader.type == C))) = true := by
        simpa [Message.GetHeader, hR] using hT
      rcases exists_last_match (fun el => el.Compare m) q.elems with h | ⟨pre, x, post, hq, hx, hpost⟩
      · left
        refine ⟨?_, Or.inr (Or.inr h)⟩
        simp only [pushReplace, hcond, if_true]
        exact replaceScan_of_no_match q m h _
      · right
        refine ⟨hR, hT, pre, x, post, hq, hx, hpost, ?_⟩
        simp only [pushReplace, hcond, if_true]
        have hlen : q.elems.length = pre.length + 1 + post.length := by
          simp [hq]; omega
        rw [hlen, replaceScan_of_match q m pre post x hq hx hpost _ (le_refl _)]
        simp [Remove, hq, List.eraseIdx_append_of_length_le]
    · left
      have hT2 : m.Header.type ≠ D ∧ m.Header.type ≠ C := not_or.1 hT
      refine ⟨?_, Or.inr (Or.inl hT2)⟩
      simp [pushReplace, Message.GetHeader, hT2.1, hT2.2]
  · left
    have hR2 : q.Replace = false := by simpa using hR
    refine ⟨?_, Or.inl hR2⟩
    simp [pushReplace, hR2]

theorem Push_of_no_removal (q : MessageQueue) (m : Message) (h : pushReplace D C q m = q) :
    Push D C q m =
      if q.Length ≥ q.Maxlen then (q, none)
      else ({ q with elems := q.elems ++ [m], Length := q.Length + 1 }, some m) := by
  simp only [Push, h]

theorem Push_of_removal (q : MessageQueue) (m : Message) (pre post : List Message) (x : Message)
    (hw : q.Wf) (hq : q.elems = pre ++ x :: post)
    (h : pushReplace D C q m = { q with elems := pre ++ post, Length := q.Length - 1 }) :
    Push D C q m =
      ({ q with elems := pre ++ post ++ [m], Length := q.Length - 1 + 1 }, some m) := by
  have h1 : q.Length = pre.length + post.length + 1 := by
    rw [hw.1, hq]; simp; omega
  have h2 : ¬ (q.Length - 1 ≥ q.Maxlen) := by
    have := hw.2
    omega
  simp only [Push, h, h2, if_false]

theorem Push_fields (q : MessageQueue) (m : Message) :
    (Push D C q m).1.Maxlen = q.Maxlen ∧ (Push D C q m).1.Replace = q.Replace := by
  rcases pushReplace_cases D C q m with ⟨h, _⟩ | ⟨_, _, pre, x, post, _, _, _, h⟩
  · rw [Push_of_no_removal D C q m h]
    split <;> simp
  · simp only [Push, h]
    split <;> simp

theorem Push_Wf (q : MessageQueue) (m : Message) (hw : q.Wf) : (Push D C q m).1.Wf := by
  rcases pushReplace_cases D C q m with ⟨h, _⟩ | ⟨_, _, pre, x, post, hq, _, _, h⟩
  · rw [Push_of_no_removal D C q m h]
    obtain ⟨h1, h2⟩ := hw
    split
    · exact ⟨h1, h2⟩
    · refine ⟨?_, ?_⟩
      · simp [h1]
      · show q.Length + 1 ≤ q.Maxlen
        omega
  · rw [Push_of_removal D C q m pre post x hw hq h]
    obtain ⟨h1, h2⟩ := hw
    have h3 : q.Length = pre.length + post.length + 1 := by
      rw [h1, hq]; simp; omega
    refine ⟨?_, ?_⟩
    · show q.Length - 1 + 1 = (pre ++ post ++ [m]).length
      simp only [List.length_append, List.length_singleton]
      omega
    · show q.Length - 1 + 1 ≤ q.Maxlen
      omega

end PushLemmas

theorem Pop_nil (q : MessageQueue) (h : q.elems = []) : q.Pop = (q, none) := by
  simp [Pop, Empty, h]

theorem Pop_cons (q : MessageQueue) (x : Message) (t : List Message) (h : q.elems = x :: t) :
    q.Pop = ({ q with elems := t, Length := q.Length - 1 }, some x) := by
  simp [Pop, Empty, Remove, h]

theorem Pop_fields (q : MessageQueue) :
    q.Pop.1.Maxlen = q.Maxlen ∧ q.Pop.1.Replace = q.Replace := by
  cases h : q.elems with
  | nil => simp [Pop_nil q h]
  | cons x t => simp [Pop_cons q x t h]

theorem Pop_Wf (q : MessageQueue) (hw : q.Wf) : q.Pop.1.Wf := by
  cases h : q.elems with
  | nil => simpa [Pop_nil q h] using hw
  | cons x t =>
    rw [Pop_cons q x t h]
    obtain ⟨h1, h2⟩ := hw
    rw [h] at h1
    simp at h1
    refine ⟨?_, ?_⟩
    · show q.Length - 1 = t.length
      omega
    · show q.Length - 1 ≤ q.Maxlen
      omega

theorem new_Wf (R : Bool) (M : Nat) : (new R M).Wf := by
  simp [Wf, new]

section RunLemmas

variable (D C : Nat)

theorem step_Wf (q : MessageQueue) (c : Call) (hw : q.Wf) : (step D C q c).Wf := by
  cases c with
  | Push msg => exact Push_Wf D C q msg hw
  | Pop => exact Pop_Wf q hw

theorem step_fields (q : MessageQueue) (c : Call) :
    (step D C q c).Maxlen = q.Maxlen ∧ (step D C q c).Replace = q.Replace := by
  cases c with
  | Push msg => exact Push_fields D C q msg
  | Pop => exact Pop_fields q

theorem run_Wf (cs : List Call) : ∀ q : MessageQueue, q.Wf → (run D C q cs).Wf := by
  induction cs with
  | nil => intro q hw; exact hw
  | cons c cs ih => intro q hw; exact ih _ (step_Wf D C q c hw)

theorem run_fields (cs : List Call) :
    ∀ q : MessageQueue, (run D C q cs).Maxlen = q.Maxlen ∧ (run D C q cs).Replace = q.Replace := by
  induction cs with
  | nil => intro q; exact ⟨rfl, rfl⟩
  | cons c cs ih =>
    intro q
    have h1 := ih (step D C q c)
    have h2 := step_fields D C q c
    exact ⟨h1.1.trans h2.1, h1.2.trans h2.2⟩

end RunLemmas

theorem countP_Compare_congr {m m' : Message} (h : m.Compare m' = true) (l : List Message) :
    l.countP (fun x => x.Compare m') = l.countP (fun x => x.Compare m) := by
  have : (fun x : Message => x.Compare m') = (fun x : Message => x.Compare m) := by
    funext x
    exact (Message.Compare_congr_right h x).symm
  rw [this]

theorem countP_Compare_eq_zero {m : Message} {l : List Message}
    (h : ∀ el ∈ l, el.Compare m = false) : l.countP (fun x => x.Compare m) = 0 := by
  rw [List.countP_eq_zero]
  intro a ha
  simp [h a ha]

theorem not_mem_of_countP_Compare_eq_zero {m : Message} {l : List Message}
    (h : l.countP (fun x => x.Compare m) = 0) : ∀ el ∈ l, el.Compare m = false := by
  rw [List.countP_eq_zero] at h
  intro a ha
  simpa using h a ha

section CoalesceLemmas

variable (D C : Nat)

/-- The three outcomes of a `Push` on a well-formed queue, in terms of the linked elements. -/
theorem Push_outcomes (q : MessageQueue) (m : Message) (hw : q.Wf) :
    ((Push D C q m) = (q, none) ∧ q.Length = q.Maxlen ∧
        (q.Replace = false ∨ (m.Header.type ≠ D ∧ m.Header.type ≠ C) ∨
          ∀ el ∈ q.elems, el.Compare m = false)) ∨
      ((Push D C q m) = ({ q with elems := q.elems ++ [m], Length := q.Length + 1 }, some m) ∧
        q.Length < q.Maxlen ∧
        (q.Replace = false ∨ (m.Header.type ≠ D ∧ m.Header.type ≠ C) ∨
          ∀ el ∈ q.elems, el.Compare m = false)) ∨
      (q.Replace = true ∧ (m.Header.type = D ∨ m.Header.type = C) ∧
        ∃ pre x post, q.elems = pre ++ x :: post ∧ x.Compare m = true ∧
          (∀ el ∈ post, el.Compare m = false) ∧
          Push D C q m = ({ q with elems := pre ++ post ++ [m], Length := q.Length }, some m)) := by
  rcases pushReplace_cases D C q m with ⟨h, hno⟩ | ⟨hR, hT, pre, x, post, hq, hx, hpost, h⟩
  · rw [Push_of_no_removal D C q m h]
    by_cases hfull : q.Length ≥ q.Maxlen
    · left
      have := hw.2
      exact ⟨by simp [hfull], by omega, hno⟩
    · right; left
      exact ⟨by simp [hfull], by omega, hno⟩
  · right; right
    refine ⟨hR, hT, pre, x, post, hq, hx, hpost, ?_⟩
    rw [Push_of_removal D C q m pre post x hw hq h]
    have h1 : q.Length = pre.length + post.length + 1 := by
      rw [hw.1, hq]; simp; omega
    have h2 : q.Length - 1 + 1 = q.Length := by omega
    rw [h2]

theorem Push_Coalesced (q : MessageQueue) (m : Message) (hw : q.Wf) (hR : q.Replace = true)
    (hc : Coalesced D C q) : Coalesced D C (Push D C q m).1 := by
  rcases Push_outcomes D C q m hw with ⟨h, _, _⟩ | ⟨h, _, hno⟩ |
    ⟨_, _, pre, x, post, hq, hx, hpost, h⟩
  · rw [h]; exact hc
  · rw [h]
    intro m' hm'
    show (q.elems ++ [m]).countP (fun x => x.Compare m') ≤ 1
    rw [List.countP_append]
    cases hmm : m.Compare m'
    · have := hc m' hm'
      simpa [List.countP_cons, hmm] using this
    · have hty : m.Header.type = m'.Header.type := Message.Compare_type hmm
      rcases hno with h1 | h2 | h3
      · rw [hR] at h1; cases h1
      · exfalso
        rcases hm' with e | e
        · exact h2.1 (hty.trans e)
        · exact h2.2 (hty.trans e)
      · rw [countP_Compare_congr hmm, countP_Compare_eq_zero h3]
        simp [List.countP_cons, hmm]
  · rw [h]
    intro m' hm'
    show (pre ++ post ++ [m]).countP (fun x => x.Compare m') ≤ 1
    have hq' := hc m' hm'
    rw [hq] at hq'
    simp only [List.countP_append, List.countP_cons, List.countP_nil] at hq' ⊢
    cases hmm : m.Compare m'
    · simp only [Bool.false_eq_true, if_false]
      omega
    · have hxm' : x.Compare m' = true := by
        rw [← Message.Compare_congr_right hmm x]; exact hx
      simp only [hxm', if_true] at hq'
      simp only [if_true]
      omega

/-- After a `DATA` or `CMD` push on a well-formed, coalesced replace queue, every queued message
with the signature of the pushed one is the pushed one. -/
theorem Push_newest (q : MessageQueue) (m : Message) (hw : q.Wf) (hR : q.Replace = true)
    (hT : m.Header.type = D ∨ m.Header.type = C) (hc : Coalesced D C q) :
    ∀ y ∈ (Push D C q m).1.elems, y.Compare m = true → y = m := by
  rcases Push_outcomes D C q m hw with ⟨h, _, hno⟩ | ⟨h, _, hno⟩ |
    ⟨_, _, pre, x, post, hq, hx, hpost, h⟩
  · rw [h]
    intro y hy hym
    rcases hno with h1 | h2 | h3
    · rw [hR] at h1; cases h1
    · exact absurd hT (not_or.2 h2)
    · rw [h3 y hy] at hym; cases hym
  · rw [h]
    intro y hy hym
    rcases List.mem_append.1 hy with hy | hy
    · rcases hno with h1 | h2 | h3
      · rw [hR] at h1; cases h1
      · exact absurd hT (not_or.2 h2)
      · rw [h3 y hy] at hym; cases hym
    · simpa using hy
  · rw [h]
    intro y hy hym
    have hq' := hc m hT
    rw [hq] at hq'
    simp only [List.countP_append, List.countP_cons, List.countP_nil, hx, if_true] at hq'
    have hpre : pre.countP (fun x => x.Compare m) = 0 := by omega
    have hpre' := not_mem_of_countP_Compare_eq_zero hpre
    rcases List.mem_append.1 hy with hy | hy
    · rcases List.mem_append.1 hy with hy | hy
      · rw [hpre' y hy] at hym; cases hym
      · rw [hpost y hy] at hym; cases hym
    · simpa using hy

theorem Pop_Coalesced (q : MessageQueue) (hc : Coalesced D C q) : Coalesced D C q.Pop.1 := by
  cases h : q.elems with
  | nil => rw [Pop_nil q h]; exact hc
  | cons x t =>
    rw [Pop_cons q x t h]
    intro m' hm'
    have := hc m' hm'
    rw [h, List.countP_cons] at this
    show t.countP (fun x => x.Compare m') ≤ 1
    omega

theorem run_Coalesced (cs : List Call) :
    ∀ q : MessageQueue, q.Wf → q.Replace = true → Coalesced D C q →
      Coalesced D C (run D C q cs) := by
  induction cs with
  | nil => intro q _ _ hc; exact hc
  | cons c cs ih =>
    intro q hw hR hc
    refine ih _ (step_Wf D C q c hw) ((step_fields D C q c).2.trans hR) ?_
    cases c with
    | Push msg => exact Push_Coalesced D C q msg hw hR hc
    | Pop => exact Pop_Coalesced D C q hc

theorem pushAll_eq_run (ms : List Message) :
    ∀ q : MessageQueue, (pushAll D C q ms).1 = run D C q (ms.map Call.Push) := by
  induction ms with
  | nil => intro q; rfl
  | cons m ms ih => intro q; exact ih _

theorem run_append (cs ds : List Call) (q : MessageQueue) :
    run D C q (cs ++ ds) = run D C (run D C q cs) ds := by
  simp [run, List.foldl_append]

end CoalesceLemmas

theorem Message.Compare_symm {a b : Message} (h : a.Compare b = true) : b.Compare a = true := by
  rw [Message.Compare_eq_true_iff] at h ⊢
  obtain ⟨h1, h2, h3, h4⟩ := h
  exact ⟨h1.symm, h2.symm, h3.symm, h4.symm⟩

theorem popN_take (n : Nat) :
    ∀ q : MessageQueue, q.Length = q.elems.length → n ≤ q.elems.length →
      popN q n =
        ({ q with elems := q.elems.drop n, Length := q.Length - n }, (q.elems.take n).map some) := by
  induction n with
  | zero => intro q _ _; simp [popN]
  | succ n ih =>
    intro q hlen hn
    cases h : q.elems with
    | nil => rw [h] at hn; simp at hn
    | cons x t =>
      rw [h] at hn hlen
      simp only [List.length_cons] at hn hlen
      have hq' : ({ q with elems := t, Length := q.Length - 1 } : MessageQueue).Length =
          ({ q with elems := t, Length := q.Length - 1 } : MessageQueue).elems.length := by
        show q.Length - 1 = t.length
        omega
      have := ih { q with elems := t, Length := q.Length - 1 } hq' (by simpa using hn)
      simp only [popN, Pop_cons q x t h, this, List.drop_succ_cons, List.take_succ_cons,
        List.map_cons, Nat.sub_sub, Nat.add_comm 1 n]

section FifoLemmas

variable (D C : Nat)

/-- Pushes that trigger no replacement and fit below `Maxlen` are all accepted and append in
arrival order. -/
theorem pushAll_append (ms : List Message) :
    ∀ q : MessageQueue, q.Wf → q.elems.length + ms.length ≤ q.Maxlen →
      (q.Replace = false ∨
        (q.elems ++ ms).Pairwise
          (fun a b => ¬ ((a.Header.type = D ∨ a.Header.type = C) ∧ a.Compare b = true))) →
      pushAll D C q ms =
        ({ q with elems := q.elems ++ ms, Length := q.Length + ms.length }, ms.map some) := by
  induction ms with
  | nil => intro q _ _ _; simp [pushAll]
  | cons m ms ih =>
    intro q hw hlen hno
    simp only [List.length_cons] at hlen
    have hstep : Push D C q m =
        ({ q with elems := q.elems ++ [m], Length := q.Length + 1 }, some m) := by
      rcases Push_outcomes D C q m hw with ⟨_, hfull, _⟩ | ⟨h, _, _⟩ |
        ⟨hR, hT, pre, x, post, hq, hx, _, _⟩
      · have := hw.1
        omega
      · exact h
      · exfalso
        rcases hno with h1 | h2
        · rw [hR] at h1; cases h1
        · rw [List.pairwise_append] at h2
          have hxin : x ∈ q.elems := by rw [hq]; simp
          have hxT : x.Header.type = D ∨ x.Header.type = C := by
            rw [Message.Compare_type hx]; exact hT
          exact h2.2.2 x hxin m (List.mem_cons_self _ _) ⟨hxT, hx⟩
    have hw' : ({ q with elems := q.elems ++ [m], Length := q.Length + 1 } : MessageQueue).Wf := by
      have := Push_Wf D C q m hw
      rwa [hstep] at this
    have := ih { q with elems := q.elems ++ [m], Length := q.Length + 1 } hw'
      (by simp only [List.length_append, List.length_singleton]; omega)
      (by simpa using hno)
    simp only [pushAll, hstep, this, List.append_assoc, List.singleton_append, List.map_cons,
      List.length_cons]
    have e : q.Length + 1 + ms.length = q.Length + (ms.length + 1) := by omega
    rw [e]

/-- With no `DATA` or `CMD` message pushed, the counter changes by the accepted pushes and the
successful pops only. -/
theorem runCount_balance (cs : List Call) :
    ∀ q : MessageQueue, q.Wf →
      (∀ m, Call.Push m ∈ cs → m.Header.type ≠ D ∧ m.Header.type ≠ C) →
      (runCount D C q cs).1.Length + (runCount D C q cs).2.2 =
        q.Length + (runCount D C q cs).2.1 ∧ (runCount D C q cs).1 = run D C q cs := by
  induction cs with
  | nil => intro q _ _; simp [runCount, run]
  | cons c cs ih =>
    intro q hw hcs
    have hcs' : ∀ m, Call.Push m ∈ cs → m.Header.type ≠ D ∧ m.Header.type ≠ C :=
      fun m hm => hcs m (List.mem_cons_of_mem _ hm)
    cases c with
    | Push msg =>
      have hm := hcs msg (List.mem_cons_self _ _)
      have ih' := ih (Push D C q msg).1 (Push_Wf D C q msg hw) hcs'
      have hP : (Push D C q msg) = (q, none) ∨
          (Push D C q msg) =
            ({ q with elems := q.elems ++ [msg], Length := q.Length + 1 }, some msg) := by
        rcases Push_outcomes D C q msg hw with ⟨h, _, _⟩ | ⟨h, _, _⟩ | ⟨_, hT, _⟩
        · exact Or.inl h
        · exact Or.inr h
        · exact absurd hT (not_or.2 hm)
      refine ⟨?_, ih'.2⟩
      simp only [runCount]
      rcases hP with h | h
      · rw [h] at ih' ⊢
        simpa using ih'.1
      · rw [h] at ih' ⊢
        have := ih'.1
        simp only [Option.isSome_some, if_true] at this ⊢
        omega
    | Pop =>
      have ih' := ih q.Pop.1 (Pop_Wf q hw) hcs'
      refine ⟨?_, ih'.2⟩
      simp only [runCount]
      cases h : q.elems with
      | nil =>
        rw [Pop_nil q h] at ih' ⊢
        simpa using ih'.1
      | cons x t =>
        rw [Pop_cons q x t h] at ih' ⊢
        have h1 := hw.1
        rw [h] at h1
        simp only [List.length_cons] at h1
        have := ih'.1
        simp only [Option.isSome_some, if_true] at this ⊢
        omega

end FifoLemmas

/-! ## The queue contract -/

/-- C1: in a replace queue reached from a new queue by any calls, after `N ≥ 1` consecutive
pushes (`ms` followed by `m`) of `DATA` or `CMD` messages that share one signature, the queue
holds at most one message with that signature, and any it holds is `m`, the last one pushed.
Scenario: two `DATA`/subtype 5/(Laser, 0) messages with payloads `P1`, `P2` pushed into a new
replace queue of `Maxlen` 4 leave `Length = 1` and the single element carrying `P2`. -/
theorem replace_pushes_keep_only_newest (D C Maxlen : Nat) (cs : List Call)
    (ms : List Message) (m : Message)
    (hT : m.Header.type = D ∨ m.Header.type = C)
    (hms : ∀ s ∈ ms, s.Compare m = true) :
    (∀ s ∈ ms ++ [m],
      (pushAll D C (run D C (new true Maxlen) cs) (ms ++ [m])).1.elems.countP
          (fun x => x.Compare s) ≤ 1 ∧
        ∀ y ∈ (pushAll D C (run D C (new true Maxlen) cs) (ms ++ [m])).1.elems,
          y.Compare s = true → y = m) ∧
      (∀ (Laser stx1 sec1 usec1 size1 stx2 sec2 usec2 size2 : Nat) (P1 P2 : List Nat),
        (pushAll D C (new true 4)
            [⟨⟨stx1, D, 5, Laser, 0, sec1, usec1, size1⟩, P1⟩,
              ⟨⟨stx2, D, 5, Laser, 0, sec2, usec2, size2⟩, P2⟩]).1 =
          { Replace := true, Maxlen := 4,
            elems := [⟨⟨stx2, D, 5, Laser, 0, sec2, usec2, size2⟩, P2⟩], Length := 1 }) := by
  constructor
  · have hfinal : (pushAll D C (run D C (new true Maxlen) cs) (ms ++ [m])).1 =
        (Push D C (run D C (new true Maxlen) (cs ++ ms.map Call.Push)) m).1 := by
      rw [pushAll_eq_run, List.map_append, ← run_append, ← List.append_assoc, run_append]
      rfl
    rw [hfinal]
    have hw := run_Wf D C (cs ++ ms.map Call.Push) _ (new_Wf true Maxlen)
    have hR : (run D C (new true Maxlen) (cs ++ ms.map Call.Push)).Replace = true :=
      (run_fields D C (cs ++ ms.map Call.Push) (new true Maxlen)).2
    have hc : Coalesced D C (run D C (new true Maxlen) (cs ++ ms.map Call.Push)) :=
      run_Coalesced D C _ _ (new_Wf true Maxlen) rfl (by intro m' _; simp [new])
    intro s hs
    have hsm : s.Compare m = true := by
      rcases List.mem_append.1 hs with h | h
      · exact hms s h
      · have : s = m := by simpa using h
        rw [this]; exact Message.Compare_self m
    constructor
    · rw [countP_Compare_congr (Message.Compare_symm hsm)]
      exact Push_Coalesced D C _ m hw hR hc m hT
    · intro y hy hys
      rw [Message.Compare_congr_right hsm y] at hys
      exact Push_newest D C _ m hw hR hT hc y hy hys
  · intro Laser stx1 sec1 usec1 size1 stx2 sec2 usec2 size2 P1 P2
    simp [pushAll, Push, pushReplace, replaceScan, Remove, new, Message.Compare,
      Message.GetHeader]

/-- Witness of C1: a request is queued and popped, then two laser scans of one signature are
pushed; the second one alone remains. -/
theorem replace_pushes_keep_only_newest_witness :
    (pushAll 1 2 (run 1 2 (new true 4) [Call.Push ⟨⟨0, 3, 1, 6, 0, 0, 0, 0⟩, []⟩, Call.Pop])
        ([⟨⟨0, 1, 5, 6, 0, 10, 0, 1⟩, [7]⟩] ++ [⟨⟨0, 1, 5, 6, 0, 11, 0, 1⟩, [8]⟩])).1.elems.countP
        (fun x => x.Compare ⟨⟨0, 1, 5, 6, 0, 11, 0, 1⟩, [8]⟩) ≤ 1 :=
  ((replace_pushes_keep_only_newest 1 2 4
      [Call.Push ⟨⟨0, 3, 1, 6, 0, 0, 0, 0⟩, []⟩, Call.Pop]
      [⟨⟨0, 1, 5, 6, 0, 10, 0, 1⟩, [7]⟩] ⟨⟨0, 1, 5, 6, 0, 11, 0, 1⟩, [8]⟩
      (Or.inl rfl) (by decide)).1 ⟨⟨0, 1, 5, 6, 0, 11, 0, 1⟩, [8]⟩ (by simp)).1

/-- C2: after every call of any sequence of `Push` and `Pop` calls on a new queue, whatever the
`Replace` flag and `Maxlen`, `0 ≤ Length ≤ Maxlen` holds (and `Length` is the number of linked
elements, `Maxlen` the one given at construction). -/
theorem length_bounded_after_every_call (D C : Nat) (R : Bool) (Maxlen : Nat) (cs : List Call)
    (n : Nat) :
    0 ≤ (run D C (new R Maxlen) (cs.take n)).Length ∧
      (run D C (new R Maxlen) (cs.take n)).Length ≤ Maxlen ∧
      (run D C (new R Maxlen) (cs.take n)).Length =
        (run D C (new R Maxlen) (cs.take n)).elems.length ∧
      (run D C (new R Maxlen) (cs.take n)).Maxlen = Maxlen := by
  have hw := run_Wf D C (cs.take n) _ (new_Wf R Maxlen)
  have hM : (run D C (new R Maxlen) (cs.take n)).Maxlen = Maxlen :=
    (run_fields D C (cs.take n) (new R Maxlen)).1
  refine ⟨Nat.zero_le _, ?_, hw.1, hM⟩
  have := hw.2
  rwa [hM] at this

/-- C3: on a queue whose counter is the number of linked elements and at most `Maxlen`, a push
that triggers no replacement (the queue does not replace, or the message is neither `DATA` nor
`CMD`, or no queued message compares equal) is rejected when `Length = Maxlen`; and every
rejected push returns the queue as it was, so that `Length` pops return the queued messages in
order.  Scenario: four messages of a type other than `DATA` and `CMD` pushed into a new replace
queue of `Maxlen` 4 are accepted, any fifth push is rejected with `Length` still 4, and four
pops return the four messages in arrival order. -/
theorem full_push_rejected_queue_intact (D C : Nat) (q : MessageQueue) (m : Message)
    (hlen : q.Length = q.elems.length) (hle : q.Length ≤ q.Maxlen) :
    ((q.Replace = false ∨ (m.Header.type ≠ D ∧ m.Header.type ≠ C) ∨
          ∀ el ∈ q.elems, el.Compare m = false) →
        q.Length = q.Maxlen → (Push D C q m).2 = none) ∧
      ((Push D C q m).2 = none →
        (Push D C q m).1 = q ∧
          popN (Push D C q m).1 q.Length =
            ({ q with elems := [], Length := 0 }, q.elems.map some)) ∧
      (∀ m1 m2 m3 m4 m5 : Message,
        (∀ x ∈ [m1, m2, m3, m4], x.Header.type ≠ D ∧ x.Header.type ≠ C) →
        pushAll D C (new true 4) [m1, m2, m3, m4, m5] =
            ({ Replace := true, Maxlen := 4, elems := [m1, m2, m3, m4], Length := 4 },
              [some m1, some m2, some m3, some m4, none]) ∧
          (popN (pushAll D C (new true 4) [m1, m2, m3, m4, m5]).1 4).2 =
            [some m1, some m2, some m3, some m4]) := by
  have hw : q.Wf := ⟨hlen, hle⟩
  have hpop : ∀ q' : MessageQueue, q'.Length = q'.elems.length →
      popN q' q'.Length = ({ q' with elems := [], Length := 0 }, q'.elems.map some) := by
    intro q' h'
    have := popN_take q'.elems.length q' h' (le_refl _)
    rw [h']
    simpa [h'] using this
  refine ⟨?_, ?_, ?_⟩
  · intro hno hfull
    rcases Push_outcomes D C q m hw with ⟨h, _, _⟩ | ⟨_, hlt, _⟩ |
      ⟨hR, hT, pre, x, post, hq, hx, _, _⟩
    · rw [h]
    · omega
    · exfalso
      rcases hno with h1 | h2 | h3
      · rw [hR] at h1; cases h1
      · exact absurd hT (not_or.2 h2)
      · have hxin : x ∈ q.elems := by rw [hq]; simp
        rw [h3 x hxin] at hx; cases hx
  · intro hrej
    have hsame : (Push D C q m).1 = q := by
      rcases Push_outcomes D C q m hw with ⟨h, _, _⟩ | ⟨h, _, _⟩ | ⟨_, _, _, _, _, _, _, _, h⟩
      · rw [h]
      · rw [h] at hrej; cases hrej
      · rw [h] at hrej; cases hrej
    rw [hsame]
    exact ⟨rfl, hpop q hlen⟩
  · intro m1 m2 m3 m4 m5 hty
    have h4 : pushAll D C (new true 4) [m1, m2, m3, m4] =
        ({ Replace := true, Maxlen := 4, elems := [m1, m2, m3, m4], Length := 4 },
          [some m1, some m2, some m3, some m4]) := by
      have := pushAll_append D C [m1, m2, m3, m4] (new true 4) (new_Wf true 4) (by simp [new])
        (Or.inr (by
          simp only [new, List.nil_append]
          refine List.Pairwise.imp_of_mem (R := fun _ _ => True) ?_ (by simp)
          intro a b ha _ _ hab
          exact absurd hab.1 (not_or.2 (hty a ha))))
      simpa [new] using this
    have hw4 : ({ Replace := true, Maxlen := 4, elems := [m1, m2, m3, m4], Length := 4 } :
        MessageQueue).Wf := by simp [Wf]
    have h5 : Push D C { Replace := true, Maxlen := 4, elems := [m1, m2, m3, m4], Length := 4 } m5
        = ({ Replace := true, Maxlen := 4, elems := [m1, m2, m3, m4], Length := 4 }, none) := by
      rcases Push_outcomes D C _ m5 hw4 with ⟨h, _, _⟩ | ⟨_, hlt, _⟩ |
        ⟨_, hT, pre, x, post, hq, hx, _, _⟩
      · exact h
      · simp at hlt
      · exfalso
        have hxin : x ∈ [m1, m2, m3, m4] := by
          have : x ∈ pre ++ x :: post := by simp
          rw [← hq] at this
          exact this
        have hxT : x.Header.type = D ∨ x.Header.type = C := by
          rw [Message.Compare_type hx]; exact hT
        exact absurd hxT (not_or.2 (hty x hxin))
    have hall : pushAll D C (new true 4) [m1, m2, m3, m4, m5] =
        ({ Replace := true, Maxlen := 4, elems := [m1, m2, m3, m4], Length := 4 },
          [some m1, some m2, some m3, some m4, none]) := by
      have e : pushAll D C (new true 4) [m1, m2, m3, m4, m5] =
          ((pushAll D C (pushAll D C (new true 4) [m1, m2, m3, m4]).1 [m5]).1,
            (pushAll D C (new true 4) [m1, m2, m3, m4]).2 ++
              (pushAll D C (pushAll D C (new true 4) [m1, m2, m3, m4]).1 [m5]).2) := by
        simp [pushAll]
      rw [e, h4]
      simp [pushAll, h5]
    rw [hall]
    refine ⟨rfl, ?_⟩
    have := hpop { Replace := true, Maxlen := 4, elems := [m1, m2, m3, m4], Length := 4 } rfl
    simpa using congrArg Prod.snd this


/-- Witness of C3: a replace queue of `Maxlen` 1 holding one request rejects a `DATA` push. -/
theorem full_push_rejected_queue_intact_witness :
    (Push 1 2
        { Replace := true, Maxlen := 1, elems := [⟨⟨0, 3, 1, 6, 0, 0, 0, 0⟩, []⟩], Length := 1 }
        ⟨⟨0, 1, 5, 6, 0, 0, 0, 1⟩, [7]⟩).2 = none :=
  (full_push_rejected_queue_intact 1 2
    { Replace := true, Maxlen := 1, elems := [⟨⟨0, 3, 1, 6, 0, 0, 0, 0⟩, []⟩], Length := 1 }
    ⟨⟨0, 1, 5, 6, 0, 0, 0, 1⟩, [7]⟩ rfl (le_refl _)).1 (Or.inr (Or.inr (by decide))) rfl

/-- C4: a push of a message whose type is neither `DATA` nor `CMD` removes no queued entry,
whatever is queued and whether the queue replaces or not: it is rejected and leaves the queue
as it was when `Length ≥ Maxlen`, and otherwise appends the message and adds one to `Length`.
Over any sequence of pops and such pushes on a new queue, `Length` is the number of accepted
pushes minus the number of successful pops, and at most `Maxlen`. -/
theorem non_data_cmd_push_never_replaces (D C : Nat) (q : MessageQueue) (m : Message)
    (hD : m.Header.type ≠ D) (hC : m.Header.type ≠ C)
    (R : Bool) (Maxlen : Nat) (cs : List Call)
    (hcs : ∀ x, Call.Push x ∈ cs → x.Header.type ≠ D ∧ x.Header.type ≠ C) :
    (Push D C q m =
        if q.Length ≥ q.Maxlen then (q, none)
        else ({ q with elems := q.elems ++ [m], Length := q.Length + 1 }, some m)) ∧
      ((runCount D C (new R Maxlen) cs).1.Length + (runCount D C (new R Maxlen) cs).2.2 =
          (runCount D C (new R Maxlen) cs).2.1 ∧
        (runCount D C (new R Maxlen) cs).1.Length ≤ Maxlen ∧
        (runCount D C (new R Maxlen) cs).1 = run D C (new R Maxlen) cs) := by
  constructor
  · apply Push_of_no_removal
    simp [pushReplace, Message.GetHeader, hD, hC]
  · have h := runCount_balance D C cs (new R Maxlen) (new_Wf R Maxlen) hcs
    have hw := run_Wf D C cs _ (new_Wf R Maxlen)
    have hM : (run D C (new R Maxlen) cs).Maxlen = Maxlen := (run_fields D C cs (new R Maxlen)).1
    refine ⟨?_, ?_, h.2⟩
    · simpa [new] using h.1
    · rw [h.2]
      have := hw.2
      rwa [hM] at this

/-- Witness of C4: a request pushed onto a replace queue that already holds a request of the
same signature is appended behind it. -/
theorem non_data_cmd_push_never_replaces_witness :
    Push 1 2
        { Replace := true, Maxlen := 4, elems := [⟨⟨0, 3, 1, 6, 0, 0, 0, 0⟩, []⟩], Length := 1 }
        ⟨⟨0, 3, 1, 6, 0, 9, 9, 1⟩, [5]⟩ =
      (if (1 : Nat) ≥ 4 then
        ({ Replace := true, Maxlen := 4, elems := [⟨⟨0, 3, 1, 6, 0, 0, 0, 0⟩, []⟩],
           Length := 1 }, none)
      else
        ({ Replace := true, Maxlen := 4,
            elems := [⟨⟨0, 3, 1, 6, 0, 0, 0, 0⟩, []⟩] ++ [⟨⟨0, 3, 1, 6, 0, 9, 9, 1⟩, [5]⟩],
            Length := 1 + 1 }, some ⟨⟨0, 3, 1, 6, 0, 9, 9, 1⟩, [5]⟩)) :=
  (non_data_cmd_push_never_replaces 1 2
    { Replace := true, Maxlen := 4, elems := [⟨⟨0, 3, 1, 6, 0, 0, 0, 0⟩, []⟩], Length := 1 }
    ⟨⟨0, 3, 1, 6, 0, 9, 9, 1⟩, [5]⟩ (by decide) (by decide) true 4
    [Call.Push ⟨⟨0, 3, 1, 6, 0, 0, 0, 0⟩, []⟩, Call.Pop]
    (by intro x hx; simp at hx; subst hx; decide)).1

/-- C5: `k ≤ Maxlen` messages pushed onto a new queue with no replacement possible (the queue
does not replace, or no two of the messages are `DATA`/`CMD` messages of one signature) are all
accepted; `j ≤ k` consecutive pops then return the first `j` of them in arrival order and leave
the remaining ones with `Length = k - j`, each pop taking the head; and a pop after the `k`-th
returns `NULL` and leaves the queue as it is. -/
theorem fifo_without_replacement (D C : Nat) (R : Bool) (Maxlen : Nat) (ms : List Message)
    (hk : ms.length ≤ Maxlen)
    (hno : R = false ∨
      ms.Pairwise
        (fun a b => ¬ ((a.Header.type = D ∨ a.Header.type = C) ∧ a.Compare b = true))) :
    pushAll D C (new R Maxlen) ms =
        ({ Replace := R, Maxlen := Maxlen, elems := ms, Length := ms.length }, ms.map some) ∧
      (∀ j, j ≤ ms.length →
        popN (pushAll D C (new R Maxlen) ms).1 j =
          ({ Replace := R, Maxlen := Maxlen, elems := ms.drop j, Length := ms.length - j },
            (ms.take j).map some)) ∧
      (∀ j, j < ms.length →
        Pop (popN (pushAll D C (new R Maxlen) ms).1 j).1 =
          ((popN (pushAll D C (new R Maxlen) ms).1 (j + 1)).1, ms[j]?)) ∧
      Pop (popN (pushAll D C (new R Maxlen) ms).1 ms.length).1 =
        ((popN (pushAll D C (new R Maxlen) ms).1 ms.length).1, none) := by
  have hpush : pushAll D C (new R Maxlen) ms =
      ({ Replace := R, Maxlen := Maxlen, elems := ms, Length := ms.length }, ms.map some) := by
    have := pushAll_append D C ms (new R Maxlen) (new_Wf R Maxlen) (by simpa [new] using hk)
      (by simpa [new] using hno)
    simpa [new] using this
  have hpop : ∀ j, j ≤ ms.length →
      popN (pushAll D C (new R Maxlen) ms).1 j =
        ({ Replace := R, Maxlen := Maxlen, elems := ms.drop j, Length := ms.length - j },
          (ms.take j).map some) := by
    intro j hj
    rw [hpush]
    exact popN_take j _ rfl hj
  refine ⟨hpush, hpop, ?_, ?_⟩
  · intro j hj
    rw [hpop j (le_of_lt hj), hpop (j + 1) hj]
    have hd : ms.drop j = ms[j] :: ms.drop (j + 1) := List.drop_eq_getElem_cons hj
    rw [Pop_cons _ ms[j] (ms.drop (j + 1)) hd, List.getElem?_eq_getElem hj]
    simp [Nat.sub_sub]
  · rw [hpop ms.length (le_refl _)]
    exact Pop_nil _ (by simp)

/-- Witness of C5: a request, a laser scan and a second request through a replace queue. -/
theorem fifo_without_replacement_witness :
    pushAll 1 2 (new true 3)
        [⟨⟨0, 3, 1, 6, 0, 0, 0, 0⟩, []⟩, ⟨⟨0, 1, 5, 6, 0, 0, 0, 1⟩, [7]⟩,
          ⟨⟨0, 3, 1, 6, 0, 0, 0, 0⟩, []⟩] =
      ({ Replace := true, Maxlen := 3,
          elems := [⟨⟨0, 3, 1, 6, 0, 0, 0, 0⟩, []⟩, ⟨⟨0, 1, 5, 6, 0, 0, 0, 1⟩, [7]⟩,
            ⟨⟨0, 3, 1, 6, 0, 0, 0, 0⟩, []⟩],
          Length := [(⟨⟨0, 3, 1, 6, 0, 0, 0, 0⟩, []⟩ : Message), ⟨⟨0, 1, 5, 6, 0, 0, 0, 1⟩, [7]⟩,
            ⟨⟨0, 3, 1, 6, 0, 0, 0, 0⟩, []⟩].length },
        [(⟨⟨0, 3, 1, 6, 0, 0, 0, 0⟩, []⟩ : Message), ⟨⟨0, 1, 5, 6, 0, 0, 0, 1⟩, [7]⟩,
          ⟨⟨0, 3, 1, 6, 0, 0, 0, 0⟩, []⟩].map some) :=
  (fifo_without_replacement 1 2 true 3
    [⟨⟨0, 3, 1, 6, 0, 0, 0, 0⟩, []⟩, ⟨⟨0, 1, 5, 6, 0, 0, 0, 1⟩, [7]⟩,
      ⟨⟨0, 3, 1, 6, 0, 0, 0, 0⟩, []⟩] (by decide) (Or.inr (by decide))).1

end MessageQueue

/-- C6: `Compare` is true exactly when the two headers agree on type, subtype, device code and
device index; replacing the payloads, the declared payload sizes, the timestamps (and the start
markers) of both messages leaves its result as it is. -/
theorem Message.Compare_signature_only (a b : Message) :
    (a.Compare b = true ↔
        a.Header.type = b.Header.type ∧ a.Header.subtype = b.Header.subtype ∧
          a.Header.device = b.Header.device ∧ a.Header.device_index = b.Header.device_index) ∧
      (∀ (stx1 sec1 usec1 size1 stx2 sec2 usec2 size2 : Nat) (P1 P2 : List Nat),
        Message.Compare
            ⟨⟨stx1, a.Header.type, a.Header.subtype, a.Header.device, a.Header.device_index,
              sec1, usec1, size1⟩, P1⟩
            ⟨⟨stx2, b.Header.type, b.Header.subtype, b.Header.device, b.Header.device_index,
              sec2, usec2, size2⟩, P2⟩ =
          a.Compare b) := by
  refine ⟨Message.Compare_eq_true_iff a b, ?_⟩
  intros
  simp [Message.Compare, Message.GetHeader]

/-! ## The subscription contract -/

namespace Driver

variable {σ : Type}

theorem emitted_Subscribe (I : DriverImpl σ) (d : Driver σ) :
    emitted I d Call.Subscribe = if d.subscriptions = 0 then [DriverEvent.Setup] else [] := by
  unfold emitted step Subscribe callSetup
  by_cases h0 : d.subscriptions = 0
  · by_cases hr : (I.Setup d.impl).1 = 0 <;> simp [h0, hr]
  · simp [h0]

theorem emitted_Unsubscribe (I : DriverImpl σ) (d : Driver σ) :
    emitted I d Call.Unsubscribe =
      if d.subscriptions = 1 then [DriverEvent.Shutdown, DriverEvent.DataAvailable] else [] := by
  unfold emitted step Unsubscribe callShutdown DataAvailable
  by_cases h0 : d.subscriptions = 0
  · simp [h0]
  · by_cases h1 : d.subscriptions = 1
    · by_cases hr : (I.Shutdown d.impl).1 = 0 <;> simp [h1, hr]
    · simp [h0, h1]

theorem calls_step (I : DriverImpl σ) (d : Driver σ) (c : Call) :
    (step I d c).calls = d.calls ++ emitted I d c := by
  cases c with
  | Subscribe =>
    rw [emitted_Subscribe]
    unfold step Subscribe callSetup
    by_cases h0 : d.subscriptions = 0
    · by_cases hr : (I.Setup d.impl).1 = 0 <;> simp [h0, hr]
    · simp [h0]
  | Unsubscribe =>
    rw [emitted_Unsubscribe]
    unfold step Unsubscribe callShutdown DataAvailable
    by_cases h0 : d.subscriptions = 0
    · simp [h0]
    · by_cases h1 : d.subscriptions = 1
      · by_cases hr : (I.Shutdown d.impl).1 = 0 <;> simp [h1, hr]
      · simp [h0, h1]

theorem int_incr_of_lt (x : Int) (h : x < INT_MAX) : int_incr x = x + 1 := by
  unfold int_incr
  rw [if_neg (ne_of_lt h)]

theorem int_decr_of_gt (x : Int) (h : INT_MIN < x) : int_decr x = x - 1 := by
  unfold int_decr
  rw [if_neg (ne_of_gt h)]

/-- On the values of an `int`, `int_incr` and `int_decr` are addition and subtraction of 1
modulo `2^32`, and their results are values of an `int`. -/
theorem int_incr_decr_wrap (x : Int) (h1 : INT_MIN ≤ x) (h2 : x ≤ INT_MAX) :
    int_incr x = (x + 1 + 2147483648) % 4294967296 - 2147483648 ∧
      int_decr x = (x - 1 + 2147483648) % 4294967296 - 2147483648 ∧
      INT_MIN ≤ int_incr x ∧ int_incr x ≤ INT_MAX ∧
      INT_MIN ≤ int_decr x ∧ int_decr x ≤ INT_MAX := by
  unfold INT_MIN at h1
  unfold INT_MAX at h2
  unfold int_incr int_decr INT_MAX INT_MIN
  refine ⟨?_, ?_, ?_, ?_, ?_, ?_⟩ <;> split <;> omega

theorem subscriptions_Subscribe (I : DriverImpl σ) (d : Driver σ) :
    (Subscribe I d).2.subscriptions =
      if d.subscriptions = 0 then (if (I.Setup d.impl).1 = 0 then 1 else 0)
      else int_incr d.subscriptions := by
  unfold Subscribe callSetup
  by_cases h0 : d.subscriptions = 0
  · by_cases hr : (I.Setup d.impl).1 = 0 <;> simp [h0, hr, int_incr, INT_MAX]
  · simp [h0]

theorem subscriptions_Unsubscribe (I : DriverImpl σ) (d : Driver σ) :
    (Unsubscribe I d).2.subscriptions =
      if d.subscriptions = 0 then 0
      else if d.subscriptions = 1 then (if (I.Shutdown d.impl).1 = 0 then 0 else 1)
      else int_decr d.subscriptions := by
  unfold Unsubscribe callShutdown DataAvailable
  by_cases h0 : d.subscriptions = 0
  · simp [h0]
  · by_cases h1 : d.subscriptions = 1
    · by_cases hr : (I.Shutdown d.impl).1 = 0 <;> simp [h1, hr, int_decr, INT_MIN]
    · simp [h0, h1]

theorem run_cons (I : DriverImpl σ) (d : Driver σ) (c : Call) (cs : List Call) :
    run I d (c :: cs) = run I (step I d c) cs := rfl

theorem run_concat (I : DriverImpl σ) (d : Driver σ) (cs ds : List Call) :
    run I d (cs ++ ds) = run I (run I d cs) ds := by
  unfold run
  rw [List.foldl_append]

/-- The count of every state reached from a new driver is a value of an `int`. -/
theorem run_subscriptions_in_range (I : DriverImpl σ) (cs : List Call) :
    ∀ d : Driver σ, INT_MIN ≤ d.subscriptions ∧ d.subscriptions ≤ INT_MAX →
      INT_MIN ≤ (run I d cs).subscriptions ∧ (run I d cs).subscriptions ≤ INT_MAX := by
  induction cs with
  | nil => intro d h; exact h
  | cons c cs ih =>
    intro d h
    rw [run_cons]
    apply ih
    have hw := int_incr_decr_wrap d.subscriptions h.1 h.2
    cases c with
    | Subscribe =>
      show INT_MIN ≤ (Subscribe I d).2.subscriptions ∧ (Subscribe I d).2.subscriptions ≤ INT_MAX
      rw [subscriptions_Subscribe]
      split
      · split <;> decide
      · exact ⟨hw.2.2.1, hw.2.2.2.1⟩
    | Unsubscribe =>
      show INT_MIN ≤ (Unsubscribe I d).2.subscriptions ∧
        (Unsubscribe I d).2.subscriptions ≤ INT_MAX
      rw [subscriptions_Unsubscribe]
      split
      · decide
      · split
        · split <;> decide
        · exact ⟨hw.2.2.2.2.1, hw.2.2.2.2.2⟩

/-- C7, as stated, fails: with the count at `INT_MAX`, which is greater than 0, `Subscribe`
makes no call and returns 0, but the count is not increased by one: `INT_MAX + 1` is no value
of the `int` counter, and the count is `INT_MIN` afterwards. -/
theorem Subscribe_at_INT_MAX_overflows :
    (0 : Int) < 2147483647 ∧
      (Subscribe (⟨fun n => (0, n + 1), fun n => (0, n + 1)⟩ : DriverImpl Nat)
        ⟨2147483647, 0, []⟩).1 = 0 ∧
      (Subscribe (⟨fun n => (0, n + 1), fun n => (0, n + 1)⟩ : DriverImpl Nat)
        ⟨2147483647, 0, []⟩).2.calls = [] ∧
      (Subscribe (⟨fun n => (0, n + 1), fun n => (0, n + 1)⟩ : DriverImpl Nat)
        ⟨2147483647, 0, []⟩).2.subscriptions = -2147483648 ∧
      (Subscribe (⟨fun n => (0, n + 1), fun n => (0, n + 1)⟩ : DriverImpl Nat)
        ⟨2147483647, 0, []⟩).2.subscriptions ≠ 2147483647 + 1 := by
  decide

/-- C7, amended: with the count at 0, `Subscribe` calls `Setup` exactly once, returns what
`Setup` returned, and leaves the count at 1 if that is 0 and at 0 otherwise; with the count
above 0 and below `INT_MAX` it makes no call, adds exactly one to the count and returns 0. -/
theorem Subscribe_contract (I : DriverImpl σ) (d : Driver σ) :
    (d.subscriptions = 0 →
        (Subscribe I d).1 = (I.Setup d.impl).1 ∧
          (Subscribe I d).2.calls = d.calls ++ [DriverEvent.Setup] ∧
          (Subscribe I d).2.impl = (I.Setup d.impl).2 ∧
          ((I.Setup d.impl).1 = 0 → (Subscribe I d).2.subscriptions = 1) ∧
          ((I.Setup d.impl).1 ≠ 0 → (Subscribe I d).2.subscriptions = 0)) ∧
      (0 < d.subscriptions → d.subscriptions < INT_MAX →
        Subscribe I d = (0, { d with subscriptions := d.subscriptions + 1 }) ∧
          (Subscribe I d).2.calls = d.calls) := by
  constructor
  · intro h0
    unfold Subscribe callSetup
    by_cases hr : (I.Setup d.impl).1 = 0 <;> simp [h0, hr, int_incr, INT_MAX]
  · intro hpos hlt
    have h0 : d.subscriptions ≠ 0 := ne_of_gt hpos
    unfold Subscribe
    simp [h0, int_incr_of_lt d.subscriptions hlt]

/-- Witness of C7, amended: a first subscription whose `Setup` succeeds, and a second one that
finds the count at 1. -/
theorem Subscribe_contract_witness :
    (Subscribe (⟨fun n => (0, n + 1), fun n => (0, n + 1)⟩ : DriverImpl Nat) (init 0)).1 =
        ((⟨fun n => (0, n + 1), fun n => (0, n + 1)⟩ : DriverImpl Nat).Setup (init 0).impl).1 ∧
      Subscribe (⟨fun n => (0, n + 1), fun n => (0, n + 1)⟩ : DriverImpl Nat) ⟨1, 1, []⟩ =
        (0, ⟨1 + 1, 1, []⟩) :=
  ⟨((Subscribe_contract (⟨fun n => (0, n + 1), fun n => (0, n + 1)⟩ : DriverImpl Nat)
      (init 0)).1 rfl).1,
    ((Subscribe_contract (⟨fun n => (0, n + 1), fun n => (0, n + 1)⟩ : DriverImpl Nat)
      ⟨1, 1, []⟩).2 (by decide) (by decide)).1⟩

/-- C8: with the count at 0, `Unsubscribe` returns -1 and leaves the whole driver state as it
was, no call made; with the count above 1 it returns 0, takes exactly one off the count and
makes no call (`Shutdown` included). -/
theorem Unsubscribe_without_shutdown (I : DriverImpl σ) (d : Driver σ) :
    (d.subscriptions = 0 →
        Unsubscribe I d = (-1, d) ∧ emitted I d Call.Unsubscribe = []) ∧
      (1 < d.subscriptions →
        Unsubscribe I d = (0, { d with subscriptions := d.subscriptions - 1 }) ∧
          emitted I d Call.Unsubscribe = []) := by
  constructor
  · intro h0
    refine ⟨?_, ?_⟩
    · unfold Unsubscribe
      simp [h0]
    · rw [emitted_Unsubscribe]
      simp [h0]
  · intro hgt
    have h0 : d.subscriptions ≠ 0 := by omega
    have h1 : d.subscriptions ≠ 1 := by omega
    have h2 : int_decr d.subscriptions = d.subscriptions - 1 :=
      int_decr_of_gt d.subscriptions (by unfold INT_MIN; omega)
    refine ⟨?_, ?_⟩
    · unfold Unsubscribe
      simp [h0, h1, h2]
    · rw [emitted_Unsubscribe]
      simp [h1]

/-- Witness of C8: an unsubscription with no subscriber. -/
theorem Unsubscribe_without_shutdown_witness :
    Unsubscribe (⟨fun n => (0, n + 1), fun n => (0, n + 1)⟩ : DriverImpl Nat) (init 0) =
      (-1, init 0) :=
  ((Unsubscribe_without_shutdown (⟨fun n => (0, n + 1), fun n => (0, n + 1)⟩ : DriverImpl Nat)
    (init 0)).1 rfl).1

/-- C9: with the count at 1, `Unsubscribe` calls `Shutdown` exactly once and then
`DataAvailable` exactly once, whatever `Shutdown` returned; it returns what `Shutdown`
returned; the count becomes 0 exactly when that is 0 and stays 1 otherwise. -/
theorem Unsubscribe_last (I : DriverImpl σ) (d : Driver σ) (h1 : d.subscriptions = 1) :
    (Unsubscribe I d).1 = (I.Shutdown d.impl).1 ∧
      (Unsubscribe I d).2.calls =
        d.calls ++ [DriverEvent.Shutdown, DriverEvent.DataAvailable] ∧
      (Unsubscribe I d).2.impl = (I.Shutdown d.impl).2 ∧
      ((Unsubscribe I d).2.subscriptions = 0 ↔ (I.Shutdown d.impl).1 = 0) ∧
      ((I.Shutdown d.impl).1 ≠ 0 → (Unsubscribe I d).2.subscriptions = 1) := by
  unfold Unsubscribe callShutdown DataAvailable
  by_cases hr : (I.Shutdown d.impl).1 = 0 <;> simp [h1, hr, int_decr, INT_MIN]

/-- Witness of C9: the last subscriber leaves and `Shutdown` fails with -5; both calls are
made and the result is handed back. -/
theorem Unsubscribe_last_witness :
    (Unsubscribe (⟨fun n => (0, n + 1), fun n => (-5, n + 1)⟩ : DriverImpl Nat)
        { subscriptions := 1, impl := 0, calls := [] }).1 =
      ((⟨fun n => (0, n + 1), fun n => (-5, n + 1)⟩ : DriverImpl Nat).Shutdown
        ({ subscriptions := 1, impl := 0, calls := [] } : Driver Nat).impl).1 :=
  (Unsubscribe_last (⟨fun n => (0, n + 1), fun n => (-5, n + 1)⟩ : DriverImpl Nat)
    { subscriptions := 1, impl := 0, calls := [] } rfl).1

/-- C10: let `d` be the state reached from a new driver (count 0) by any sequence of
`Subscribe` and `Unsubscribe` calls, whatever `Setup` and `Shutdown` return, and let `c` be the
next call.  The count of `d` is a value of the `int` counter.  `Setup` is invoked by `c` exactly
when `c` is a `Subscribe` at count 0, `Shutdown` exactly when `c` is an `Unsubscribe` at
count 1; a step of the count from 0 to 1 comes with exactly one `Setup` call, a step from 1 to 0
with exactly one `Shutdown` call, and a call that moves the count from one value `≥ 1` to
another makes no call at all. -/
theorem setup_shutdown_only_on_edges (I : DriverImpl σ) (s : σ) (cs : List Call) (c : Call)
    (d : Driver σ) (hd : d = run I (init s) cs) :
    (INT_MIN ≤ d.subscriptions ∧ d.subscriptions ≤ INT_MAX) ∧
      (step I d c).calls = d.calls ++ emitted I d c ∧
      (DriverEvent.Setup ∈ emitted I d c ↔ c = Call.Subscribe ∧ d.subscriptions = 0) ∧
      (DriverEvent.Shutdown ∈ emitted I d c ↔ c = Call.Unsubscribe ∧ d.subscriptions = 1) ∧
      (d.subscriptions = 0 → (step I d c).subscriptions = 1 →
        (emitted I d c).count DriverEvent.Setup = 1 ∧
          (emitted I d c).count DriverEvent.Shutdown = 0) ∧
      (d.subscriptions = 1 → (step I d c).subscriptions = 0 →
        (emitted I d c).count DriverEvent.Shutdown = 1 ∧
          (emitted I d c).count DriverEvent.Setup = 0) ∧
      (1 ≤ d.subscriptions → 1 ≤ (step I d c).subscriptions →
        (step I d c).subscriptions ≠ d.subscriptions → emitted I d c = []) := by
  subst hd
  have hrange := run_subscriptions_in_range I cs (init s)
    (by show INT_MIN ≤ (0 : Int) ∧ (0 : Int) ≤ INT_MAX; decide)
  generalize run I (init s) cs = d at hrange ⊢
  refine ⟨hrange, calls_step I d c, ?_⟩
  cases c with
  | Subscribe =>
    have hs : (step I d Call.Subscribe).subscriptions = (Subscribe I d).2.subscriptions := rfl
    rw [emitted_Subscribe, hs, subscriptions_Subscribe]
    by_cases h0 : d.subscriptions = 0
    · by_cases hr : (I.Setup d.impl).1 = 0 <;> simp [h0, hr]
    · simp only [h0, if_false]
      refine ⟨by simp, by simp, ?_, ?_, ?_⟩
      · intro h; exact absurd h (by simp)
      · intro h1 h2
        rw [h1] at h2
        exact absurd h2 (by decide)
      · intros; trivial
  | Unsubscribe =>
    have hs : (step I d Call.Unsubscribe).subscriptions = (Unsubscribe I d).2.subscriptions := rfl
    rw [emitted_Unsubscribe, hs, subscriptions_Unsubscribe]
    by_cases h0 : d.subscriptions = 0
    · simp [h0]
    · by_cases h1 : d.subscriptions = 1
      · by_cases hr : (I.Shutdown d.impl).1 = 0 <;> simp [h1, hr]
      · simp only [h0, h1, if_false]
        refine ⟨by simp, by simp, ?_, ?_, ?_⟩
        · intro h; exact absurd h (by simp)
        · intro h; exact absurd h (by simp)
        · intros; trivial

/-- Witness of C10: after two subscriptions and two unsubscriptions a third subscription
starts from count 0 and calls `Setup`. -/
theorem setup_shutdown_only_on_edges_witness :
    DriverEvent.Setup ∈
        emitted (⟨fun n => (0, n + 1), fun n => (0, n + 1)⟩ : DriverImpl Nat)
          (run (⟨fun n => (0, n + 1), fun n => (0, n + 1)⟩ : DriverImpl Nat) (init 0)
            [Call.Subscribe, Call.Subscribe, Call.Unsubscribe, Call.Unsubscribe])
          Call.Subscribe ↔
      Call.Subscribe = Call.Subscribe ∧
        (run (⟨fun n => (0, n + 1), fun n => (0, n + 1)⟩ : DriverImpl Nat) (init 0)
          [Call.Subscribe, Call.Subscribe, Call.Unsubscribe, Call.Unsubscribe]).subscriptions
          = 0 :=
  (setup_shutdown_only_on_edges (⟨fun n => (0, n + 1), fun n => (0, n + 1)⟩ : DriverImpl Nat) 0
    [Call.Subscribe, Call.Subscribe, Call.Unsubscribe, Call.Unsubscribe] Call.Subscribe _
    rfl).2.2.1

end Driver

/-! ## The subscription count is never negative -/

namespace Driver

variable {σ : Type}

theorem step_subscriptions_nonneg (I : DriverImpl σ) (d : Driver σ) (c : Call)
    (h : 0 ≤ d.subscriptions) (hb : c = Call.Subscribe → d.subscriptions < INT_MAX) :
    0 ≤ (step I d c).subscriptions := by
  cases c with
  | Subscribe =>
    show 0 ≤ (Subscribe I d).2.subscriptions
    rw [subscriptions_Subscribe]
    split
    · split <;> decide
    · rw [int_incr_of_lt _ (hb rfl)]
      omega
  | Unsubscribe =>
    show 0 ≤ (Unsubscribe I d).2.subscriptions
    rw [subscriptions_Unsubscribe]
    split
    · decide
    · split
      · split <;> decide
      · rw [int_decr_of_gt _ (by unfold INT_MIN; omega)]
        omega

theorem run_subscriptions_nonneg (I : DriverImpl σ) (cs : List Call) :
    ∀ d : Driver σ, 0 ≤ d.subscriptions →
      (∀ k, cs[k]? = some Call.Subscribe → (run I d (cs.take k)).subscriptions < INT_MAX) →
      ∀ n, 0 ≤ (run I d (cs.take n)).subscriptions := by
  induction cs with
  | nil => intro d h _ n; simpa [run] using h
  | cons c cs ih =>
    intro d h hb n
    cases n with
    | zero => simpa [run] using h
    | succ n =>
      rw [List.take_succ_cons, run_cons]
      refine ih _ (step_subscriptions_nonneg I d c h ?_) ?_ n
      · intro hc
        have := hb 0 (by rw [hc]; simp)
        simpa [run] using this
      · intro k hk
        have := hb (k + 1) (by simpa using hk)
        rw [List.take_succ_cons, run_cons] at this
        exact this

/-- The count after `k` subscriptions that all succeed, as long as it stays within `INT_MAX`. -/
theorem run_subscribes (I : DriverImpl σ) (hS : ∀ x, (I.Setup x).1 = 0) (k : Nat) :
    ∀ d : Driver σ, 0 ≤ d.subscriptions → d.subscriptions + k ≤ INT_MAX →
      (run I d (List.replicate k Call.Subscribe)).subscriptions = d.subscriptions + k := by
  induction k with
  | zero => intro d _ _; simp [run]
  | succ k ih =>
    intro d h0 hk
    have hlt : d.subscriptions < INT_MAX := by omega
    have hstep : (step I d Call.Subscribe).subscriptions = d.subscriptions + 1 := by
      show (Subscribe I d).2.subscriptions = _
      rw [subscriptions_Subscribe]
      split
      · rename_i hz
        rw [if_pos (hS _), hz]
        rfl
      · exact int_incr_of_lt _ hlt
    rw [List.replicate_succ, run_cons, ih _ (by omega) (by rw [hstep]; omega), hstep]
    push_cast
    omega

/-- At `INT_MAX` a `Subscribe` leaves the count at `INT_MIN`. -/
theorem subscriptions_Subscribe_INT_MAX (I : DriverImpl σ) (d : Driver σ)
    (h : d.subscriptions = INT_MAX) : (Subscribe I d).2.subscriptions = INT_MIN := by
  have h0 : d.subscriptions ≠ 0 := by
    rw [h]; decide
  rw [subscriptions_Subscribe, if_neg h0]
  unfold int_incr
  exact if_pos h

/-- C11, as stated, fails: on a new driver whose `Setup` succeeds, `INT_MAX` calls of
`Subscribe` and one more leave the count at `INT_MIN`, which is negative. -/
theorem subscriptions_negative_after_overflow :
    (run (⟨fun x => (0, x), fun x => (0, x)⟩ : DriverImpl Unit) (init ())
        (List.replicate 2147483647 Call.Subscribe ++ [Call.Subscribe])).subscriptions =
        -2147483648 ∧
      (-2147483648 : Int) < 0 := by
  refine ⟨?_, by omega⟩
  have h := run_subscribes (⟨fun x => (0, x), fun x => (0, x)⟩ : DriverImpl Unit)
    (fun _ => rfl) 2147483647 (init ()) (le_refl _)
    (by show (0 : Int) + ((2147483647 : Nat) : Int) ≤ INT_MAX; unfold INT_MAX; omega)
  obtain ⟨d, hd⟩ : ∃ d, run (⟨fun x => (0, x), fun x => (0, x)⟩ : DriverImpl Unit) (init ())
      (List.replicate 2147483647 Call.Subscribe) = d := ⟨_, rfl⟩
  rw [run_concat, hd]
  rw [hd] at h
  have h1 : d.subscriptions = INT_MAX := by
    rw [h]
    show (0 : Int) + ((2147483647 : Nat) : Int) = INT_MAX
    unfold INT_MAX
    omega
  exact subscriptions_Subscribe_INT_MAX _ d h1

/-- C11, amended: after every call of any sequence of `Subscribe` and `Unsubscribe` calls on a
newly constructed driver (count 0) in which `Subscribe` is never called while the count is
`INT_MAX`, whatever `Setup` and `Shutdown` return, the subscription count is not negative. -/
theorem subscriptions_never_negative (I : DriverImpl σ) (s : σ) (cs : List Call) (n : Nat)
    (hb : ∀ k, cs[k]? = some Call.Subscribe →
      (run I (init s) (cs.take k)).subscriptions < INT_MAX) :
    0 ≤ (run I (init s) (cs.take n)).subscriptions :=
  run_subscriptions_nonneg I cs (init s) (le_refl _) hb n

/-- Witness of C11, amended: two subscriptions and an unsubscription, the first `Setup`
failing. -/
theorem subscriptions_never_negative_witness :
    0 ≤ (run (⟨fun n => (if n = 0 then -1 else 0, n + 1), fun n => (0, n + 1)⟩ : DriverImpl Nat)
      (init 0) ([Call.Subscribe, Call.Subscribe, Call.Unsubscribe].take 3)).subscriptions :=
  subscriptions_never_negative
    (⟨fun n => (if n = 0 then -1 else 0, n + 1), fun n => (0, n + 1)⟩ : DriverImpl Nat) 0
    [Call.Subscribe, Call.Subscribe, Call.Unsubscribe] 3
    (by
      intro k hk
      rcases k with _ | _ | _ | k
      · decide
      · decide
      · exact absurd hk (by decide)
      · simp at hk)

end Driver

/-! ## The function table -/

section TableLemmas

variable (REQ ACK : Nat)

theorem get_func_loop_cons (interf subtype type : Nat) (curr : playerxdr_function_t)
    (rest : List playerxdr_function_t) :
    get_func_loop REQ ACK interf subtype type (curr :: rest) =
      if (entry_test REQ ACK curr interf type subtype).1 then curr.func
      else get_func_loop REQ ACK interf subtype (entry_test REQ ACK curr interf type subtype).2
        rest := rfl

/-- An entry with the interface and subtype looked up is tested true when its type is the
current value of `type`. -/
theorem entry_test_same_type (curr : playerxdr_function_t) (interf type subtype : Nat)
    (h1 : curr.interf = interf) (h2 : curr.type = type) (h3 : curr.subtype = subtype) :
    (entry_test REQ ACK curr interf type subtype).1 = true := by
  simp [entry_test, h1, h2, h3]

/-- An entry with another interface or another subtype is tested false. -/
theorem entry_test_other (curr : playerxdr_function_t) (interf type subtype : Nat)
    (h : ¬ (curr.interf = interf ∧ curr.subtype = subtype)) :
    (entry_test REQ ACK curr interf type subtype).1 = false := by
  unfold entry_test
  by_cases h1 : curr.interf = interf
  · have h3 : curr.subtype ≠ subtype := fun h3 => h ⟨h1, h3⟩
    by_cases h2 : curr.type = type
    · simp [h1, h2, h3]
    · by_cases h4 : curr.type = REQ
      · have h2' : ¬ REQ = type := by rw [← h4]; exact h2
        simp [h1, h2', h3, h4]
      · simp [h1, h2, h3, h4]
  · simp [h1]

/-- While the current value of `type` is `REQ`, no entry changes it. -/
theorem entry_test_type_req (curr : playerxdr_function_t) (interf subtype : Nat) :
    (entry_test REQ ACK curr interf REQ subtype).2 = REQ := by
  unfold entry_test
  by_cases h1 : curr.interf = interf
  · by_cases h2 : curr.type = REQ <;> simp [h1, h2]
  · simp [h1]

/-- While the current value of `type` is the `RESP_ACK` tag, no entry changes it. -/
theorem entry_test_type_ack (hA : ACK < 256) (curr : playerxdr_function_t)
    (interf subtype : Nat) : (entry_test REQ ACK curr interf ACK subtype).2 = ACK := by
  have hmod : ACK % 256 = ACK := Nat.mod_eq_of_lt hA
  unfold entry_test
  by_cases h1 : curr.interf = interf
  · by_cases h2 : curr.type = ACK
    · simp [h1, h2]
    · by_cases h4 : curr.type = REQ
      · have h2' : ¬ REQ = ACK := by rw [← h4]; exact h2
        simp [h1, h2', h4, hmod]
      · simp [h1, h2, h4]
  · simp [h1]

/-- A `REQ` entry with the interface and subtype looked up is tested true while `type` is the
`RESP_ACK` tag, a non-zero `uint8_t` value. -/
theorem entry_test_req_for_ack (hA0 : 0 < ACK) (hA : ACK < 256) (curr : playerxdr_function_t)
    (interf subtype : Nat) (h1 : curr.interf = interf) (h2 : curr.type = REQ)
    (h3 : curr.subtype = subtype) : (entry_test REQ ACK curr interf ACK subtype).1 = true := by
  have hmod : ACK % 256 = ACK := Nat.mod_eq_of_lt hA
  have hne : ACK ≠ 0 := by omega
  unfold entry_test
  by_cases h4 : curr.type = ACK
  · simp [h1, h3, h4]
  · have h4' : ¬ REQ = ACK := by rw [← h2]; exact h4
    simp [h1, h2, h3, hmod, hne, h4']

theorem get_func_loop_only_entry (interf subtype type : Nat) (e : playerxdr_function_t)
    (hkeep : ∀ c : playerxdr_function_t, (entry_test REQ ACK c interf type subtype).2 = type)
    (htest : (entry_test REQ ACK e interf type subtype).1 = true) :
    ∀ ftable : List playerxdr_function_t, e ∈ ftable →
      (∀ c ∈ ftable, c.interf = interf → c.subtype = subtype → c = e) →
      get_func_loop REQ ACK interf subtype type ftable = e.func := by
  intro ftable
  induction ftable with
  | nil => intro h; simp at h
  | cons c rest ih =>
    intro hmem honly
    rw [get_func_loop_cons]
    by_cases hc : c.interf = interf ∧ c.subtype = subtype
    · have hce : c = e := honly c (List.mem_cons_self _ _) hc.1 hc.2
      rw [hce, htest]
      simp
    · rw [entry_test_other REQ ACK c interf type subtype hc, hkeep c]
      have hne : e ≠ c := by
        intro h
        apply hc
        rw [← h]
        have := (entry_test_other REQ ACK e interf type subtype)
        by_contra hcon
        rw [this hcon] at htest
        cases htest
      have hmem' : e ∈ rest := by
        rcases List.mem_cons.1 hmem with h | h
        · exact absurd h hne
        · exact h
      simpa using ih hmem' (fun c' hc' => honly c' (List.mem_cons_of_mem _ hc'))

/-- A lookup that returned a function returns the same one once an entry is added. -/
theorem get_func_loop_append (interf subtype : Nat) (f : Nat) (e : playerxdr_function_t) :
    ∀ (ftable : List playerxdr_function_t) (type : Nat),
      get_func_loop REQ ACK interf subtype type ftable = some f →
      get_func_loop REQ ACK interf subtype type (ftable ++ [e]) = some f := by
  intro ftable
  induction ftable with
  | nil => intro type h; simp [get_func_loop] at h
  | cons c rest ih =>
    intro type h
    rw [List.cons_append, get_func_loop_cons]
    rw [get_func_loop_cons] at h
    by_cases ht : (entry_test REQ ACK c interf type subtype).1 = true
    · rw [if_pos ht] at h ⊢
      exact h
    · rw [if_neg ht] at h ⊢
      exact ih _ h

end TableLemmas

/-- C12: in a table where the only entry registered for an interface and subtype is an entry
`e` of type `REQ`, the lookups `playerxdr_get_func(interface, REQ, subtype)` and
`playerxdr_get_func(interface, RESP_ACK, subtype)` both return the pack function of `e`
(the `RESP_ACK` tag of the absent `player.h` being a non-zero `uint8_t` value). -/
theorem get_func_req_and_resp_ack (REQ ACK : Nat) (hA0 : 0 < ACK) (hA : ACK < 256)
    (ftable : List playerxdr_function_t) (e : playerxdr_function_t) (he : e ∈ ftable)
    (hreq : e.type = REQ)
    (honly : ∀ c ∈ ftable, c.interf = e.interf → c.subtype = e.subtype → c = e) :
    playerxdr_get_func REQ ACK ftable e.interf REQ e.subtype = e.func ∧
      playerxdr_get_func REQ ACK ftable e.interf ACK e.subtype = e.func := by
  constructor
  · exact get_func_loop_only_entry REQ ACK e.interf e.subtype REQ e
      (fun c => entry_test_type_req REQ ACK c e.interf e.subtype)
      (entry_test_same_type REQ ACK e e.interf REQ e.subtype rfl hreq rfl) ftable he honly
  · exact get_func_loop_only_entry REQ ACK e.interf e.subtype ACK e
      (fun c => entry_test_type_ack REQ ACK hA c e.interf e.subtype)
      (entry_test_req_for_ack REQ ACK hA0 hA e e.interf e.subtype rfl hreq rfl) ftable he honly

/-- Witness of C12: a sonar data entry followed by the sonar geometry request entry. -/
theorem get_func_req_and_resp_ack_witness :
    playerxdr_get_func 3 4 [⟨5, 1, 1, some 70⟩, ⟨5, 3, 2, some 71⟩]
        (⟨5, 3, 2, some 71⟩ : playerxdr_function_t).interf 3
        (⟨5, 3, 2, some 71⟩ : playerxdr_function_t).subtype =
        (⟨5, 3, 2, some 71⟩ : playerxdr_function_t).func ∧
      playerxdr_get_func 3 4 [⟨5, 1, 1, some 70⟩, ⟨5, 3, 2, some 71⟩]
        (⟨5, 3, 2, some 71⟩ : playerxdr_function_t).interf 4
        (⟨5, 3, 2, some 71⟩ : playerxdr_function_t).subtype =
        (⟨5, 3, 2, some 71⟩ : playerxdr_function_t).func :=
  get_func_req_and_resp_ack 3 4 (by decide) (by decide)
    [⟨5, 1, 1, some 70⟩, ⟨5, 3, 2, some 71⟩] ⟨5, 3, 2, some 71⟩ (by decide) rfl (by decide)

/-- C13, the code at the failing input: in the table that `playerxdr_ftable_init` builds, the
lookup `playerxdr_get_func(PLAYER_PLAYER_CODE, DATA, PLAYER_PLAYER_REQ_DEVLIST)` returns
`player_device_devlist_pack`, the function of the entry registered as `REQ`, although the type
supplied is `DATA` and not `RESP_ACK`; and in the table holding that entry alone the same lookup
returns the same function while no entry matches the arguments. -/
theorem get_func_data_returns_req_entry (K : XdrNames)
    (hDR : K.PLAYER_MSGTYPE_DATA ≠ K.PLAYER_MSGTYPE_REQ)
    (hDA : K.PLAYER_MSGTYPE_DATA ≠ K.PLAYER_MSGTYPE_RESP_ACK)
    (hA : K.PLAYER_MSGTYPE_RESP_ACK % 256 ≠ 0) :
    playerxdr_get_func K.PLAYER_MSGTYPE_REQ K.PLAYER_MSGTYPE_RESP_ACK (playerxdr_ftable_init K)
        K.PLAYER_PLAYER_CODE K.PLAYER_MSGTYPE_DATA K.PLAYER_PLAYER_REQ_DEVLIST =
        some K.player_device_devlist_pack ∧
      playerxdr_get_func K.PLAYER_MSGTYPE_REQ K.PLAYER_MSGTYPE_RESP_ACK
        [⟨K.PLAYER_PLAYER_CODE, K.PLAYER_MSGTYPE_REQ, K.PLAYER_PLAYER_REQ_DEVLIST,
          some K.player_device_devlist_pack⟩]
        K.PLAYER_PLAYER_CODE K.PLAYER_MSGTYPE_DATA K.PLAYER_PLAYER_REQ_DEVLIST =
        some K.player_device_devlist_pack ∧
      ∀ e ∈ [(⟨K.PLAYER_PLAYER_CODE, K.PLAYER_MSGTYPE_REQ, K.PLAYER_PLAYER_REQ_DEVLIST,
          some K.player_device_devlist_pack⟩ : playerxdr_function_t)],
        ¬ entry_matches K.PLAYER_MSGTYPE_REQ K.PLAYER_MSGTYPE_RESP_ACK e
          K.PLAYER_PLAYER_CODE K.PLAYER_MSGTYPE_DATA K.PLAYER_PLAYER_REQ_DEVLIST := by
  have hRD : K.PLAYER_MSGTYPE_REQ ≠ K.PLAYER_MSGTYPE_DATA := Ne.symm hDR
  have hinit : playerxdr_ftable_init K = (init_ftable K).dropLast := rfl
  refine ⟨?_, ?_, ?_⟩
  · rw [hinit]
    simp [playerxdr_get_func, init_ftable, List.dropLast, get_func_loop, entry_test, hRD, hA]
  · simp [playerxdr_get_func, get_func_loop, entry_test, hRD, hA]
  · intro e he
    have he' : e = ⟨K.PLAYER_PLAYER_CODE, K.PLAYER_MSGTYPE_REQ, K.PLAYER_PLAYER_REQ_DEVLIST,
        some K.player_device_devlist_pack⟩ := by simpa using he
    rw [he']
    rintro ⟨-, -, h | ⟨-, h⟩⟩
    · exact hRD h
    · exact hDA h

/-- Witness of C13: the lookup at the sample values. -/
theorem get_func_data_returns_req_entry_witness :
    playerxdr_get_func XdrNames.sample.PLAYER_MSGTYPE_REQ XdrNames.sample.PLAYER_MSGTYPE_RESP_ACK
        (playerxdr_ftable_init XdrNames.sample) XdrNames.sample.PLAYER_PLAYER_CODE
        XdrNames.sample.PLAYER_MSGTYPE_DATA XdrNames.sample.PLAYER_PLAYER_REQ_DEVLIST =
      some XdrNames.sample.player_device_devlist_pack :=
  (get_func_data_returns_req_entry XdrNames.sample (by decide) (by decide) (by decide)).1

/-- C14, the code at the failing input: with a `REQ` entry of interface `I` and subtype `S1`
added first and a `DATA` entry of the same interface and another subtype `S2` added second, the
second entry matches the arguments of `playerxdr_get_func(I, DATA, S2)` and is the first that
does, yet the lookup returns `NULL`: the first entry has set the local `type` to `RESP_ACK`. -/
theorem get_func_misses_entry_after_req (REQ ACK DATA I S1 S2 f1 f2 : Nat)
    (hS : S1 ≠ S2) (hDR : DATA ≠ REQ) (hDA : DATA ≠ ACK % 256) :
    entry_matches REQ ACK ⟨I, DATA, S2, some f2⟩ I DATA S2 ∧
      ¬ entry_matches REQ ACK ⟨I, REQ, S1, some f1⟩ I DATA S2 ∧
      playerxdr_get_func REQ ACK
        (playerxdr_ftable_add (playerxdr_ftable_add [] ⟨I, REQ, S1, some f1⟩)
          ⟨I, DATA, S2, some f2⟩) I DATA S2 = none := by
  have hRD : REQ ≠ DATA := Ne.symm hDR
  refine ⟨⟨rfl, rfl, Or.inl rfl⟩, ?_, ?_⟩
  · rintro ⟨-, h, -⟩
    exact hS h
  · simp [playerxdr_get_func, playerxdr_ftable_add, get_func_loop, entry_test, hRD, hS, hDR, hDA]

/-- Witness of C14: a sonar request entry followed by a sonar data entry. -/
theorem get_func_misses_entry_after_req_witness :
    playerxdr_get_func 3 4
        (playerxdr_ftable_add (playerxdr_ftable_add [] ⟨5, 3, 1, some 70⟩) ⟨5, 1, 2, some 71⟩)
        5 1 2 = none :=
  (get_func_misses_entry_after_req 3 4 1 5 1 2 70 71 (by decide) (by decide) (by decide)).2.2

/-- C15, the code at the failing input: after `playerxdr_ftable_init`, the triple of a sonar
command entry `e` with a subtype other than that of the sonar geometry request is not found;
once `playerxdr_ftable_add(e)` has appended `e` (the table is the old one followed by `e`), the
lookup of exactly that triple still returns `NULL` and not the function of `e`: the sonar `REQ`
entry before it has set the local `type` to `RESP_ACK`. -/
theorem get_func_misses_added_entry (K : XdrNames) (s f : Nat)
    (hcodes : [K.PLAYER_PLAYER_CODE, K.PLAYER_LASER_CODE, K.PLAYER_SONAR_CODE,
      K.PLAYER_POSITION2D_CODE].Nodup)
    (htypes : [K.PLAYER_MSGTYPE_DATA, K.PLAYER_MSGTYPE_CMD, K.PLAYER_MSGTYPE_REQ].Nodup)
    (hCA : K.PLAYER_MSGTYPE_CMD ≠ K.PLAYER_MSGTYPE_RESP_ACK % 256)
    (hs : s ≠ K.PLAYER_SONAR_REQ_GET_GEOM) :
    playerxdr_ftable_add (playerxdr_ftable_init K)
        ⟨K.PLAYER_SONAR_CODE, K.PLAYER_MSGTYPE_CMD, s, some f⟩ =
        playerxdr_ftable_init K ++ [⟨K.PLAYER_SONAR_CODE, K.PLAYER_MSGTYPE_CMD, s, some f⟩] ∧
      playerxdr_get_func K.PLAYER_MSGTYPE_REQ K.PLAYER_MSGTYPE_RESP_ACK (playerxdr_ftable_init K)
        K.PLAYER_SONAR_CODE K.PLAYER_MSGTYPE_CMD s = none ∧
      playerxdr_get_func K.PLAYER_MSGTYPE_REQ K.PLAYER_MSGTYPE_RESP_ACK
        (playerxdr_ftable_add (playerxdr_ftable_init K)
          ⟨K.PLAYER_SONAR_CODE, K.PLAYER_MSGTYPE_CMD, s, some f⟩)
        K.PLAYER_SONAR_CODE K.PLAYER_MSGTYPE_CMD s = none := by
  have hinit : playerxdr_ftable_init K = (init_ftable K).dropLast := rfl
  have hcodes' := List.nodup_reverse.2 hcodes
  have htypes' := List.nodup_reverse.2 htypes
  have hs' : K.PLAYER_SONAR_REQ_GET_GEOM ≠ s := Ne.symm hs
  simp only [List.reverse_cons, List.reverse_nil, List.nil_append, List.cons_append,
    List.nodup_cons, List.mem_cons, List.mem_singleton, List.not_mem_nil, not_or,
    or_false, List.nodup_nil, and_true, not_false_eq_true] at hcodes htypes hcodes' htypes'
  refine ⟨rfl, ?_, ?_⟩
  · rw [hinit]
    simp [playerxdr_get_func, init_ftable, List.dropLast, get_func_loop, entry_test,
      hcodes, htypes, hcodes', htypes', hs, hs', hCA]
  · rw [hinit]
    simp [playerxdr_get_func, playerxdr_ftable_add, init_ftable, List.dropLast, get_func_loop,
      entry_test, hcodes, htypes, hcodes', htypes', hs, hs', hCA]

/-- Witness of C15: a sonar command entry of subtype 3 added at the sample values. -/
theorem get_func_misses_added_entry_witness :
    playerxdr_get_func XdrNames.sample.PLAYER_MSGTYPE_REQ XdrNames.sample.PLAYER_MSGTYPE_RESP_ACK
        (playerxdr_ftable_add (playerxdr_ftable_init XdrNames.sample)
          ⟨XdrNames.sample.PLAYER_SONAR_CODE, XdrNames.sample.PLAYER_MSGTYPE_CMD, 3, some 200⟩)
        XdrNames.sample.PLAYER_SONAR_CODE XdrNames.sample.PLAYER_MSGTYPE_CMD 3 = none :=
  (get_func_misses_added_entry XdrNames.sample 3 200 (by decide) (by decide) (by decide)
    (by decide)).2.2

/-- C16: `playerxdr_ftable_init` leaves in the table exactly the entries of `init_ftable` before
the `NULL` sentinel, in declaration order, 13 of them; their (interface, type, subtype) triples
are pairwise different, and looking up the triple of any of them returns its own pack function.
The interface codes, the type tags `DATA`, `CMD`, `REQ` and the eight player request subtypes
of the absent `player.h` are taken to be pairwise different. -/
theorem ftable_init_builtin_lookup (K : XdrNames)
    (hcodes : [K.PLAYER_PLAYER_CODE, K.PLAYER_LASER_CODE, K.PLAYER_SONAR_CODE,
      K.PLAYER_POSITION2D_CODE].Nodup)
    (htypes : [K.PLAYER_MSGTYPE_DATA, K.PLAYER_MSGTYPE_CMD, K.PLAYER_MSGTYPE_REQ].Nodup)
    (hsubs : [K.PLAYER_PLAYER_REQ_DEVLIST, K.PLAYER_PLAYER_REQ_DRIVERINFO,
      K.PLAYER_PLAYER_REQ_DEV, K.PLAYER_PLAYER_REQ_DATA, K.PLAYER_PLAYER_REQ_DATAMODE,
      K.PLAYER_PLAYER_REQ_DATAFREQ, K.PLAYER_PLAYER_REQ_AUTH,
      K.PLAYER_PLAYER_REQ_NAMESERVICE].Nodup) :
    playerxdr_ftable_init K = (init_ftable K).dropLast ∧
      (init_ftable K).getLast? = some ⟨0, 0, 0, none⟩ ∧
      (playerxdr_ftable_init K).length = 13 ∧
      ((playerxdr_ftable_init K).map (fun e => (e.interf, e.type, e.subtype))).Nodup ∧
      ∀ e ∈ playerxdr_ftable_init K,
        playerxdr_get_func K.PLAYER_MSGTYPE_REQ K.PLAYER_MSGTYPE_RESP_ACK
          (playerxdr_ftable_init K) e.interf e.type e.subtype = e.func := by
  have hinit : playerxdr_ftable_init K = (init_ftable K).dropLast := rfl
  have hcodes' := List.nodup_reverse.2 hcodes
  have htypes' := List.nodup_reverse.2 htypes
  have hsubs' := List.nodup_reverse.2 hsubs
  simp only [List.reverse_cons, List.reverse_nil, List.nil_append, List.cons_append,
    List.nodup_cons, List.mem_cons, List.mem_singleton, List.not_mem_nil, not_or,
    or_false, List.nodup_nil, and_true, not_false_eq_true]
    at hcodes htypes hsubs hcodes' htypes' hsubs'
  refine ⟨rfl, rfl, rfl, ?_, ?_⟩
  · rw [hinit]
    simp [init_ftable, List.dropLast, hcodes, htypes, hsubs, hcodes', htypes', hsubs']
  · intro e he
    rw [hinit] at he ⊢
    simp only [init_ftable, List.dropLast, List.mem_cons, List.mem_singleton, List.not_mem_nil,
      or_false] at he
    rcases he with rfl | rfl | rfl | rfl | rfl | rfl | rfl | rfl | rfl | rfl | rfl | rfl | rfl <;>
      simp [playerxdr_get_func, init_ftable, List.dropLast, get_func_loop, entry_test,
        hcodes, htypes, hsubs, hcodes', htypes', hsubs']

/-- Witness of C16: the length of the table and a lookup at the sample values. -/
theorem ftable_init_builtin_lookup_witness :
    (playerxdr_ftable_init XdrNames.sample).length = 13 :=
  (ftable_init_builtin_lookup XdrNames.sample (by decide) (by decide) (by decide)).2.2.1

/-! ## `PutMsg` and `ProcessMessages` -/

namespace Driver

variable {σ : Type}

/-- C17: when the device table does not hold the identity looked up, both overloads of
`Driver::PutMsg` return 0 and make no call at all: nothing is handed to the client manager, the
driver's lock is not taken and `DataAvailable` is not called. -/
theorem PutMsg_unregistered_noop (GetDevice : player_device_id → Option Nat) (GetTime : timeval)
    (id : player_device_id) (client : Option ClientData) (hdr : player_msghdr) (cl : ClientData)
    (type : Nat) (src : List Nat) (len : Nat) (timestamp : Option timeval)
    (h1 : GetDevice id = none)
    (h2 : GetDevice { code := hdr.device, index := hdr.device_index, port := cl.port } = none) :
    PutMsg GetDevice GetTime id client type src len timestamp = (0, []) ∧
      PutMsg_hdr GetDevice GetTime hdr cl type src len timestamp = (0, []) := by
  constructor
  · simp only [PutMsg, h1]
  · simp only [PutMsg_hdr, h2]

/-- Witness of C17: an empty device table. -/
theorem PutMsg_unregistered_noop_witness :
    PutMsg (fun _ => none) ⟨100, 0⟩ ⟨6, 0, 6665⟩ none 1 [7] 1 none = (0, []) ∧
      PutMsg_hdr (fun _ => none) ⟨100, 0⟩ ⟨0, 3, 1, 6, 0, 0, 0, 1⟩ ⟨1, 6665⟩ 1 [7] 1 none =
        (0, []) :=
  PutMsg_unregistered_noop (fun _ => none) ⟨100, 0⟩ ⟨6, 0, 6665⟩ none ⟨0, 3, 1, 6, 0, 0, 0, 1⟩
    ⟨1, 6665⟩ 1 [7] 1 none rfl rfl

/-- C18, as stated, fails: for a registered laser device and no timestamp given, `PutMsg` locks,
hands one message stamped with the current time to the client manager, unlocks, and makes no
`DataAvailable` call. -/
theorem PutMsg_registered_no_signal :
    (PutMsg (fun _ => some 1) ⟨100, 0⟩ ⟨6, 0, 6665⟩ none 1 [7] 1 none).2 =
        [PutMsgEvent.Lock, PutMsgEvent.ClientManagerPutMsg 1 6 0 100 0 1 [7] none,
          PutMsgEvent.Unlock] ∧
      PutMsgEvent.DataAvailable ∉
        (PutMsg (fun _ => some 1) ⟨100, 0⟩ ⟨6, 0, 6665⟩ none 1 [7] 1 none).2 ∧
      PutMsgEvent.DataAvailable ∉
        (PutMsg_hdr (fun _ => some 1) ⟨100, 0⟩ ⟨0, 3, 1, 6, 0, 0, 0, 1⟩ ⟨1, 6665⟩ 1 [7] 1 none).2 := by
  decide

/-- C18, amended: when the device table holds the identity looked up, each overload of
`Driver::PutMsg` takes the driver's lock, makes exactly one `clientmanager->PutMsg` call that
carries the given type, the device code and index, the timestamp (the one supplied, otherwise
the current time), the length, the payload buffer and the client, releases the lock and
returns 0; it makes no `DataAvailable` call. -/
theorem PutMsg_registered (GetDevice : player_device_id → Option Nat) (GetTime : timeval)
    (id : player_device_id) (client : Option ClientData) (hdr : player_msghdr) (cl : ClientData)
    (type : Nat) (src : List Nat) (len : Nat) (timestamp : Option timeval) (dev dev2 : Nat)
    (h1 : GetDevice id = some dev)
    (h2 : GetDevice { code := hdr.device, index := hdr.device_index, port := cl.port } =
      some dev2) :
    PutMsg GetDevice GetTime id client type src len timestamp =
        (0, [PutMsgEvent.Lock,
          PutMsgEvent.ClientManagerPutMsg type id.code id.index (timestamp.getD GetTime).tv_sec
            (timestamp.getD GetTime).tv_usec len src client,
          PutMsgEvent.Unlock]) ∧
      PutMsg_hdr GetDevice GetTime hdr cl type src len timestamp =
        (0, [PutMsgEvent.Lock,
          PutMsgEvent.ClientManagerPutMsg type hdr.device hdr.device_index
            (timestamp.getD GetTime).tv_sec (timestamp.getD GetTime).tv_usec len src (some cl),
          PutMsgEvent.Unlock]) ∧
      PutMsgEvent.DataAvailable ∉ (PutMsg GetDevice GetTime id client type src len timestamp).2 ∧
      PutMsgEvent.DataAvailable ∉
        (PutMsg_hdr GetDevice GetTime hdr cl type src len timestamp).2 := by
  have e1 : PutMsg GetDevice GetTime id client type src len timestamp =
      (0, [PutMsgEvent.Lock,
        PutMsgEvent.ClientManagerPutMsg type id.code id.index (timestamp.getD GetTime).tv_sec
          (timestamp.getD GetTime).tv_usec len src client,
        PutMsgEvent.Unlock]) := by
    cases timestamp <;> simp [PutMsg, h1]
  have e2 : PutMsg_hdr GetDevice GetTime hdr cl type src len timestamp =
      (0, [PutMsgEvent.Lock,
        PutMsgEvent.ClientManagerPutMsg type hdr.device hdr.device_index
          (timestamp.getD GetTime).tv_sec (timestamp.getD GetTime).tv_usec len src (some cl),
        PutMsgEvent.Unlock]) := by
    cases timestamp <;> simp [PutMsg_hdr, h2]
  refine ⟨e1, e2, ?_, ?_⟩
  · rw [e1]; simp
  · rw [e2]; simp

/-- Witness of C18, amended: a registered laser device, a timestamp supplied. -/
theorem PutMsg_registered_witness :
    PutMsg (fun _ => some 1) ⟨100, 0⟩ ⟨6, 0, 6665⟩ none 1 [7] 1 (some ⟨42, 5⟩) =
      (0, [PutMsgEvent.Lock,
        PutMsgEvent.ClientManagerPutMsg 1 (⟨6, 0, 6665⟩ : player_device_id).code
          (⟨6, 0, 6665⟩ : player_device_id).index
          ((some (⟨42, 5⟩ : timeval)).getD ⟨100, 0⟩).tv_sec
          ((some (⟨42, 5⟩ : timeval)).getD ⟨100, 0⟩).tv_usec 1 [7] none,
        PutMsgEvent.Unlock]) :=
  (PutMsg_registered (fun _ => some 1) ⟨100, 0⟩ ⟨6, 0, 6665⟩ none ⟨0, 3, 1, 6, 0, 0, 0, 1⟩
    ⟨1, 6665⟩ 1 [7] 1 (some ⟨42, 5⟩) 1 1 rfl rfl).1

theorem handlerCalls_append (a b : List ProcessEvent) :
    handlerCalls (a ++ b) = handlerCalls a ++ handlerCalls b := by
  induction a with
  | nil => rfl
  | cons x a ih => cases x <;> simp [handlerCalls, ih]

theorem ProcessMessages_body_InQueue
    (PM : σ → ClientData → player_msghdr → List Nat → List Nat → Int → HandlerResult σ)
    (MAX : Int) (st : ProcessState σ) (el : InElement) :
    (ProcessMessages_body PM MAX st el).InQueue = st.InQueue := rfl

theorem handlerCalls_body
    (PM : σ → ClientData → player_msghdr → List Nat → List Nat → Int → HandlerResult σ)
    (MAX : Int) (st : ProcessState σ) (el : InElement) :
    handlerCalls (ProcessMessages_body PM MAX st el).events =
      handlerCalls st.events ++ [(el.Client, el.msg.Header, el.msg.Payload)] := by
  simp only [ProcessMessages_body, Message.GetHeader, handlerCalls_append]
  have h1 : handlerCalls (if el.msg.Payload.length ≠ el.msg.Header.size then
      [ProcessEvent.SizeWarn el.msg.Payload.length el.msg.Header.size] else []) = [] := by
    split <;> rfl
  rw [h1]
  split
  · simp [handlerCalls]
  · split <;> simp [handlerCalls]

/-- C20: with no push during the call and no cancellation, `ProcessMessages` returns (a bound
on the `Pop` calls above the queue length is enough, and the result is the same for every such
bound), the inbound queue is then empty, and the `ProcessMessage` calls made are exactly one
for each message that was queued, in queue order, whatever the handler returns. -/
theorem ProcessMessages_hands_over_all
    (PM : σ → ClientData → player_msghdr → List Nat → List Nat → Int → HandlerResult σ)
    (MAX : Int) (fuel : Nat) (st : ProcessState σ) (hfuel : st.InQueue.length < fuel) :
    (ProcessMessages PM MAX fuel st).InQueue = [] ∧
      handlerCalls (ProcessMessages PM MAX fuel st).events =
        handlerCalls st.events ++
          st.InQueue.map (fun el => (el.Client, el.msg.Header, el.msg.Payload)) ∧
      ProcessMessages PM MAX fuel st = ProcessMessages PM MAX (st.InQueue.length + 1) st := by
  induction fuel generalizing st with
  | zero => exact absurd hfuel (Nat.not_lt_zero _)
  | succ n ih =>
    cases hq : st.InQueue with
    | nil =>
      have e : ∀ k, ProcessMessages PM MAX (k + 1) st = { st with InQueue := [] } := by
        intro k
        simp only [ProcessMessages, InQueue_Pop, hq]
      rw [e n, List.length_nil, e 0]
      simp
    | cons el rest =>
      have e : ∀ k, ProcessMessages PM MAX (k + 1) st =
          ProcessMessages PM MAX k
            (ProcessMessages_body PM MAX { st with InQueue := rest } el) := by
        intro k
        simp only [ProcessMessages, InQueue_Pop, hq]
      have hlen : (ProcessMessages_body PM MAX { st with InQueue := rest } el).InQueue.length
          < n := by
        rw [ProcessMessages_body_InQueue]
        rw [hq] at hfuel
        simpa using hfuel
      obtain ⟨h1, h2, h3⟩ := ih (ProcessMessages_body PM MAX { st with InQueue := rest } el) hlen
      rw [e n, List.length_cons, e (rest.length + 1)]
      refine ⟨h1, ?_, ?_⟩
      · rw [h2, handlerCalls_body, ProcessMessages_body_InQueue]
        simp
      · rw [h3, ProcessMessages_body_InQueue]

/-- Witness of C20: two queued requests, the first unhandled (-1), the second answered. -/
theorem ProcessMessages_hands_over_all_witness :
    (ProcessMessages (fun (s : Unit) _ hdr _ rd rl => ⟨(hdr.subtype : Int) - 1, rd, rl, s⟩) 8192 3
        ⟨[⟨⟨⟨0, 3, 0, 6, 0, 0, 0, 1⟩, [7]⟩, ⟨1, 6665⟩⟩, ⟨⟨⟨0, 3, 2, 6, 0, 0, 0, 1⟩, [8]⟩, ⟨2, 6665⟩⟩],
          [], (), []⟩).InQueue = [] :=
  (ProcessMessages_hands_over_all
    (fun (s : Unit) _ hdr _ rd rl => ⟨(hdr.subtype : Int) - 1, rd, rl, s⟩) 8192 3
    ⟨[⟨⟨⟨0, 3, 0, 6, 0, 0, 0, 1⟩, [7]⟩, ⟨1, 6665⟩⟩, ⟨⟨⟨0, 3, 2, 6, 0, 0, 0, 1⟩, [8]⟩, ⟨2, 6665⟩⟩],
      [], (), []⟩ (by decide)).1

end Driver

/-! ## Replacement on `Push`, and the value returned by `PutMsg` -/

namespace MessageQueue

end MessageQueue

namespace Driver

/-- C30: both overloads of `Driver::PutMsg` return 0 whatever the arguments, the device table
and the clock are; the value of the call `clientmanager->PutMsg(..)` is discarded by the code, so
nothing the enqueue does reaches the value returned. -/
theorem PutMsg_always_returns_zero (GetDevice : player_device_id → Option Nat)
    (GetTime : timeval) (id : player_device_id) (client : Option ClientData)
    (hdr : player_msghdr) (hclient : ClientData) (type : Nat) (src : List Nat) (len : Nat)
    (timestamp : Option timeval) :
    (PutMsg GetDevice GetTime id client type src len timestamp).1 = 0 ∧
      (PutMsg_hdr GetDevice GetTime hdr hclient type src len timestamp).1 = 0 := by
  constructor
  · simp only [PutMsg]
    split <;> simp
  · simp only [PutMsg_hdr]
    split <;> simp

end Driver

namespace MessageQueue

/-- C26: on a replace queue (any state reached from a new queue with `Replace` set), a `Push` of
a `DATA` or `CMD` message `m` that compares equal to a queued message unlinks exactly one
element, the matching one nearest the tail, and links `m` at the tail; the other messages stay
in their order.  No message left before `m` has the signature of `m`, so when the queue is
popped empty the messages come out in that order and the first one with the signature of `m`
is `m` itself. -/
theorem replacing_push_removes_nearest_match (D C Maxlen : Nat) (cs : List Call) (m : Message)
    (hT : m.Header.type = D ∨ m.Header.type = C)
    (hx : ∃ x ∈ (run D C (new true Maxlen) cs).elems, x.Compare m = true) :
    ∃ pre x post, (run D C (new true Maxlen) cs).elems = pre ++ x :: post ∧
      x.Compare m = true ∧ (∀ y ∈ post, y.Compare m = false) ∧
      (Push D C (run D C (new true Maxlen) cs) m).2 = some m ∧
      (Push D C (run D C (new true Maxlen) cs) m).1.elems = pre ++ post ++ [m] ∧
      (∀ y ∈ pre ++ post, y.Compare m = false) ∧
      (popN (Push D C (run D C (new true Maxlen) cs) m).1 (pre.length + post.length + 1)).2 =
        (pre ++ post ++ [m]).map some ∧
      ((popN (Push D C (run D C (new true Maxlen) cs) m).1
          (pre.length + post.length + 1)).2.filterMap id).find? (fun y => y.Compare m) =
        some m := by
  have hw := run_Wf D C cs _ (new_Wf true Maxlen)
  have hR : (run D C (new true Maxlen) cs).Replace = true :=
    (run_fields D C cs (new true Maxlen)).2
  have hc : Coalesced D C (run D C (new true Maxlen) cs) :=
    run_Coalesced D C _ _ (new_Wf true Maxlen) rfl (by intro m' _; simp [new])
  generalize run D C (new true Maxlen) cs = q at hx hw hR hc ⊢
  rcases Push_outcomes D C q m hw with ⟨_, _, hno⟩ | ⟨_, _, hno⟩ |
    ⟨_, _, pre, x, post, hq, hxm, hpost, h⟩
  · exfalso
    rcases hno with h | h | h
    · rw [hR] at h; cases h
    · exact absurd hT (not_or.2 h)
    · obtain ⟨x, hxq, hxm⟩ := hx
      rw [h x hxq] at hxm; cases hxm
  · exfalso
    rcases hno with h | h | h
    · rw [hR] at h; cases h
    · exact absurd hT (not_or.2 h)
    · obtain ⟨x, hxq, hxm⟩ := hx
      rw [h x hxq] at hxm; cases hxm
  · have hq' := hc m hT
    rw [hq] at hq'
    simp only [List.countP_append, List.countP_cons, List.countP_nil, hxm, if_true] at hq'
    have hpre : pre.countP (fun x => x.Compare m) = 0 := by omega
    have hpre' := not_mem_of_countP_Compare_eq_zero hpre
    have hothers : ∀ y ∈ pre ++ post, y.Compare m = false := by
      intro y hy
      rcases List.mem_append.1 hy with hy | hy
      · exact hpre' y hy
      · exact hpost y hy
    have hlen : q.Length = pre.length + post.length + 1 := by
      rw [hw.1, hq]; simp; omega
    have hpop : (popN (Push D C q m).1 (pre.length + post.length + 1)).2 =
        (pre ++ post ++ [m]).map some := by
      rw [h, popN_take]
      · show List.map some ((pre ++ post ++ [m]).take (pre.length + post.length + 1)) = _
        rw [List.take_of_length_le]
        simp only [List.length_append, List.length_singleton]
        omega
      · show q.Length = (pre ++ post ++ [m]).length
        rw [hlen]
        simp only [List.length_append, List.length_singleton]
      · show pre.length + post.length + 1 ≤ (pre ++ post ++ [m]).length
        simp only [List.length_append, List.length_singleton]
        omega
    refine ⟨pre, x, post, hq, hxm, hpost, ?_, ?_, hothers, hpop, ?_⟩
    · rw [h]
    · rw [h]
    · rw [hpop]
      have hfm : ((pre ++ post ++ [m]).map some).filterMap id = pre ++ post ++ [m] := by
        rw [List.filterMap_map]
        exact List.filterMap_some _
      rw [hfm, List.find?_append]
      have hnone : (pre ++ post).find? (fun y => y.Compare m) = none := by
        rw [List.find?_eq_none]
        intro y hy
        simp [hothers y hy]
      rw [hnone]
      simp [Message.Compare_self]

theorem replacing_push_removes_nearest_match_witness :
    ∃ pre x post,
      (run 1 2 (new true 4) [Call.Push ⟨⟨0, 3, 1, 6, 0, 0, 0, 0⟩, []⟩,
        Call.Push ⟨⟨0, 1, 5, 6, 0, 10, 0, 1⟩, [7]⟩,
        Call.Push ⟨⟨0, 3, 2, 6, 0, 0, 0, 0⟩, []⟩]).elems = pre ++ x :: post ∧
      (Push 1 2 (run 1 2 (new true 4) [Call.Push ⟨⟨0, 3, 1, 6, 0, 0, 0, 0⟩, []⟩,
        Call.Push ⟨⟨0, 1, 5, 6, 0, 10, 0, 1⟩, [7]⟩,
        Call.Push ⟨⟨0, 3, 2, 6, 0, 0, 0, 0⟩, []⟩]) ⟨⟨0, 1, 5, 6, 0, 11, 0, 1⟩, [8]⟩).1.elems =
        pre ++ post ++ [⟨⟨0, 1, 5, 6, 0, 11, 0, 1⟩, [8]⟩] :=
  have ⟨pre, x, post, h1, _, _, _, h5, _⟩ := replacing_push_removes_nearest_match 1 2 4
    [Call.Push ⟨⟨0, 3, 1, 6, 0, 0, 0, 0⟩, []⟩, Call.Push ⟨⟨0, 1, 5, 6, 0, 10, 0, 1⟩, [7]⟩,
      Call.Push ⟨⟨0, 3, 2, 6, 0, 0, 0, 0⟩, []⟩]
    ⟨⟨0, 1, 5, 6, 0, 11, 0, 1⟩, [8]⟩ (Or.inl rfl)
    ⟨⟨⟨0, 1, 5, 6, 0, 10, 0, 1⟩, [7]⟩, by decide, by decide⟩
  ⟨pre, x, post, h1, h5⟩

end MessageQueue

/-! ## Signalling by `Push`, size mismatches in `ProcessMessages`, the local `type` -/

namespace MessageQueue

/-- C27: every call of `MessageQueue::Push` returns what `Push` returns and broadcasts on the
condition variable exactly once, in `DataAvailable()`, which is called after `Unlock()` and
after which the queue lock is not taken again; this is so when the message is linked and when
it is rejected.  A rejected call warns, returns `NULL` and makes no `pthread_cond_wait` call. -/
theorem Push_signals_once_after_unlock (D C : Nat) (q : MessageQueue) (m : Message) :
    (Push_traced D C q m).1 = Push D C q m ∧
      (Push_traced D C q m).2.count QueueEvent.cond_broadcast = 1 ∧
      QueueEvent.cond_wait ∉ (Push_traced D C q m).2 ∧
      ((Push D C q m).2 = none →
        (Push_traced D C q m).2 =
          [QueueEvent.Lock, QueueEvent.PLAYER_WARN, QueueEvent.Unlock,
            QueueEvent.condMutex_lock, QueueEvent.cond_broadcast,
            QueueEvent.condMutex_unlock]) ∧
      ((Push D C q m).2 = some m →
        (Push_traced D C q m).2 =
          [QueueEvent.Lock, QueueEvent.Unlock,
            QueueEvent.condMutex_lock, QueueEvent.cond_broadcast,
            QueueEvent.condMutex_unlock]) ∧
      ((Push D C q m).2 = none ∨ (Push D C q m).2 = some m) := by
  by_cases h : (pushReplace D C q m).Length ≥ (pushReplace D C q m).Maxlen
  · simp [Push_traced, Push, h, DataAvailable]
  · simp [Push_traced, Push, h, DataAvailable]

end MessageQueue

/-- C25, as stated, fails: with a `REQ` entry in front of a `DATA` entry of the same interface
and another subtype, the lookup of the `DATA` entry returns `NULL`, while the search that tests
every entry against the supplied type returns the function of the `DATA` entry.  The
assignment to `type` made while the `REQ` entry is visited changes the outcome. -/
theorem get_func_differs_from_unmodified_search (REQ ACK DATA I S1 S2 f1 f2 : Nat)
    (hS : S1 ≠ S2) (hDR : DATA ≠ REQ) (hDA : DATA ≠ ACK % 256) :
    playerxdr_get_func REQ ACK
        (playerxdr_ftable_add (playerxdr_ftable_add [] ⟨I, REQ, S1, some f1⟩)
          ⟨I, DATA, S2, some f2⟩) I DATA S2 = none ∧
      get_func_unmodified REQ ACK I DATA S2
        (playerxdr_ftable_add (playerxdr_ftable_add [] ⟨I, REQ, S1, some f1⟩)
          ⟨I, DATA, S2, some f2⟩) = some f2 := by
  have h1 : ¬ REQ = DATA := fun h => hDR h.symm
  have h2 : ¬ DATA = ACK % 256 := hDA
  simp [playerxdr_get_func, playerxdr_ftable_add, get_func_loop, get_func_unmodified, entry_test,
    hS, h1, h2, hDR]

theorem get_func_differs_from_unmodified_search_witness :
    playerxdr_get_func 3 4 (playerxdr_ftable_add (playerxdr_ftable_add [] ⟨5, 3, 1, some 111⟩)
        ⟨5, 1, 2, some 110⟩) 5 1 2 = none ∧
      get_func_unmodified 3 4 5 1 2 (playerxdr_ftable_add
        (playerxdr_ftable_add [] ⟨5, 3, 1, some 111⟩) ⟨5, 1, 2, some 110⟩) = some 110 :=
  get_func_differs_from_unmodified_search 3 4 1 5 1 2 111 110 (by decide) (by decide) (by decide)

namespace Driver

variable {σ : Type}

theorem ProcessMessages_events_extend
    (PM : σ → ClientData → player_msghdr → List Nat → List Nat → Int → HandlerResult σ)
    (MAX : Int) (fuel : Nat) :
    ∀ st : ProcessState σ, ∃ ext, (ProcessMessages PM MAX fuel st).events = st.events ++ ext := by
  induction fuel with
  | zero => intro st; exact ⟨[], by simp [ProcessMessages]⟩
  | succ n ih =>
    intro st
    cases hq : st.InQueue with
    | nil => exact ⟨[], by simp [ProcessMessages, InQueue_Pop, hq]⟩
    | cons el rest =>
      have e : ProcessMessages PM MAX (n + 1) st =
          ProcessMessages PM MAX n
            (ProcessMessages_body PM MAX { st with InQueue := rest } el) := by
        simp only [ProcessMessages, InQueue_Pop, hq]
      obtain ⟨ext, hext⟩ := ih (ProcessMessages_body PM MAX { st with InQueue := rest } el)
      rw [e, hext]
      simp only [ProcessMessages_body, List.append_assoc]
      exact ⟨_, rfl⟩

/-- C28, as stated, fails: of two queued messages, one declaring 3 payload bytes and holding 1,
the other declaring 1 and holding 3, each is handed to `ProcessMessage` with its header and its
payload untouched: the sizes the handler gets are the declared 3 with 1 byte, and the declared
1 with 3 bytes, in neither case the smaller of the two for both. -/
theorem ProcessMessages_sizes_not_clamped :
    (handlerCalls (ProcessMessages (fun (s : Unit) _ _ _ rd rl => ⟨0, rd, rl, s⟩) 8192 3
        ⟨[⟨⟨⟨0, 1, 1, 6, 0, 0, 0, 3⟩, [7]⟩, ⟨1, 6665⟩⟩,
          ⟨⟨⟨0, 1, 2, 6, 0, 0, 0, 1⟩, [7, 8, 9]⟩, ⟨1, 6665⟩⟩], [], (), []⟩).events).map
        (fun c => (c.2.1.size, c.2.2.length, min c.2.1.size c.2.2.length)) =
      [(3, 1, 1), (1, 3, 1)] := by
  decide

/-- C28, amended: when the payload size of the message at the head of the queue differs from
the size declared in its header, `ProcessMessages` emits the warning (with the actual and the
declared size) and then calls `ProcessMessage` with the client, the header and the payload of
the message as they are: the declared size in the header is not reduced and the payload is not
shortened. -/
theorem ProcessMessages_size_mismatch_warns_and_delivers
    (PM : σ → ClientData → player_msghdr → List Nat → List Nat → Int → HandlerResult σ)
    (MAX : Int) (fuel : Nat) (st : ProcessState σ) (el : InElement) (rest : List InElement)
    (hq : st.InQueue = el :: rest) (hsz : el.msg.Payload.length ≠ el.msg.Header.size) :
    ∃ after, (ProcessMessages PM MAX (fuel + 1) st).events =
      st.events ++
        [ProcessEvent.SizeWarn el.msg.Payload.length el.msg.Header.size,
          ProcessEvent.ProcessMessage el.Client el.msg.Header el.msg.Payload] ++ after := by
  have e : ProcessMessages PM MAX (fuel + 1) st =
      ProcessMessages PM MAX fuel
        (ProcessMessages_body PM MAX { st with InQueue := rest } el) := by
    simp only [ProcessMessages, InQueue_Pop, hq]
  obtain ⟨ext, hext⟩ := ProcessMessages_events_extend PM MAX fuel
    (ProcessMessages_body PM MAX { st with InQueue := rest } el)
  rw [e, hext]
  simp only [ProcessMessages_body, Message.GetHeader, hsz, ne_eq, not_false_eq_true, if_true,
    List.append_assoc, List.cons_append, List.nil_append]
  exact ⟨_, rfl⟩

theorem ProcessMessages_size_mismatch_warns_and_delivers_witness :
    ∃ after, (ProcessMessages (fun (s : Unit) _ _ _ rd rl => ⟨0, rd, rl, s⟩) 8192 (1 + 1)
        ⟨[⟨⟨⟨0, 1, 1, 6, 0, 0, 0, 3⟩, [7]⟩, ⟨1, 6665⟩⟩], [], (), []⟩).events =
      [] ++ [ProcessEvent.SizeWarn 1 3,
          ProcessEvent.ProcessMessage ⟨1, 6665⟩ ⟨0, 1, 1, 6, 0, 0, 0, 3⟩ [7]] ++ after :=
  ProcessMessages_size_mismatch_warns_and_delivers
    (fun (s : Unit) _ _ _ rd rl => ⟨0, rd, rl, s⟩) 8192 1
    ⟨[⟨⟨⟨0, 1, 1, 6, 0, 0, 0, 3⟩, [7]⟩, ⟨1, 6665⟩⟩], [], (), []⟩
    ⟨⟨⟨0, 1, 1, 6, 0, 0, 0, 3⟩, [7]⟩, ⟨1, 6665⟩⟩ [] rfl (by decide)

end Driver

/-! ## Concurrent `Subscribe` calls -/

namespace Driver

variable {σ : Type}

/-- Three steps of a thread that runs alone are one call of `Subscribe`. -/
theorem Subscribe_steps_alone (I : DriverImpl σ) (d : Driver σ) :
    Subscribe_steps I 3 (d, SubscribePc.test) =
      ((Subscribe I d).2, SubscribePc.returned (Subscribe I d).1) := by
  by_cases h0 : d.subscriptions = 0
  · by_cases h1 : (I.Setup d.impl).1 = 0
    · simp [Subscribe_steps, Subscribe_step, Subscribe, callSetup, h0, h1]
    · simp [Subscribe_steps, Subscribe_step, Subscribe, callSetup, h0, h1]
  · simp [Subscribe_steps, Subscribe_step, Subscribe, h0]

/-- C24, as stated, fails: on a driver with no subscription and a `Setup()` that succeeds, two
threads in `Subscribe` that both pass the test `subscriptions == 0` before either has counted
its subscription both call `Setup()`: both calls return 0, the count ends at 2, and `Setup()`
has been called twice.  When one thread runs after the other, `Setup()` is called once. -/
theorem Subscribe_concurrent_two_setups (I : DriverImpl σ) (s : σ)
    (hS : ∀ x, (I.Setup x).1 = 0) :
    (Subscribe_interleaved I [false, true, false, true, false, true]
        (init s, SubscribePc.test, SubscribePc.test)).2 =
        (SubscribePc.returned 0, SubscribePc.returned 0) ∧
      (Subscribe_interleaved I [false, true, false, true, false, true]
        (init s, SubscribePc.test, SubscribePc.test)).1.subscriptions = 2 ∧
      (Subscribe_interleaved I [false, true, false, true, false, true]
        (init s, SubscribePc.test, SubscribePc.test)).1.calls =
        [DriverEvent.Setup, DriverEvent.Setup] ∧
      (Subscribe_interleaved I [false, false, false, true, true, true]
        (init s, SubscribePc.test, SubscribePc.test)).1.calls = [DriverEvent.Setup] := by
  simp [Subscribe_interleaved, Subscribe_step, callSetup, init, hS, int_incr, INT_MAX]

theorem Subscribe_concurrent_two_setups_witness :
    (Subscribe_interleaved (⟨fun x => (0, x), fun x => (0, x)⟩ : DriverImpl Unit)
        [false, true, false, true, false, true]
        (init (), SubscribePc.test, SubscribePc.test)).1.calls =
      [DriverEvent.Setup, DriverEvent.Setup] :=
  (Subscribe_concurrent_two_setups (⟨fun x => (0, x), fun x => (0, x)⟩ : DriverImpl Unit) ()
    (fun _ => rfl)).2.2.1

end Driver

/-! ## Message objects: construction, copies and releases -/

namespace Memory

theorem read_eq (M : Memory) (b off n : Nat) (cells : List Nat)
    (hb : M.blocks[b]? = some (some cells)) (hn : off + n ≤ cells.length) :
    M.read ⟨b, off⟩ n = some ((cells.drop off).take n) := by
  simp only [read, hb, hn, if_true]

theorem read_inv (M : Memory) (p : Ptr) (n : Nat) (v : List Nat) (h : M.read p n = some v) :
    ∃ cells, M.blocks[p.block]? = some (some cells) ∧ p.off + n ≤ cells.length ∧
      v = (cells.drop p.off).take n := by
  unfold read at h
  split at h
  · rename_i cells hc
    split at h
    · rename_i hle
      exact ⟨cells, hc, hle, by simpa using h.symm⟩
    · cases h
  · cases h

theorem read_length (M : Memory) (p : Ptr) (n : Nat) (v : List Nat) (h : M.read p n = some v) :
    v.length = n := by
  obtain ⟨cells, _, hle, hv⟩ := read_inv M p n v h
  rw [hv, List.length_take, List.length_drop]
  omega

theorem read_append (M : Memory) (ext : List (Option (List Nat))) (p : Ptr) (n : Nat)
    (v : List Nat) (h : M.read p n = some v) :
    (⟨M.blocks ++ ext⟩ : Memory).read p n = some v := by
  obtain ⟨cells, hc, hle, hv⟩ := read_inv M p n v h
  have hlt : p.block < M.blocks.length := by
    rcases List.getElem?_eq_some.1 hc with ⟨hlt, _⟩
    exact hlt
  have hc' : (M.blocks ++ ext)[p.block]? = some (some cells) := by
    rw [List.getElem?_append_left hlt, hc]
  rw [hv]
  exact read_eq ⟨M.blocks ++ ext⟩ p.block p.off n cells hc' hle

theorem write_eq (M : Memory) (b off : Nat) (vals cells : List Nat)
    (hb : M.blocks[b]? = some (some cells)) (hn : off + vals.length ≤ cells.length) :
    M.write ⟨b, off⟩ vals =
      some ⟨M.blocks.set b (some (cells.take off ++ vals ++ cells.drop (off + vals.length)))⟩ := by
  simp only [write, hb, hn, if_true]

theorem write_inv (M : Memory) (p : Ptr) (vals : List Nat) (M1 : Memory)
    (h : M.write p vals = some M1) :
    ∃ cells, M.blocks[p.block]? = some (some cells) ∧
      M1 = ⟨M.blocks.set p.block
        (some (cells.take p.off ++ vals ++ cells.drop (p.off + vals.length)))⟩ := by
  unfold write at h
  split at h
  · rename_i cells hc
    split at h
    · exact ⟨cells, hc, by simpa using h.symm⟩
    · cases h
  · cases h

theorem delete_eq (M : Memory) (b : Nat) (cells : List Nat)
    (hb : M.blocks[b]? = some (some cells)) :
    M.delete b = some ⟨M.blocks.set b none⟩ := by
  simp only [delete, hb]

end Memory

namespace MessageObject

/-- What the constructor returns when the header and the payload can be read: three new blocks
behind those of the store (the mutex, the buffer holding the header bytes followed by the
payload bytes, the count 1), and the object that points to them. -/
theorem Message_eq (SIZEOF_HDR SIZE_MOD : Nat) (junk : Nat → Nat) (M : Memory)
    (Header data : Ptr) (data_size : Nat) (queue : Option Nat) (h p : List Nat)
    (hpos : 0 < SIZEOF_HDR) (hfit : SIZEOF_HDR + data_size < SIZE_MOD)
    (hH : M.read Header SIZEOF_HDR = some h) (hD : M.read data data_size = some p) :
    Message SIZEOF_HDR SIZE_MOD junk M Header data data_size queue =
      some (⟨M.blocks ++ [some [0], some (h ++ p), some [1]]⟩,
        { Queue := queue, Lock := M.blocks.length, Data := M.blocks.length + 1,
          Size := SIZEOF_HDR + data_size, RefCount := M.blocks.length + 2 },
        [MessageEvent.new_Lock, MessageEvent.pthread_mutex_init,
          MessageEvent.new_Data (SIZEOF_HDR + data_size), MessageEvent.memcpy SIZEOF_HDR,
          MessageEvent.memcpy data_size, MessageEvent.new_RefCount]) := by
  have hhl := Memory.read_length M Header SIZEOF_HDR h hH
  have hpl := Memory.read_length M data data_size p hD
  have hsize : (SIZEOF_HDR + data_size) % SIZE_MOD = SIZEOF_HDR + data_size :=
    Nat.mod_eq_of_lt hfit
  have hne : ¬ (SIZEOF_HDR + data_size = 0) := by omega
  generalize hJ : (List.range (SIZEOF_HDR + data_size)).map junk = J
  have hJl : J.length = SIZEOF_HDR + data_size := by
    rw [← hJ]; simp
  -- the first `memcpy`
  have hr1 : (⟨M.blocks ++ [some [0]] ++ [some J]⟩ : Memory).read Header SIZEOF_HDR = some h := by
    rw [List.append_assoc]
    exact Memory.read_append M _ Header SIZEOF_HDR h hH
  have hb1 : (M.blocks ++ [some [0]] ++ [some J])[M.blocks.length + 1]? = some (some J) := by
    rw [List.append_assoc, List.getElem?_append_right (by omega)]
    simp
  have hw1 : (⟨M.blocks ++ [some [0]] ++ [some J]⟩ : Memory).write ⟨M.blocks.length + 1, 0⟩ h =
      some ⟨M.blocks ++ [some [0], some (h ++ J.drop SIZEOF_HDR)]⟩ := by
    rw [Memory.write_eq _ _ _ _ J hb1 (by omega)]
    congr 2
    rw [List.append_assoc, List.set_append_right _ _ (by omega)]
    simp [hhl]
  -- the second `memcpy`
  have hr2 : (⟨M.blocks ++ [some [0], some (h ++ J.drop SIZEOF_HDR)]⟩ : Memory).read data
      data_size = some p :=
    Memory.read_append M _ data data_size p hD
  have hb2 : (M.blocks ++ [some [0], some (h ++ J.drop SIZEOF_HDR)])[M.blocks.length + 1]? =
      some (some (h ++ J.drop SIZEOF_HDR)) := by
    rw [List.getElem?_append_right (by omega)]
    simp
  have hw2 : (⟨M.blocks ++ [some [0], some (h ++ J.drop SIZEOF_HDR)]⟩ : Memory).write
      ⟨M.blocks.length + 1, SIZEOF_HDR⟩ p = some ⟨M.blocks ++ [some [0], some (h ++ p)]⟩ := by
    rw [Memory.write_eq _ _ _ _ (h ++ J.drop SIZEOF_HDR) hb2
      (by simp only [List.length_append, List.length_drop]; omega)]
    congr 2
    rw [List.set_append_right _ _ (by omega)]
    have e1 : List.take SIZEOF_HDR (h ++ J.drop SIZEOF_HDR) = h := by
      rw [← hhl]; exact List.take_left _ _
    have e2 : List.drop (SIZEOF_HDR + p.length) (h ++ J.drop SIZEOF_HDR) = [] := by
      apply List.drop_of_length_le
      simp only [List.length_append, List.length_drop]
      omega
    rw [e1, e2]
    simp
  simp only [Message, Memory.alloc, Memory.memcpy, hsize, hne, if_false, List.length_append,
    List.length_singleton, hJ, hr1, hw1, hr2, hw2, List.length_cons, List.length_nil]
  simp

end MessageObject
namespace HandleState

theorem live_pos_of_handle (s : HandleState) (i : Nat) (x : MessageObject)
    (hi : s.handles[i]? = some (some x)) : 0 < s.live := by
  unfold live
  rw [List.countP_pos_iff]
  exact ⟨some x, List.getElem?_mem hi, rfl⟩

theorem live_set_none (s : HandleState) (i : Nat) (x : MessageObject)
    (hi : s.handles[i]? = some (some x)) :
    (s.handles.set i none).countP Option.isSome = s.live - 1 := by
  obtain ⟨hlt, hget⟩ := List.getElem?_eq_some.1 hi
  rw [List.countP_set _ _ _ _ hlt, hget]
  simp [live]

theorem live_append_some (s : HandleState) (x : MessageObject) :
    (s.handles ++ [some x]).countP Option.isSome = s.live + 1 := by
  simp [live, List.countP_append]

theorem step_Copy_eq (msg : MessageObject) (data : List Nat) (s : HandleState) (i : Nat)
    (ha : s.Agrees msg data) (hi : s.handles[i]? = some (some msg)) :
    s.step (HandleOp.Copy i) =
      Except.ok
        { mem := ⟨s.mem.blocks.set msg.RefCount (some [(s.live + 1) % (UINT_MAX + 1)])⟩,
          handles := s.handles ++ [some msg],
          calls := s.calls ++
            [MessageEvent.pthread_mutex_lock, MessageEvent.pthread_mutex_unlock] } := by
  have hpos := live_pos_of_handle s i msg hi
  obtain ⟨hR, _, ⟨l, hL⟩, _⟩ := ha.2.1 hpos
  have hne : ¬ (s.live = 0) := by omega
  have r1 : s.mem.read ⟨msg.Lock, 0⟩ 1 = some [l] := by
    rw [Memory.read_eq s.mem msg.Lock 0 1 [l] hL (by simp)]; rfl
  have r2 : s.mem.read ⟨msg.RefCount, 0⟩ 1 = some [s.live] := by
    rw [Memory.read_eq s.mem msg.RefCount 0 1 [s.live] hR (by simp)]; rfl
  have w : s.mem.write ⟨msg.RefCount, 0⟩ [(s.live + 1) % (UINT_MAX + 1)] =
      some ⟨s.mem.blocks.set msg.RefCount (some [(s.live + 1) % (UINT_MAX + 1)])⟩ := by
    rw [Memory.write_eq s.mem msg.RefCount 0 _ [s.live] hR (by simp)]; rfl
  simp only [step, hi, MessageObject.Message_copy, r1, r2, hne, if_false, w]

theorem step_Release_eq (msg : MessageObject) (data : List Nat) (s : HandleState) (i : Nat)
    (hd : msg.Lock ≠ msg.Data ∧ msg.Data ≠ msg.RefCount ∧ msg.Lock ≠ msg.RefCount)
    (ha : s.Agrees msg data) (hi : s.handles[i]? = some (some msg)) (hb : s.live ≤ UINT_MAX) :
    s.step (HandleOp.Release i) =
      Except.ok
        (if s.live = 1 then
          { mem := ⟨(((s.mem.blocks.set msg.RefCount (some [0])).set msg.Data none).set
              msg.RefCount none).set msg.Lock none⟩,
            handles := s.handles.set i none,
            calls := s.calls ++
              [MessageEvent.pthread_mutex_lock, MessageEvent.delete_Data,
                MessageEvent.delete_RefCount, MessageEvent.pthread_mutex_unlock,
                MessageEvent.pthread_mutex_destroy, MessageEvent.delete_Lock] }
        else
          { mem := ⟨s.mem.blocks.set msg.RefCount (some [s.live - 1])⟩,
            handles := s.handles.set i none,
            calls := s.calls ++
              [MessageEvent.pthread_mutex_lock, MessageEvent.pthread_mutex_unlock] }) := by
  have hpos := live_pos_of_handle s i msg hi
  obtain ⟨hR, hD, ⟨l, hL⟩, _⟩ := ha.2.1 hpos
  obtain ⟨hLD, hDR, hLR⟩ := hd
  have hdec : (s.live + UINT_MAX) % (UINT_MAX + 1) = s.live - 1 := by
    have e : s.live + UINT_MAX = (s.live - 1) + (UINT_MAX + 1) := by omega
    rw [e, Nat.add_mod_right, Nat.mod_eq_of_lt (by omega)]
  have hRlt : msg.RefCount < s.mem.blocks.length := (List.getElem?_eq_some.1 hR).1
  have r1 : s.mem.read ⟨msg.Lock, 0⟩ 1 = some [l] := by
    rw [Memory.read_eq s.mem msg.Lock 0 1 [l] hL (by simp)]; rfl
  have r2 : s.mem.read ⟨msg.RefCount, 0⟩ 1 = some [s.live] := by
    rw [Memory.read_eq s.mem msg.RefCount 0 1 [s.live] hR (by simp)]; rfl
  have w : s.mem.write ⟨msg.RefCount, 0⟩ [s.live - 1] =
      some ⟨s.mem.blocks.set msg.RefCount (some [s.live - 1])⟩ := by
    rw [Memory.write_eq s.mem msg.RefCount 0 _ [s.live] hR (by simp)]; rfl
  by_cases h1 : s.live = 1
  · have hz : s.live - 1 = 0 := by omega
    have d1 : (⟨s.mem.blocks.set msg.RefCount (some [0])⟩ : Memory).delete msg.Data =
        some ⟨(s.mem.blocks.set msg.RefCount (some [0])).set msg.Data none⟩ :=
      Memory.delete_eq _ _ data (by
        show (s.mem.blocks.set msg.RefCount (some [0]))[msg.Data]? = _
        rw [List.getElem?_set_ne (Ne.symm hDR)]; exact hD)
    have d2 : (⟨(s.mem.blocks.set msg.RefCount (some [0])).set msg.Data none⟩ : Memory).delete
        msg.RefCount =
        some ⟨((s.mem.blocks.set msg.RefCount (some [0])).set msg.Data none).set
          msg.RefCount none⟩ :=
      Memory.delete_eq _ _ [0] (by
        show ((s.mem.blocks.set msg.RefCount (some [0])).set msg.Data none)[msg.RefCount]? = _
        rw [List.getElem?_set_ne hDR, List.getElem?_set_self hRlt])
    have d3 : (⟨((s.mem.blocks.set msg.RefCount (some [0])).set msg.Data none).set
          msg.RefCount none⟩ : Memory).delete msg.Lock =
        some ⟨(((s.mem.blocks.set msg.RefCount (some [0])).set msg.Data none).set
          msg.RefCount none).set msg.Lock none⟩ :=
      Memory.delete_eq _ _ [l] (by
        show (((s.mem.blocks.set msg.RefCount (some [0])).set msg.Data none).set
          msg.RefCount none)[msg.Lock]? = _
        rw [List.getElem?_set_ne (Ne.symm hLR), List.getElem?_set_ne (Ne.symm hLD),
          List.getElem?_set_ne (Ne.symm hLR)]; exact hL)
    rw [hz] at w
    rw [if_pos h1]
    simp only [step, hi, MessageObject.Message_destructor, MessageObject.DecRef, r1, r2, hdec,
      hz, w, if_true, d1, d2, d3]
  · have hnz : ¬ (s.live - 1 = 0) := by omega
    rw [if_neg h1]
    simp only [step, hi, MessageObject.Message_destructor, MessageObject.DecRef, r1, r2, hdec,
      w, hnz, if_false]

end HandleState
namespace HandleState

theorem step_agrees (msg : MessageObject) (data : List Nat)
    (hd : msg.Lock ≠ msg.Data ∧ msg.Data ≠ msg.RefCount ∧ msg.Lock ≠ msg.RefCount)
    (s : HandleState) (op : HandleOp) (ha : s.Agrees msg data) (hb : s.live ≤ UINT_MAX) :
    s.step op ≠ Except.error HandleError.fault ∧
      ∀ s1, s.step op = Except.ok s1 → s1.live ≤ UINT_MAX → s1.Agrees msg data := by
  have hdead : ∀ (i : Nat) (o : HandleOp), (o = HandleOp.Copy i ∨ o = HandleOp.Release i) →
      (∀ x, s.handles[i]? ≠ some (some x)) → s.step o = Except.error HandleError.deadHandle := by
    intro i o ho hx
    cases hi : s.handles[i]? with
    | none => rcases ho with rfl | rfl <;> simp [step, hi]
    | some y =>
      cases y with
      | none => rcases ho with rfl | rfl <;> simp [step, hi]
      | some x => exact absurd hi (hx x)
  obtain ⟨hLD, hDR, hLR⟩ := hd
  cases op with
  | Copy i =>
    by_cases hx : ∃ x, s.handles[i]? = some (some x)
    · obtain ⟨x, hi⟩ := hx
      have hxm : x = msg := by
        rcases ha.1 _ (List.getElem?_mem hi) with h | h
        · cases h
        · exact Option.some.inj h
      subst hxm
      have hpos := live_pos_of_handle s i x hi
      obtain ⟨hR, hD, ⟨l, hL⟩, hc⟩ := ha.2.1 hpos
      have hRlt : x.RefCount < s.mem.blocks.length := (List.getElem?_eq_some.1 hR).1
      rw [step_Copy_eq x data s i ha hi]
      refine ⟨by simp, ?_⟩
      intro s1 hs1 hb1
      have hs1' := (Except.ok.inj hs1).symm
      subst hs1'
      have hl1 : ∀ (m : Memory) (c : List MessageEvent),
          (HandleState.mk m (s.handles ++ [some x]) c).live = s.live + 1 := by
        intro m c; exact live_append_some s x
      rw [hl1] at hb1
      unfold Agrees
      simp only [hl1]
      have hmod : (s.live + 1) % (UINT_MAX + 1) = s.live + 1 := Nat.mod_eq_of_lt (by omega)
      refine ⟨?_, ?_, ?_⟩
      · intro y hy
        rcases List.mem_append.1 hy with hy | hy
        · exact ha.1 y hy
        · right; simpa using hy
      · intro _
        refine ⟨?_, ?_, ⟨l, ?_⟩, ?_⟩
        · show (s.mem.blocks.set x.RefCount _)[x.RefCount]? = _
          rw [List.getElem?_set_self hRlt, hmod]
        · show (s.mem.blocks.set x.RefCount _)[x.Data]? = _
          rw [List.getElem?_set_ne (Ne.symm hDR)]; exact hD
        · show (s.mem.blocks.set x.RefCount _)[x.Lock]? = _
          rw [List.getElem?_set_ne (Ne.symm hLR)]; exact hL
        · show (s.calls ++ _).count MessageEvent.delete_Data = 0
          rw [List.count_append, hc]; decide
      · intro h0; omega
    · have hx' : ∀ x, s.handles[i]? ≠ some (some x) := fun x h => hx ⟨x, h⟩
      rw [hdead i _ (Or.inl rfl) hx']
      exact ⟨by simp, fun s1 h => by cases h⟩
  | Release i =>
    by_cases hx : ∃ x, s.handles[i]? = some (some x)
    · obtain ⟨x, hi⟩ := hx
      have hxm : x = msg := by
        rcases ha.1 _ (List.getElem?_mem hi) with h | h
        · cases h
        · exact Option.some.inj h
      subst hxm
      have hpos := live_pos_of_handle s i x hi
      obtain ⟨hR, hD, ⟨l, hL⟩, hc⟩ := ha.2.1 hpos
      have hRlt : x.RefCount < s.mem.blocks.length := (List.getElem?_eq_some.1 hR).1
      have hDlt : x.Data < s.mem.blocks.length := (List.getElem?_eq_some.1 hD).1
      have hLlt : x.Lock < s.mem.blocks.length := (List.getElem?_eq_some.1 hL).1
      rw [step_Release_eq x data s i ⟨hLD, hDR, hLR⟩ ha hi hb]
      refine ⟨by simp, ?_⟩
      intro s1 hs1 hb1
      have hs1' := (Except.ok.inj hs1).symm
      subst hs1'
      have hmem : ∀ y ∈ s.handles.set i none, y = none ∨ y = some x := by
        intro y hy
        rcases List.mem_or_eq_of_mem_set hy with h | h
        · exact ha.1 y h
        · exact Or.inl h
      have hl1 : ∀ (m : Memory) (c : List MessageEvent),
          (HandleState.mk m (s.handles.set i none) c).live = s.live - 1 := by
        intro m c; exact live_set_none s i x hi
      by_cases h1 : s.live = 1
      · rw [if_pos h1]
        unfold Agrees
        simp only [hl1]
        refine ⟨hmem, ?_, ?_⟩
        · intro hp
          omega
        · intro _
          refine ⟨?_, ?_, ?_, ?_⟩
          · show ((((s.mem.blocks.set x.RefCount (some [0])).set x.Data none).set
              x.RefCount none).set x.Lock none)[x.RefCount]? = _
            rw [List.getElem?_set_ne hLR, List.getElem?_set_self (by simpa using hRlt)]
          · show ((((s.mem.blocks.set x.RefCount (some [0])).set x.Data none).set
              x.RefCount none).set x.Lock none)[x.Data]? = _
            rw [List.getElem?_set_ne hLD, List.getElem?_set_ne (Ne.symm hDR),
              List.getElem?_set_self (by simpa using hDlt)]
          · show ((((s.mem.blocks.set x.RefCount (some [0])).set x.Data none).set
              x.RefCount none).set x.Lock none)[x.Lock]? = _
            rw [List.getElem?_set_self (by simpa using hLlt)]
          · show (s.calls ++ _).count MessageEvent.delete_Data = 1
            rw [List.count_append, hc]; decide
      · rw [if_neg h1]
        unfold Agrees
        simp only [hl1]
        refine ⟨hmem, ?_, ?_⟩
        · intro _
          refine ⟨?_, ?_, ⟨l, ?_⟩, ?_⟩
          · show (s.mem.blocks.set x.RefCount _)[x.RefCount]? = _
            rw [List.getElem?_set_self hRlt]
          · show (s.mem.blocks.set x.RefCount _)[x.Data]? = _
            rw [List.getElem?_set_ne (Ne.symm hDR)]; exact hD
          · show (s.mem.blocks.set x.RefCount _)[x.Lock]? = _
            rw [List.getElem?_set_ne (Ne.symm hLR)]; exact hL
          · show (s.calls ++ _).count MessageEvent.delete_Data = 0
            rw [List.count_append, hc]; decide
        · intro h0
          omega
    · have hx' : ∀ x, s.handles[i]? ≠ some (some x) := fun x h => hx ⟨x, h⟩
      rw [hdead i _ (Or.inr rfl) hx']
      exact ⟨by simp, fun s1 h => by cases h⟩

theorem handles_run_cons (s : HandleState) (op : HandleOp) (rest : List HandleOp) :
    s.run (op :: rest) =
      match s.step op with
      | Except.ok s1 => s1.run rest
      | Except.error e => Except.error e := rfl

theorem run_agrees (msg : MessageObject) (data : List Nat)
    (hd : msg.Lock ≠ msg.Data ∧ msg.Data ≠ msg.RefCount ∧ msg.Lock ≠ msg.RefCount)
    (ops : List HandleOp) :
    ∀ s : HandleState, s.Agrees msg data → s.live ≤ UINT_MAX →
      (∀ k s1, s.run (ops.take k) = Except.ok s1 → s1.live ≤ UINT_MAX) →
      s.run ops ≠ Except.error HandleError.fault ∧
        ∀ k s1, s.run (ops.take k) = Except.ok s1 → s1.Agrees msg data := by
  induction ops with
  | nil =>
    intro s ha _ _
    refine ⟨by simp [run], ?_⟩
    intro k s1 h
    have : s1 = s := by simpa [run] using h.symm
    rw [this]; exact ha
  | cons op rest ih =>
    intro s ha hb hbound
    obtain ⟨hnf, hstep⟩ := step_agrees msg data hd s op ha hb
    cases hs : s.step op with
    | error e =>
      have he : e ≠ HandleError.fault := by
        intro h; rw [h] at hs; exact hnf hs
      refine ⟨?_, ?_⟩
      · rw [handles_run_cons, hs]
        intro h; exact he (Except.error.inj h)
      · intro k s1 h
        cases k with
        | zero =>
          have : s1 = s := by simpa [run] using h.symm
          rw [this]; exact ha
        | succ k =>
          rw [List.take_succ_cons, handles_run_cons, hs] at h
          cases h
    | ok s' =>
      have hb' : s'.live ≤ UINT_MAX := by
        apply hbound 1 s'
        rw [List.take_succ_cons, List.take_zero, handles_run_cons, hs]
        rfl
      have ha' := hstep s' hs hb'
      have hbound' : ∀ k s1, s'.run (rest.take k) = Except.ok s1 → s1.live ≤ UINT_MAX := by
        intro k s1 h
        apply hbound (k + 1) s1
        rw [List.take_succ_cons, handles_run_cons, hs]
        exact h
      obtain ⟨h1, h2⟩ := ih s' ha' hb' hbound'
      refine ⟨?_, ?_⟩
      · rw [handles_run_cons, hs]; exact h1
      · intro k s1 h
        cases k with
        | zero =>
          have : s1 = s := by simpa [run] using h.symm
          rw [this]; exact ha
        | succ k =>
          rw [List.take_succ_cons, handles_run_cons, hs] at h
          exact h2 k s1 h

end HandleState
namespace HandleState

theorem handles_run_append (a b : List HandleOp) :
    ∀ s : HandleState, s.run (a ++ b) =
      match s.run a with
      | Except.ok s1 => s1.run b
      | Except.error e => Except.error e := by
  induction a with
  | nil => intro s; rfl
  | cons op rest ih =>
    intro s
    rw [List.cons_append, handles_run_cons, handles_run_cons]
    cases s.step op with
    | error e => rfl
    | ok s1 => exact ih s1

theorem run_copies (msg : MessageObject) (data : List Nat)
    (hd : msg.Lock ≠ msg.Data ∧ msg.Data ≠ msg.RefCount ∧ msg.Lock ≠ msg.RefCount) (k : Nat) :
    ∀ s : HandleState, s.Agrees msg data → s.handles[0]? = some (some msg) →
      s.live + k ≤ UINT_MAX →
      ∃ s1, s.run (List.replicate k (HandleOp.Copy 0)) = Except.ok s1 ∧ s1.Agrees msg data ∧
        s1.live = s.live + k ∧ s1.handles[0]? = some (some msg) := by
  induction k with
  | zero => intro s ha h0 _; exact ⟨s, rfl, ha, rfl, h0⟩
  | succ k ih =>
    intro s ha h0 hb
    have hstep := step_Copy_eq msg data s 0 ha h0
    have hlive : ∀ (m : Memory) (c : List MessageEvent),
        (HandleState.mk m (s.handles ++ [some msg]) c).live = s.live + 1 := by
      intro m c; exact live_append_some s msg
    have ha' := (step_agrees msg data hd s (HandleOp.Copy 0) ha (by omega)).2 _ hstep
      (by rw [hlive]; omega)
    have h0' : (s.handles ++ [some msg])[0]? = some (some msg) := by
      rw [List.getElem?_append_left (List.getElem?_eq_some.1 h0).1]; exact h0
    obtain ⟨s1, hr, ha1, hl1, hh1⟩ := ih _ ha' h0' (by rw [hlive]; omega)
    refine ⟨s1, ?_, ha1, ?_, hh1⟩
    · rw [List.replicate_succ, handles_run_cons, hstep]; exact hr
    · rw [hl1, hlive]; omega

end HandleState

namespace MessageObject

/-- C21: when the header (`sizeof(struct player_msghdr)` bytes `h`) and the payload
(`data_size` bytes `p`) can be read and the sum of the two sizes fits the member `Size`, the
constructor returns a message whose buffer is a new block, none of the blocks that existed
(which are all left as they were), of exactly `sizeof(struct player_msghdr) + data_size` bytes:
`h` followed by `p`.  The header and the payload read back are `h` and `p`, the count is 1, and
they stay `h` and `p` after any later store into, or deletion of, a block that existed before
the call, such as the buffers of the caller. -/
theorem Message_owns_copy_of_header_and_payload (SIZEOF_HDR SIZE_MOD : Nat) (junk : Nat → Nat)
    (M : Memory) (Header data : Ptr) (data_size : Nat) (queue : Option Nat) (h p : List Nat)
    (hpos : 0 < SIZEOF_HDR) (hfit : SIZEOF_HDR + data_size < SIZE_MOD)
    (hH : M.read Header SIZEOF_HDR = some h) (hD : M.read data data_size = some p) :
    ∃ M1 msg calls,
      Message SIZEOF_HDR SIZE_MOD junk M Header data data_size queue = some (M1, msg, calls) ∧
      M1.blocks.take M.blocks.length = M.blocks ∧ M.blocks.length ≤ msg.Data ∧
      msg.Size = SIZEOF_HDR + data_size ∧
      M1.blocks[msg.Data]? = some (some (h ++ p)) ∧
      (h ++ p).length = SIZEOF_HDR + data_size ∧
      GetHeader SIZEOF_HDR M1 msg = some h ∧ GetPayload SIZEOF_HDR M1 msg = some p ∧
      GetPayloadSize SIZEOF_HDR msg = data_size ∧
      M1.read ⟨msg.RefCount, 0⟩ 1 = some [1] ∧
      (∀ (q : Ptr) (vals : List Nat) (M2 : Memory), q.block < M.blocks.length →
        M1.write q vals = some M2 →
        GetHeader SIZEOF_HDR M2 msg = some h ∧ GetPayload SIZEOF_HDR M2 msg = some p) ∧
      (∀ (b : Nat) (M2 : Memory), b < M.blocks.length → M1.delete b = some M2 →
        GetHeader SIZEOF_HDR M2 msg = some h ∧ GetPayload SIZEOF_HDR M2 msg = some p) := by
  have hhl := Memory.read_length M Header SIZEOF_HDR h hH
  have hpl := Memory.read_length M data data_size p hD
  have hblock : (M.blocks ++ [some [0], some (h ++ p), some [1]])[M.blocks.length + 1]? =
      some (some (h ++ p)) := by
    rw [List.getElem?_append_right (by omega)]
    simp
  have hcount : (M.blocks ++ [some [0], some (h ++ p), some [1]])[M.blocks.length + 2]? =
      some (some [1]) := by
    rw [List.getElem?_append_right (by omega)]
    simp
  have hlen : (h ++ p).length = SIZEOF_HDR + data_size := by
    rw [List.length_append, hhl, hpl]
  have hreadH : ∀ B : List (Option (List Nat)), B[M.blocks.length + 1]? = some (some (h ++ p)) →
      (⟨B⟩ : Memory).read ⟨M.blocks.length + 1, 0⟩ SIZEOF_HDR = some h := by
    intro B hB
    rw [Memory.read_eq ⟨B⟩ _ 0 SIZEOF_HDR (h ++ p) hB (by omega)]
    rw [List.drop_zero, ← hhl, List.take_left]
  have hreadP : ∀ B : List (Option (List Nat)), B[M.blocks.length + 1]? = some (some (h ++ p)) →
      (⟨B⟩ : Memory).read ⟨M.blocks.length + 1, SIZEOF_HDR⟩ (SIZEOF_HDR + data_size - SIZEOF_HDR) =
        some p := by
    intro B hB
    rw [Memory.read_eq ⟨B⟩ _ SIZEOF_HDR _ (h ++ p) hB (by omega)]
    have e : SIZEOF_HDR + data_size - SIZEOF_HDR = p.length := by omega
    rw [e, ← hhl, List.drop_left, List.take_length]
  refine ⟨_, _, _, Message_eq SIZEOF_HDR SIZE_MOD junk M Header data data_size queue h p hpos hfit
    hH hD, ?_, ?_, rfl, hblock, hlen, hreadH _ hblock, hreadP _ hblock, ?_, ?_, ?_, ?_⟩
  · exact List.take_left _ _
  · show M.blocks.length ≤ M.blocks.length + 1
    omega
  · show SIZEOF_HDR + data_size - SIZEOF_HDR = data_size
    omega
  · rw [Memory.read_eq _ _ 0 1 [1] hcount (by simp)]; rfl
  · intro q vals M2 hq hw
    obtain ⟨cells, _, hM2⟩ := Memory.write_inv _ q vals M2 hw
    have hB : M2.blocks[M.blocks.length + 1]? = some (some (h ++ p)) := by
      rw [hM2]
      show (List.set _ q.block _)[M.blocks.length + 1]? = _
      rw [List.getElem?_set_ne (by omega)]; exact hblock
    exact ⟨hreadH M2.blocks hB, hreadP M2.blocks hB⟩
  · intro b M2 hb hdel
    have hM2 : M2 = ⟨(M.blocks ++ [some [0], some (h ++ p), some [1]]).set b none⟩ := by
      unfold Memory.delete at hdel
      split at hdel
      · exact (Option.some.inj hdel).symm
      · cases hdel
    have hB : M2.blocks[M.blocks.length + 1]? = some (some (h ++ p)) := by
      rw [hM2]
      show (List.set _ b _)[M.blocks.length + 1]? = _
      rw [List.getElem?_set_ne (by omega)]; exact hblock
    exact ⟨hreadH M2.blocks hB, hreadP M2.blocks hB⟩

theorem Message_owns_copy_of_header_and_payload_witness :
    ∃ M1 msg calls,
      Message 8 4294967296 (fun _ => 0) ⟨[some [0, 1, 5, 6, 0, 10, 0, 1], some [7]]⟩
        ⟨0, 0⟩ ⟨1, 0⟩ 1 none = some (M1, msg, calls) ∧
      GetHeader 8 M1 msg = some [0, 1, 5, 6, 0, 10, 0, 1] ∧ GetPayload 8 M1 msg = some [7] :=
  have ⟨M1, msg, calls, h1, _, _, _, _, _, h7, h8, _⟩ :=
    Message_owns_copy_of_header_and_payload 8 4294967296 (fun _ => 0)
      ⟨[some [0, 1, 5, 6, 0, 10, 0, 1], some [7]]⟩ ⟨0, 0⟩ ⟨1, 0⟩ 1 none
      [0, 1, 5, 6, 0, 10, 0, 1] [7] (by decide) (by decide) (by decide) (by decide)
  ⟨M1, msg, calls, h1, h7, h8⟩

/-- C22, as stated, fails: a header that declares 3 payload bytes and a payload of 1 byte
(`data_size = 1`) are made into a message: the constructor returns the object, and the calls
it made contain no warning. -/
theorem Message_accepts_size_mismatch :
    sample_hdr_size [0, 1, 5, 6, 0, 10, 0, 3] = 3 ∧
      Message 8 4294967296 (fun _ => 0) ⟨[some [0, 1, 5, 6, 0, 10, 0, 3], some [7]]⟩
        ⟨0, 0⟩ ⟨1, 0⟩ 1 none =
        some (⟨[some [0, 1, 5, 6, 0, 10, 0, 3], some [7], some [0],
            some [0, 1, 5, 6, 0, 10, 0, 3, 7], some [1]]⟩,
          ⟨none, 2, 3, 9, 4⟩,
          [MessageEvent.new_Lock, MessageEvent.pthread_mutex_init, MessageEvent.new_Data 9,
            MessageEvent.memcpy 8, MessageEvent.memcpy 1, MessageEvent.new_RefCount]) := by
  decide

/-- C22, amended: the constructor does not compare `data_size` with the size that the header
declares (`hdr_size` reads the member `size` from the header bytes): when the two differ, a
message is constructed all the same and no warning is raised; the message keeps the header as
given, next to a payload of `data_size` bytes, so the size it declares still differs from the
size of its payload. -/
theorem Message_constructed_without_size_check (SIZEOF_HDR SIZE_MOD : Nat)
    (hdr_size : List Nat → Nat) (junk : Nat → Nat)
    (M : Memory) (Header data : Ptr) (data_size : Nat) (queue : Option Nat) (h p : List Nat)
    (hpos : 0 < SIZEOF_HDR) (hfit : SIZEOF_HDR + data_size < SIZE_MOD)
    (hH : M.read Header SIZEOF_HDR = some h) (hD : M.read data data_size = some p)
    (hne : hdr_size h ≠ data_size) :
    ∃ M1 msg calls,
      Message SIZEOF_HDR SIZE_MOD junk M Header data data_size queue = some (M1, msg, calls) ∧
      MessageEvent.PLAYER_WARN ∉ calls ∧
      GetHeader SIZEOF_HDR M1 msg = some h ∧
      GetPayloadSize SIZEOF_HDR msg = data_size ∧
      hdr_size h ≠ GetPayloadSize SIZEOF_HDR msg := by
  have hhl := Memory.read_length M Header SIZEOF_HDR h hH
  have hblock : (M.blocks ++ [some [0], some (h ++ p), some [1]])[M.blocks.length + 1]? =
      some (some (h ++ p)) := by
    rw [List.getElem?_append_right (by omega)]
    simp
  have hsz : SIZEOF_HDR + data_size - SIZEOF_HDR = data_size := by omega
  refine ⟨_, _, _, Message_eq SIZEOF_HDR SIZE_MOD junk M Header data data_size queue h p hpos hfit
    hH hD, by simp, ?_, hsz, ?_⟩
  · show Memory.read _ ⟨M.blocks.length + 1, 0⟩ SIZEOF_HDR = some h
    rw [Memory.read_eq _ _ 0 SIZEOF_HDR (h ++ p) hblock
      (by rw [List.length_append, hhl]; omega)]
    rw [List.drop_zero, ← hhl, List.take_left]
  · show hdr_size h ≠ SIZEOF_HDR + data_size - SIZEOF_HDR
    rw [hsz]; exact hne

theorem Message_constructed_without_size_check_witness :
    ∃ M1 msg calls,
      Message 8 4294967296 (fun _ => 0) ⟨[some [0, 1, 5, 6, 0, 10, 0, 3], some [7]]⟩
        ⟨0, 0⟩ ⟨1, 0⟩ 1 none = some (M1, msg, calls) ∧
      MessageEvent.PLAYER_WARN ∉ calls :=
  have ⟨M1, msg, calls, h1, h2, _⟩ :=
    Message_constructed_without_size_check 8 4294967296 sample_hdr_size (fun _ => 0)
      ⟨[some [0, 1, 5, 6, 0, 10, 0, 3], some [7]]⟩ ⟨0, 0⟩ ⟨1, 0⟩ 1 none
      [0, 1, 5, 6, 0, 10, 0, 3] [7] (by decide) (by decide) (by decide) (by decide) (by decide)
  ⟨M1, msg, calls, h1, h2⟩

end MessageObject
namespace HandleState

/-- The state right after the constructor agrees with the message it made. -/
theorem Agrees_constructed (M : Memory) (queue : Option Nat) (Size : Nat) (d : List Nat)
    (calls : List MessageEvent) (hc : calls.count MessageEvent.delete_Data = 0) :
    Agrees ⟨queue, M.blocks.length, M.blocks.length + 1, Size, M.blocks.length + 2⟩ d
      ⟨⟨M.blocks ++ [some [0], some d, some [1]]⟩,
        [some ⟨queue, M.blocks.length, M.blocks.length + 1, Size, M.blocks.length + 2⟩], calls⟩ := by
  have hl : ∀ (m : Memory) (x : MessageObject) (c : List MessageEvent),
      (HandleState.mk m [some x] c).live = 1 := by
    intro m x c; rfl
  unfold Agrees
  simp only [hl]
  refine ⟨?_, ?_, ?_⟩
  · intro x hx
    right
    simpa using hx
  · intro _
    refine ⟨?_, ?_, ⟨0, ?_⟩, hc⟩
    · show (M.blocks ++ [some [0], some d, some [1]])[M.blocks.length + 2]? = _
      rw [List.getElem?_append_right (by omega)]
      simp
    · show (M.blocks ++ [some [0], some d, some [1]])[M.blocks.length + 1]? = _
      rw [List.getElem?_append_right (by omega)]
      simp
    · show (M.blocks ++ [some [0], some d, some [1]])[M.blocks.length]? = _
      rw [List.getElem?_append_right (by omega)]
      simp
  · intro h; cases h

/-- From one live handle, `UINT_MAX - 1` copy constructions and one more: no step fails, the
count is 0 afterwards while `UINT_MAX + 1` handles are live, and the buffer is still there. -/
theorem run_copies_wrap (msg : MessageObject) (data : List Nat)
    (hd : msg.Lock ≠ msg.Data ∧ msg.Data ≠ msg.RefCount ∧ msg.Lock ≠ msg.RefCount)
    (s : HandleState) (ha : s.Agrees msg data) (h0 : s.handles[0]? = some (some msg))
    (hl : s.live = 1) :
    ∃ S, s.run (List.replicate 4294967294 (HandleOp.Copy 0) ++ [HandleOp.Copy 0]) =
        Except.ok S ∧
      S.live = 4294967296 ∧ S.mem.read ⟨msg.RefCount, 0⟩ 1 = some [0] ∧
      S.mem.blocks[msg.Data]? = some (some data) := by
  obtain ⟨s1, hr, ha1, hl1, hh1⟩ := run_copies msg data hd 4294967294 s ha h0
    (by rw [hl]; decide)
  have hl1' : s1.live = 4294967295 := by rw [hl1, hl]
  obtain ⟨hR, hD, _, _⟩ := ha1.2.1 (by omega)
  have hRlt := (List.getElem?_eq_some.1 hR).1
  refine ⟨⟨⟨s1.mem.blocks.set msg.RefCount (some [(s1.live + 1) % (UINT_MAX + 1)])⟩,
    s1.handles ++ [some msg],
    s1.calls ++ [MessageEvent.pthread_mutex_lock, MessageEvent.pthread_mutex_unlock]⟩,
    ?_, ?_, ?_, ?_⟩
  · rw [handles_run_append, hr]
    show run s1 [HandleOp.Copy 0] = _
    rw [handles_run_cons, step_Copy_eq msg data s1 0 ha1 hh1]
    rfl
  · show (s1.handles ++ [some msg]).countP Option.isSome = 4294967296
    rw [live_append_some, hl1']
  · rw [Memory.read_eq _ _ 0 1 [(s1.live + 1) % (UINT_MAX + 1)]
      (List.getElem?_set_self hRlt) (by simp)]
    rw [hl1']
    rfl
  · show (s1.mem.blocks.set _ _)[_]? = _
    rw [List.getElem?_set_ne (Ne.symm hd.2.1)]
    exact hD

/-- C23, as stated, fails: from a message just constructed, `UINT_MAX - 1` copy constructions
and one more bring the number of live handles to `UINT_MAX + 1`; no step fails, the count is
then 0, and the buffer is still there. -/
theorem refcount_wraps_with_live_handles :
    MessageObject.Message 8 4294967296 (fun _ => 0)
        ⟨[some [0, 1, 5, 6, 0, 10, 0, 1], some [7]]⟩ ⟨0, 0⟩ ⟨1, 0⟩ 1 none =
        some (⟨[some [0, 1, 5, 6, 0, 10, 0, 1], some [7], some [0],
            some [0, 1, 5, 6, 0, 10, 0, 1, 7], some [1]]⟩,
          ⟨none, 2, 3, 9, 4⟩,
          [MessageEvent.new_Lock, MessageEvent.pthread_mutex_init, MessageEvent.new_Data 9,
            MessageEvent.memcpy 8, MessageEvent.memcpy 1, MessageEvent.new_RefCount]) ∧
      ∃ S, run ⟨⟨[some [0, 1, 5, 6, 0, 10, 0, 1], some [7], some [0],
            some [0, 1, 5, 6, 0, 10, 0, 1, 7], some [1]]⟩, [some ⟨none, 2, 3, 9, 4⟩],
          [MessageEvent.new_Lock, MessageEvent.pthread_mutex_init, MessageEvent.new_Data 9,
            MessageEvent.memcpy 8, MessageEvent.memcpy 1, MessageEvent.new_RefCount]⟩
          (List.replicate 4294967294 (HandleOp.Copy 0) ++ [HandleOp.Copy 0]) = Except.ok S ∧
        S.live = 4294967296 ∧ S.mem.read ⟨4, 0⟩ 1 = some [0] ∧
        S.mem.blocks[3]? = some (some [0, 1, 5, 6, 0, 10, 0, 1, 7]) := by
  refine ⟨by decide, ?_⟩
  exact run_copies_wrap ⟨none, 2, 3, 9, 4⟩ [0, 1, 5, 6, 0, 10, 0, 1, 7] (by decide) _
    (Agrees_constructed ⟨[some [0, 1, 5, 6, 0, 10, 0, 1], some [7]]⟩ none 9
      [0, 1, 5, 6, 0, 10, 0, 1, 7] _ (by decide)) rfl rfl

/-- C23, amended: for every sequence of copy constructions and releases of handles to a message
just constructed, such that every step is made on a live handle and the number of live handles
never exceeds `UINT_MAX`: the count starts at 1; no step fails; after every step during which a
handle is live the count is the number of live handles (at least 1), the buffer holds what the
constructor put there and `delete [] Data` has not been executed; after the step that releases
the last handle the buffer is deleted and `delete [] Data` has been executed exactly once. -/
theorem refcount_counts_live_handles (SIZEOF_HDR SIZE_MOD : Nat) (junk : Nat → Nat)
    (M : Memory) (Header data : Ptr) (data_size : Nat) (queue : Option Nat) (h p : List Nat)
    (M1 : Memory) (msg : MessageObject) (calls : List MessageEvent) (ops : List HandleOp)
    (hpos : 0 < SIZEOF_HDR) (hfit : SIZEOF_HDR + data_size < SIZE_MOD)
    (hH : M.read Header SIZEOF_HDR = some h) (hD : M.read data data_size = some p)
    (hM : MessageObject.Message SIZEOF_HDR SIZE_MOD junk M Header data data_size queue =
      some (M1, msg, calls))
    (hbound : ∀ k s, run ⟨M1, [some msg], calls⟩ (ops.take k) = Except.ok s →
      s.live ≤ UINT_MAX) :
    M1.read ⟨msg.RefCount, 0⟩ 1 = some [1] ∧
      run ⟨M1, [some msg], calls⟩ ops ≠ Except.error HandleError.fault ∧
      ∀ k s, run ⟨M1, [some msg], calls⟩ (ops.take k) = Except.ok s →
        (0 < s.live →
          s.mem.read ⟨msg.RefCount, 0⟩ 1 = some [s.live] ∧
            s.mem.blocks[msg.Data]? = some (some (h ++ p)) ∧
            s.calls.count MessageEvent.delete_Data = 0) ∧
        (s.live = 0 →
          s.mem.blocks[msg.Data]? = some none ∧
            s.calls.count MessageEvent.delete_Data = 1) := by
  have hM' := MessageObject.Message_eq SIZEOF_HDR SIZE_MOD junk M Header data data_size queue h p
    hpos hfit hH hD
  rw [hM] at hM'
  have e := Option.some.inj hM'
  have e1 : M1 = ⟨M.blocks ++ [some [0], some (h ++ p), some [1]]⟩ := congrArg Prod.fst e
  have e2 : msg = ⟨queue, M.blocks.length, M.blocks.length + 1, SIZEOF_HDR + data_size,
      M.blocks.length + 2⟩ := congrArg (fun t => t.2.1) e
  have e3 : calls = [MessageEvent.new_Lock, MessageEvent.pthread_mutex_init,
      MessageEvent.new_Data (SIZEOF_HDR + data_size), MessageEvent.memcpy SIZEOF_HDR,
      MessageEvent.memcpy data_size, MessageEvent.new_RefCount] := congrArg (fun t => t.2.2) e
  have hc : calls.count MessageEvent.delete_Data = 0 := by
    rw [e3]; rfl
  have ha : Agrees msg (h ++ p) ⟨M1, [some msg], calls⟩ := by
    rw [e1, e2]
    exact Agrees_constructed M queue _ (h ++ p) calls hc
  have hd : msg.Lock ≠ msg.Data ∧ msg.Data ≠ msg.RefCount ∧ msg.Lock ≠ msg.RefCount := by
    rw [e2]
    refine ⟨?_, ?_, ?_⟩ <;> simp
  have hb0 : (HandleState.mk M1 [some msg] calls).live ≤ UINT_MAX := by
    show 1 ≤ UINT_MAX
    decide
  obtain ⟨hnf, hall⟩ := run_agrees msg (h ++ p) hd ops _ ha hb0 hbound
  have hstart := (ha.2.1 (by show 0 < 1; omega)).1
  refine ⟨?_, hnf, ?_⟩
  · rw [Memory.read_eq M1 msg.RefCount 0 1 [1] hstart (by simp)]; rfl
  · intro k s hs
    have hag := hall k s hs
    refine ⟨?_, ?_⟩
    · intro hp
      obtain ⟨hR, hDt, _, hcnt⟩ := hag.2.1 hp
      refine ⟨?_, hDt, hcnt⟩
      rw [Memory.read_eq s.mem msg.RefCount 0 1 [s.live] hR (by simp)]; rfl
    · intro h0
      obtain ⟨_, hDt, _, hcnt⟩ := hag.2.2 h0
      exact ⟨hDt, hcnt⟩

theorem refcount_counts_live_handles_witness :
    (run ⟨⟨[some [0, 1, 5, 6, 0, 10, 0, 1], some [7], some [0],
          some [0, 1, 5, 6, 0, 10, 0, 1, 7], some [1]]⟩, [some ⟨none, 2, 3, 9, 4⟩],
        [MessageEvent.new_Lock, MessageEvent.pthread_mutex_init, MessageEvent.new_Data 9,
          MessageEvent.memcpy 8, MessageEvent.memcpy 1, MessageEvent.new_RefCount]⟩
      [HandleOp.Copy 0, HandleOp.Release 0, HandleOp.Release 1]) ≠
      Except.error HandleError.fault :=
  (refcount_counts_live_handles 8 4294967296 (fun _ => 0)
    ⟨[some [0, 1, 5, 6, 0, 10, 0, 1], some [7]]⟩ ⟨0, 0⟩ ⟨1, 0⟩ 1 none
    [0, 1, 5, 6, 0, 10, 0, 1] [7]
    ⟨[some [0, 1, 5, 6, 0, 10, 0, 1], some [7], some [0],
      some [0, 1, 5, 6, 0, 10, 0, 1, 7], some [1]]⟩ ⟨none, 2, 3, 9, 4⟩
    [MessageEvent.new_Lock, MessageEvent.pthread_mutex_init, MessageEvent.new_Data 9,
      MessageEvent.memcpy 8, MessageEvent.memcpy 1, MessageEvent.new_RefCount]
    [HandleOp.Copy 0, HandleOp.Release 0, HandleOp.Release 1]
    (by decide) (by decide) (by decide) (by decide) (by decide)
    (by
      intro k s hs
      have key : ∀ l : List HandleOp,
          l ∈ [[], [HandleOp.Copy 0], [HandleOp.Copy 0, HandleOp.Release 0],
            [HandleOp.Copy 0, HandleOp.Release 0, HandleOp.Release 1]] →
          (match run ⟨⟨[some [0, 1, 5, 6, 0, 10, 0, 1], some [7], some [0],
              some [0, 1, 5, 6, 0, 10, 0, 1, 7], some [1]]⟩, [some ⟨none, 2, 3, 9, 4⟩],
              [MessageEvent.new_Lock, MessageEvent.pthread_mutex_init, MessageEvent.new_Data 9,
                MessageEvent.memcpy 8, MessageEvent.memcpy 1, MessageEvent.new_RefCount]⟩ l with
            | Except.ok t => t.live
            | Except.error _ => 0) ≤ UINT_MAX := by
        decide
      have hk : List.take k [HandleOp.Copy 0, HandleOp.Release 0, HandleOp.Release 1] ∈
          [[], [HandleOp.Copy 0], [HandleOp.Copy 0, HandleOp.Release 0],
            [HandleOp.Copy 0, HandleOp.Release 0, HandleOp.Release 1]] := by
        rcases k with _ | _ | _ | k <;> simp
      have h2 := key _ hk
      rw [hs] at h2
      exact h2)).2.1

end HandleState

end Player
